import Mathlib

/-!
# YASK: named-dimension tuples and grid metadata

A shallow embedding of the coordinate-and-storage engine of YASK
(`src/common/tests/tuple_test.cpp`, `src/kernel/lib/realv_grids.cpp`) and of
the option parsing of its fold builder (`src/foldBuilder/main.cpp`).

Integers of the program (`int`, `idx_t`, `size_t`) are embedded as unbounded
`Int`; the statements below are about runs without arithmetic overflow.
A fatal exit (`exit_yask(1)`) is embedded as a result value that carries the
kind of error and the object's fields at the moment of the exit.
-/

namespace yask

/-! ## Tuples -/

/-- Modelled from the spec: the class `Tuple` of `tuple.hpp`, a header that is
not among the sources (only its test is). An ordered sequence of
(name, value) pairs in insertion order, with the first-inner / last-inner
flag captured per tuple. -/
structure Tuple where
  /-- the (name, value) pairs in insertion order -/
  _q : List (String × Int)
  /-- whether the first dimension (in insertion order) varies fastest -/
  _firstInner : Bool
deriving DecidableEq

namespace Tuple

/-- Modelled from the spec: `getNumDims` of `tuple.hpp`, the number of
dimensions. -/
def getNumDims (t : Tuple) : Nat := t._q.length

/-- Modelled from the spec: the dimension names of a tuple, in insertion
order (`getDimName(i)` of `tuple.hpp` is the entry at position `i`). -/
def getDimNames (t : Tuple) : List String := t._q.map Prod.fst

/-- Modelled from the spec: the values of a tuple in insertion order. -/
def getVals (t : Tuple) : List Int := t._q.map Prod.snd

/-- Modelled from the spec: `getDimName(i)` of `tuple.hpp`, lookup by
position (0-based, insertion order). -/
def getDimName (t : Tuple) (i : Nat) : String := t.getDimNames.getD i ""

/-- Modelled from the spec: `getVal(i)` / `operator[](int)` of `tuple.hpp`,
lookup by position (0-based, insertion order). -/
def getVal (t : Tuple) (i : Nat) : Int := t.getVals.getD i 0

/-- Modelled from the spec: `lookup(name)` of `tuple.hpp`, lookup by name;
`none` when the name is absent. -/
def lookup (t : Tuple) (dim : String) : Option Int := t._q.lookup dim

/-- Modelled from the spec: `product()` of `tuple.hpp`, the product of all
dimension values. -/
def product (t : Tuple) : Int := t.getVals.prod

/-- Modelled from the spec: `addDimBack(name, value)` of `tuple.hpp`, on a
name that is not yet present. -/
def addDimBack (t : Tuple) (dim : String) (val : Int) : Tuple :=
  { t with _q := t._q ++ [(dim, val)] }

/-- Modelled from the spec: the traversal order of `layout` in `tuple.hpp`,
from the slowest-varying to the fastest-varying dimension. The fastest-varying
dimension is the first in insertion order if first-inner, the last if
last-inner. -/
def slowFirst (t : Tuple) : List (String × Int) :=
  if t._firstInner then t._q.reverse else t._q

/-- Modelled from the spec: `layout` of `tuple.hpp`. The sizes are the values
of `sizes`; the dimensions are traversed from the slowest to the
fastest-varying one and the index accumulates
`index = index * size[dim] + coordinate[dim]`. The coordinate is looked up by
name; a dimension of `sizes` that `offsets` does not have is passed over. -/
def layout (sizes offsets : Tuple) : Int :=
  sizes.slowFirst.foldl
    (fun idx d =>
      match offsets.lookup d.1 with
      | some c => idx * d.2 + c
      | none => idx)
    0

/-- Modelled from the spec: the repeated divmod of `unlayout` in `tuple.hpp`,
over the sizes listed from the fastest-varying dimension to the slowest (the
reverse of the traversal order of `layout`). -/
def unlayoutVals : List Int → Int → List Int
  | [], _ => []
  | s :: rest, i => (i % s) :: unlayoutVals rest (i / s)

/-- Modelled from the spec: `unlayout` of `tuple.hpp`. The result has the
dimensions of `sizes`, in the same order and with the same flag; its values
are recovered from the linear index by repeated divmod, fastest-varying
dimension first. -/
def unlayout (sizes : Tuple) (offset : Int) : Tuple :=
  { _q := List.zip sizes.getDimNames
      (if sizes._firstInner then unlayoutVals sizes.getVals offset
       else (unlayoutVals sizes.getVals.reverse offset).reverse)
    _firstInner := sizes._firstInner }

/-- Coordinate `p` is over the dimensions of `sizes` (same names, same order)
and in range: `0 <= p[d] < sizes[d]` in every dimension. -/
def inRange (sizes p : Tuple) : Prop :=
  p.getDimNames = sizes.getDimNames ∧
    List.Forall₂ (fun s c => 0 ≤ c ∧ c < s) sizes.getVals p.getVals

end Tuple

/-! ### Arithmetic of the mixed-radix scheme on plain lists -/

/-- The accumulation `index = index * size + coordinate` over a list of
(size, coordinate) pairs, slowest-varying first. -/
def horner (acc : Int) (l : List (Int × Int)) : Int :=
  l.foldl (fun idx sc => idx * sc.1 + sc.2) acc

/-- A list as traversed from the slowest-varying dimension. -/
def slowOrder {α : Type} (firstInner : Bool) (l : List α) : List α :=
  if firstInner then l.reverse else l

namespace Tuple

/-- Modelled from the spec: the coordinate space of `visitAllPoints` in
`tuple.hpp`, as lists of values. The sizes are listed from the slowest-varying
dimension; every dimension runs over `0 .. size-1`, the slowest-varying
dimension in the outermost loop and the fastest-varying one innermost. -/
def pointVals : List Int → List (List Int)
  | [] => [[]]
  | s :: rest =>
    (List.range s.toNat).flatMap (fun i => (pointVals rest).map (fun c => (i : Int) :: c))

/-- Modelled from the spec: the coordinates that `visitAllPoints` of
`tuple.hpp` produces, in the order in which it produces them; every coordinate
carries the dimension names (and the flag) of the tuple. -/
def visitPoints (t : Tuple) : List Tuple :=
  (pointVals (slowOrder t._firstInner t.getVals)).map
    (fun c => ⟨List.zip t.getDimNames (slowOrder t._firstInner c), t._firstInner⟩)

/-- Modelled from the spec: the loop of `visitAllPoints` in `tuple.hpp`. The
callback receives the coordinate and the running index; a `false` return stops
the enumeration. The state `σ` stands for what the callback captures. -/
def visitLoop {σ : Type} (visitor : Tuple → Nat → σ → Bool × σ) :
    List Tuple → Nat → σ → σ
  | [], _, st => st
  | pt :: rest, idx, st =>
    if (visitor pt idx st).1 then visitLoop visitor rest (idx + 1) (visitor pt idx st).2
    else (visitor pt idx st).2

/-- Modelled from the spec: `visitAllPoints(callback)` of `tuple.hpp`. -/
def visitAllPoints {σ : Type} (t : Tuple) (visitor : Tuple → Nat → σ → Bool × σ)
    (st : σ) : σ :=
  visitLoop visitor t.visitPoints 0 st

/-- The invocations `(coordinate, index)` that `visitAllPoints` makes of a
callback that always returns `true`, in order: the callback that records its
arguments. -/
def visitTrace (t : Tuple) : List (Tuple × Nat) :=
  t.visitAllPoints (fun c k tr => (true, tr ++ [(c, k)])) []

end Tuple

/-! ## Grids (`src/kernel/lib/realv_grids.cpp`) -/

/-- Modelled from the spec: `lookup_posn(dim)` of `tuple.hpp`, the position of
a name in insertion order; `none` stands for the `-1` of an absent name. -/
def Tuple.lookup_posn (t : Tuple) (dim : String) : Option Nat :=
  if t.getDimNames.indexOf dim < t.getNumDims then some (t.getDimNames.indexOf dim)
  else none

/-- Modelled from the spec: `setVal(i, val)` of `tuple.hpp`, overwrite the
value at position `i`. -/
def Tuple.setVal (t : Tuple) (i : Nat) (val : Int) : Tuple :=
  { t with _q := t._q.modify (fun d => (d.1, val)) i }

/-- Modelled from the spec: the macro `ROUND_UP(n, mult)` of the kernel
headers, which are not among the sources: `n` rounded up to the nearest
multiple of `mult`, that is the least multiple of `mult` that is `>= n`
(for `mult >= 1`; for `n >= 0` this is `((n + mult - 1) / mult) * mult` in the
arithmetic of the program as well). -/
def ROUND_UP (n mult : Int) : Int := (n + mult - 1) / mult * mult

/-- Modelled from the spec: the fixed-capacity index array `Indices` of the
kernel headers, one `idx_t` per dimension position. -/
abbrev Indices := Nat → Int

/-- The caller-side index list `GridIndices` (a `std::vector<idx_t>`). -/
abbrev GridIndices := List Int

/-- Values of grid elements (`real_t`). Elements are only stored and read
back; a value is kept as the code of its bit pattern. -/
abbrev real_t := Nat

/-- The three kinds of dimension. -/
inductive DimKind where
  | step
  | domain
  | misc
deriving DecidableEq

/-- The fatal exits (`exit_yask(1)`) of `realv_grids.cpp`, by the message that
precedes them. -/
inductive Fatal where
  /-- In `get_dim_posn`: dimension not used in grid -/
  | dimNotFound
  /-- In `checkDimType`: dimension is not used in grid -/
  | dimNotUsed
  /-- In `Dims::checkDimType`: operation not legal for the kind of the dimension -/
  | dimKind
  /-- In `resize`: attempt to change required grid size after storage has been allocated -/
  | resizeAfterAlloc
  /-- In `share_storage`: called without source storage allocated -/
  | shareNoSource
  /-- In `share_storage`: called with incompatible grids -/
  | shareIncompatible
  /-- In `share_storage`: alloc sizes differ in a non-domain dimension -/
  | shareAllocSize
  /-- In `share_storage`: domain sizes differ in a domain dimension -/
  | shareDomainSize
  /-- In `share_storage`: padding of the source insufficient for the halo -/
  | sharePadSize
  /-- In `share_storage`: unexpected failure in data sharing -/
  | shareData
  /-- In `checkIndices`: wrong number of indices -/
  | numIndices
  /-- In `checkIndices`: index out of range, strict -/
  | indexRange
  /-- In `get_element`, `get_elements_in_slice`: no data allocated -/
  | noStorage
deriving DecidableEq

/-- The problem dimensions `_dims` as far as `realv_grids.cpp` reads them: the
name of the step dimension (`_dims->_step_dim`) and the tuple of the domain
dimensions (`_dims->_domain_dims`). -/
structure Dims where
  _step_dim : String
  _domain_dims : Tuple

/-- Modelled from the spec: the kind of a dimension name. The step dimension is
the one named `_step_dim` (as `checkIndices` tests it), a domain dimension is
one found in `_domain_dims` (as `share_storage` tests it), every other
dimension is a misc dimension. -/
def Dims.kind (d : Dims) (dim : String) : DimKind :=
  if dim = d._step_dim then DimKind.step
  else if (d._domain_dims.lookup dim).isSome then DimKind.domain
  else DimKind.misc

/-- Modelled from the spec: `Dims::checkDimType` of the kernel headers, which
are not among the sources: a fatal error unless the kind of the dimension is
one the caller accepts. -/
def Dims.checkDimType (d : Dims) (dim : String) (step_ok domain_ok misc_ok : Bool) :
    Except Fatal Unit :=
  match d.kind dim with
  | DimKind.step => if step_ok then Except.ok () else Except.error Fatal.dimKind
  | DimKind.domain => if domain_ok then Except.ok () else Except.error Fatal.dimKind
  | DimKind.misc => if misc_ok then Except.ok () else Except.error Fatal.dimKind

/-- Modelled from the spec: the raw storage buffer of a grid, the element at
each linear position. -/
structure Storage where
  elems : Nat → real_t

/-- The fields of `YkGridBase` that `realv_grids.cpp` reads and writes. The
underlying generic grid `_ggb` is present through its dimension tuple
(`_ggb->get_dims()`, names and sizes in vectors) and its storage
(`get_raw_storage_buffer()`, `none` when null). Fold lengths (`_vec_lens`) are
`1` for a dimension that is not folded and larger otherwise; a division by a
fold length of `0`, undefined in the program, is the `0` of `Int` division
here. -/
structure YkGridBase where
  _dims : Dims
  ggb_dims : Tuple
  storage : Option Storage
  _domains : Indices
  _pads : Indices
  _halos : Indices
  _offsets : Indices
  _vec_lens : Indices
  _allocs : Indices
  _vec_pads : Indices
  _vec_allocs : Indices
  /-- the flag written by `set_updated` -/
  is_updated : Bool

/-- A call that ended in `exit_yask(1)`: the kind of error and the fields of the
grid at that moment. -/
abbrev GridFatal := Fatal × YkGridBase

namespace YkGridBase

/-- Modelled from the spec: `get_num_dims()` of the kernel headers, the number
of dimensions of the grid. -/
def get_num_dims (g : YkGridBase) : Nat := g.ggb_dims.getNumDims

/-- Modelled from the spec: `get_dim_name(i)` of the kernel headers, the name of
the dimension at position `i` in declared order. -/
def get_dim_name (g : YkGridBase) (i : Nat) : String := g.ggb_dims.getDimName i

/-- Modelled from the spec: `is_dim_used(dim)` of the kernel headers, whether a
dimension name is present in the grid. -/
def is_dim_used (g : YkGridBase) (dim : String) : Bool :=
  (g.ggb_dims.lookup_posn dim).isSome

/-- Modelled from the spec: `get_raw_storage_buffer()` of the kernel headers, as
the test the source makes of it: whether the storage pointer is non-null. -/
def get_raw_storage_buffer (g : YkGridBase) : Bool := g.storage.isSome

/-- Modelled from the spec: `get_allocs()` of the kernel headers, the
dimensions of the grid with the allocation sizes as values. -/
def get_allocs (g : YkGridBase) : Tuple :=
  { _q := (List.range g.get_num_dims).map (fun i => (g.get_dim_name i, g._allocs i))
    _firstInner := g.ggb_dims._firstInner }

/-- Embeds `get_dim_posn(dim, true, msg)`: position of a dimension by name; fatal when
the name is not found. -/
def get_dim_posn (g : YkGridBase) (dim : String) : Except Fatal Nat :=
  match g.ggb_dims.lookup_posn dim with
  | some posn => Except.ok posn
  | none => Except.error Fatal.dimNotFound

/-- Embeds `checkDimType(dim, fn_name, step_ok, domain_ok, misc_ok)`. -/
def checkDimType (g : YkGridBase) (dim : String) (step_ok domain_ok misc_ok : Bool) :
    Except Fatal Unit :=
  if !g.is_dim_used dim then Except.error Fatal.dimNotUsed
  else g._dims.checkDimType dim step_ok domain_ok misc_ok

/-- First loop of `resize()`: every pad is rounded up to a multiple of the fold
length of its dimension, and `_vec_pads` follows. -/
def roundPads (g : YkGridBase) : YkGridBase :=
  { g with
    _pads := fun i =>
      if i < g.get_num_dims then ROUND_UP (g._pads i) (g._vec_lens i) else g._pads i
    _vec_pads := fun i =>
      if i < g.get_num_dims then
        Int.tdiv (ROUND_UP (g._pads i) (g._vec_lens i)) (g._vec_lens i)
      else g._vec_pads i }

/-- Second loop of `resize()`: `new_allocs`, created with every entry `1`,
computed from the domains and the (rounded) pads. -/
def newAllocs (g : YkGridBase) : Indices := fun i =>
  if i < g.get_num_dims then ROUND_UP (g._domains i + 2 * g._pads i) (g._vec_lens i)
  else 1

/-- Second loop of `resize()`: `new_size`, the running product of the entries
of `new_allocs`. -/
def newSize (g : YkGridBase) : Int :=
  (List.range g.get_num_dims).foldl (fun acc i => acc * g.newAllocs i) 1

/-- Last loop of `resize()`: `_ggb->set_dim_size(i, _vec_allocs[i])` for every
dimension. -/
def setDimSizes (t : Tuple) (vals : Indices) (n : Nat) : Tuple :=
  (List.range n).foldl (fun acc i => acc.setVal i (vals i)) t

/-- Embeds `YkGridBase::resize()`. Modifies `_pads` and `_allocs`; fatal if the total
size differs and storage is already allocated. -/
def resize (g : YkGridBase) : Except GridFatal YkGridBase :=
  let old_size := g.get_allocs.product
  let g1 := g.roundPads
  let new_allocs := g1.newAllocs
  let new_size := g1.newSize
  if g1.get_raw_storage_buffer && old_size != new_size then
    Except.error (Fatal.resizeAfterAlloc, g1)
  else
    let vec_allocs : Indices := fun i =>
      if i < g1.get_num_dims then Int.tdiv (new_allocs i) (g1._vec_lens i)
      else g1._vec_allocs i
    Except.ok
      { g1 with
        _allocs := new_allocs
        _vec_allocs := vec_allocs
        ggb_dims := setDimSizes g1.ggb_dims vec_allocs g1.get_num_dims }

/-- The macro `GET_GRID_API`: position by name, check of the kind, then the
expression. -/
def GET_GRID_API (step_ok domain_ok misc_ok : Bool) (expr : YkGridBase → Nat → Int)
    (g : YkGridBase) (dim : String) : Except Fatal Int :=
  match g.get_dim_posn dim with
  | Except.error e => Except.error e
  | Except.ok posn =>
    match g.checkDimType dim step_ok domain_ok misc_ok with
    | Except.error e => Except.error e
    | Except.ok _ => Except.ok (expr g posn)

def get_rank_domain_size := GET_GRID_API false true false (fun g posn => g._domains posn)
def get_pad_size := GET_GRID_API false true false (fun g posn => g._pads posn)
def get_halo_size := GET_GRID_API false true false (fun g posn => g._halos posn)
def get_first_misc_index := GET_GRID_API false false true (fun g posn => g._offsets posn)
def get_last_misc_index :=
  GET_GRID_API false false true (fun g posn => g._offsets posn + g._domains posn - 1)
def get_first_rank_domain_index :=
  GET_GRID_API false true false (fun g posn => g._offsets posn)
def get_last_rank_domain_index :=
  GET_GRID_API false true false (fun g posn => g._offsets posn + g._domains posn - 1)
def get_first_rank_alloc_index :=
  GET_GRID_API false true false (fun g posn => g._offsets posn - g._pads posn)
def get_last_rank_alloc_index :=
  GET_GRID_API false true false
    (fun g posn => g._offsets posn - g._pads posn + g._allocs posn - 1)
def get_extra_pad_size :=
  GET_GRID_API false true false (fun g posn => g._pads posn - g._halos posn)
def get_alloc_size := GET_GRID_API true true true (fun g posn => g._allocs posn)
def _get_offset := GET_GRID_API true true true (fun g posn => g._offsets posn)
def _get_first_allowed_index :=
  GET_GRID_API true true true (fun g posn => g._offsets posn - g._pads posn)
def _get_last_allowed_index :=
  GET_GRID_API true true true
    (fun g posn => g._offsets posn - g._pads posn + g._allocs posn - 1)

/-- The macro `SET_GRID_API`: position by name, check of the kind, then the
expression, which may itself end in a fatal exit. -/
def SET_GRID_API (step_ok domain_ok misc_ok : Bool)
    (expr : YkGridBase → Nat → Except GridFatal YkGridBase)
    (g : YkGridBase) (dim : String) : Except GridFatal YkGridBase :=
  match g.get_dim_posn dim with
  | Except.error e => Except.error (e, g)
  | Except.ok posn =>
    match g.checkDimType dim step_ok domain_ok misc_ok with
    | Except.error e => Except.error (e, g)
    | Except.ok _ => expr g posn

/-- Embeds `_set_pad_size(dim, n)`: `_pads[posn] = std::max(n, _halos[posn]); resize()`. -/
def _set_pad_size (g : YkGridBase) (dim : String) (n : Int) : Except GridFatal YkGridBase :=
  SET_GRID_API true true true
    (fun g posn =>
      resize { g with _pads := Function.update g._pads posn (max n (g._halos posn)) })
    g dim

/-- Embeds `_set_domain_size(dim, n)`: `_domains[posn] = n; resize()`. -/
def _set_domain_size (g : YkGridBase) (dim : String) (n : Int) :
    Except GridFatal YkGridBase :=
  SET_GRID_API true true true
    (fun g posn => resize { g with _domains := Function.update g._domains posn n })
    g dim

/-- Embeds `_set_offset(dim, n)`: `_offsets[posn] = n`. -/
def _set_offset (g : YkGridBase) (dim : String) (n : Int) : Except GridFatal YkGridBase :=
  SET_GRID_API true true true
    (fun g posn => Except.ok { g with _offsets := Function.update g._offsets posn n })
    g dim

/-- Embeds `set_halo_size(dim, n)`: `_halos[posn] = n; _set_pad_size(dim, _pads[posn])`. -/
def set_halo_size (g : YkGridBase) (dim : String) (n : Int) : Except GridFatal YkGridBase :=
  SET_GRID_API false true false
    (fun g posn =>
      _set_pad_size { g with _halos := Function.update g._halos posn n } dim (g._pads posn))
    g dim

/-- Embeds `set_min_pad_size(dim, n)`: `if (n > _pads[posn]) _set_pad_size(dim, n)`. -/
def set_min_pad_size (g : YkGridBase) (dim : String) (n : Int) :
    Except GridFatal YkGridBase :=
  SET_GRID_API false true false
    (fun g posn => if n > g._pads posn then _set_pad_size g dim n else Except.ok g)
    g dim

/-- Embeds `set_extra_pad_size(dim, n)`: `set_min_pad_size(dim, _halos[posn] + n)`. -/
def set_extra_pad_size (g : YkGridBase) (dim : String) (n : Int) :
    Except GridFatal YkGridBase :=
  SET_GRID_API false true false
    (fun g posn => set_min_pad_size g dim (g._halos posn + n))
    g dim

/-- Embeds `set_first_misc_index(dim, n)`: `_offsets[posn] = n`. -/
def set_first_misc_index (g : YkGridBase) (dim : String) (n : Int) :
    Except GridFatal YkGridBase :=
  SET_GRID_API false false true
    (fun g posn => Except.ok { g with _offsets := Function.update g._offsets posn n })
    g dim

/-- Embeds `set_alloc_size(dim, n)`: `_set_domain_size(dim, n)`. -/
def set_alloc_size (g : YkGridBase) (dim : String) (n : Int) : Except GridFatal YkGridBase :=
  SET_GRID_API true false true (fun g _ => _set_domain_size g dim n) g dim

end YkGridBase

/-- The result of a `resize()` that returns. -/
def YkGridBase.resized (g : YkGridBase) : YkGridBase :=
  { g.roundPads with
    _allocs := g.roundPads.newAllocs
    _vec_allocs := fun i =>
      if i < g.roundPads.get_num_dims then
        Int.tdiv (g.roundPads.newAllocs i) (g.roundPads._vec_lens i)
      else g.roundPads._vec_allocs i
    ggb_dims := YkGridBase.setDimSizes g.roundPads.ggb_dims
      (fun i =>
        if i < g.roundPads.get_num_dims then
          Int.tdiv (g.roundPads.newAllocs i) (g.roundPads._vec_lens i)
        else g.roundPads._vec_allocs i)
      g.roundPads.get_num_dims }

/-- The calls of the setters generated by `SET_GRID_API`. -/
inductive SetterCall where
  | set_halo_size (dim : String) (n : Int)
  | set_min_pad_size (dim : String) (n : Int)
  | set_extra_pad_size (dim : String) (n : Int)
  | set_first_misc_index (dim : String) (n : Int)
  | set_alloc_size (dim : String) (n : Int)
  | _set_domain_size (dim : String) (n : Int)
  | _set_pad_size (dim : String) (n : Int)
  | _set_offset (dim : String) (n : Int)

namespace SetterCall

/-- The call applied to a grid. -/
def run : SetterCall → YkGridBase → Except GridFatal YkGridBase
  | set_halo_size dim n, g => g.set_halo_size dim n
  | set_min_pad_size dim n, g => g.set_min_pad_size dim n
  | set_extra_pad_size dim n, g => g.set_extra_pad_size dim n
  | set_first_misc_index dim n, g => g.set_first_misc_index dim n
  | set_alloc_size dim n, g => g.set_alloc_size dim n
  | _set_domain_size dim n, g => g._set_domain_size dim n
  | _set_pad_size dim n, g => g._set_pad_size dim n
  | _set_offset dim n, g => g._set_offset dim n

/-- The dimension named in the call. -/
def dim : SetterCall → String
  | set_halo_size dim _ => dim
  | set_min_pad_size dim _ => dim
  | set_extra_pad_size dim _ => dim
  | set_first_misc_index dim _ => dim
  | set_alloc_size dim _ => dim
  | _set_domain_size dim _ => dim
  | _set_pad_size dim _ => dim
  | _set_offset dim _ => dim

/-- The kinds the setter accepts: its `step_ok, domain_ok, misc_ok`. -/
def kinds : SetterCall → Bool × Bool × Bool
  | set_halo_size _ _ => (false, true, false)
  | set_min_pad_size _ _ => (false, true, false)
  | set_extra_pad_size _ _ => (false, true, false)
  | set_first_misc_index _ _ => (false, false, true)
  | set_alloc_size _ _ => (true, false, true)
  | _set_domain_size _ _ => (true, true, true)
  | _set_pad_size _ _ => (true, true, true)
  | _set_offset _ _ => (true, true, true)

/-- The named dimension is used in the grid and of a kind the setter accepts:
the check at the entry of the setter passes. -/
def accepted (c : SetterCall) (g : YkGridBase) : Prop :=
  g.checkDimType c.dim c.kinds.1 c.kinds.2.1 c.kinds.2.2 = Except.ok ()

/-- Position of the named dimension (`0` when it is not used). -/
def posn (c : SetterCall) (g : YkGridBase) : Nat :=
  (g.ggb_dims.lookup_posn c.dim).getD 0

/-- Whether the expression of the setter reaches `resize()`, for an accepted
dimension. -/
def runsResize : SetterCall → YkGridBase → Bool
  | set_halo_size _ _, _ => true
  | set_min_pad_size dim n, g =>
    decide (n > g._pads ((set_min_pad_size dim n).posn g))
  | set_extra_pad_size dim n, g =>
    decide (g._halos ((set_extra_pad_size dim n).posn g) + n
      > g._pads ((set_extra_pad_size dim n).posn g))
  | set_first_misc_index _ _, _ => false
  | set_alloc_size _ _, _ => true
  | _set_domain_size _ _, _ => true
  | _set_pad_size _ _, _ => true
  | _set_offset _ _, _ => false

/-- The fields as the expression of the setter has written them when it
reaches `resize()` (or returns without reaching it), for an accepted
dimension. -/
def assign : SetterCall → YkGridBase → YkGridBase
  | set_halo_size dim n, g =>
    let p := (set_halo_size dim n).posn g
    { g with
      _halos := Function.update g._halos p n
      _pads := Function.update g._pads p (max (g._pads p) (Function.update g._halos p n p)) }
  | set_min_pad_size dim n, g =>
    let p := (set_min_pad_size dim n).posn g
    if n > g._pads p then
      { g with _pads := Function.update g._pads p (max n (g._halos p)) }
    else g
  | set_extra_pad_size dim n, g =>
    let p := (set_extra_pad_size dim n).posn g
    if g._halos p + n > g._pads p then
      { g with _pads := Function.update g._pads p (max (g._halos p + n) (g._halos p)) }
    else g
  | set_first_misc_index dim n, g =>
    { g with _offsets := Function.update g._offsets ((set_first_misc_index dim n).posn g) n }
  | set_alloc_size dim n, g =>
    { g with _domains := Function.update g._domains ((set_alloc_size dim n).posn g) n }
  | _set_domain_size dim n, g =>
    { g with _domains := Function.update g._domains ((_set_domain_size dim n).posn g) n }
  | _set_pad_size dim n, g =>
    let p := (_set_pad_size dim n).posn g
    { g with _pads := Function.update g._pads p (max n (g._halos p)) }
  | _set_offset dim n, g =>
    { g with _offsets := Function.update g._offsets ((_set_offset dim n).posn g) n }

end SetterCall

/-- An index array with the given leading entries, `0` elsewhere. -/
def Indices.ofList (l : List Int) : Indices := fun i => l.getD i 0

/-- Problem dimensions with step dimension `t` and domain dimensions `x`, `y`. -/
def dimsTXY : Dims :=
  { _step_dim := "t", _domain_dims := ⟨[("x", 0), ("y", 0)], true⟩ }

/-- A grid over `x`, `y` without storage: fold lengths 4 and 1, domains 6 and
3, pad and halo 1 in `x`, sizes not yet computed. -/
def gridA : YkGridBase :=
  { _dims := dimsTXY
    ggb_dims := ⟨[("x", 1), ("y", 1)], true⟩
    storage := none
    _domains := Indices.ofList [6, 3]
    _pads := Indices.ofList [1, 0]
    _halos := Indices.ofList [1, 0]
    _offsets := Indices.ofList [0, 0]
    _vec_lens := Indices.ofList [4, 1]
    _allocs := Indices.ofList [1, 1]
    _vec_pads := Indices.ofList [0, 0]
    _vec_allocs := Indices.ofList [1, 1]
    is_updated := false }

/-- A grid over `x`, `y` with storage attached: fold lengths 1, domains 0 and
2, no pad or halo, allocation sizes 0 and 2 as `resize()` computes them. -/
def gridB : YkGridBase :=
  { _dims := dimsTXY
    ggb_dims := ⟨[("x", 0), ("y", 2)], true⟩
    storage := some ⟨fun _ => 0⟩
    _domains := Indices.ofList [0, 2]
    _pads := Indices.ofList [0, 0]
    _halos := Indices.ofList [0, 0]
    _offsets := Indices.ofList [0, 0]
    _vec_lens := Indices.ofList [1, 1]
    _allocs := Indices.ofList [0, 2]
    _vec_pads := Indices.ofList [0, 0]
    _vec_allocs := Indices.ofList [0, 2]
    is_updated := false }

/-- A grid over `x`, `y` with storage attached: fold lengths 1, domains 3 and
2, no pad or halo, allocation sizes 3 and 2 as `resize()` computes them. -/
def gridC : YkGridBase :=
  { _dims := dimsTXY
    ggb_dims := ⟨[("x", 3), ("y", 2)], true⟩
    storage := some ⟨fun _ => 0⟩
    _domains := Indices.ofList [3, 2]
    _pads := Indices.ofList [0, 0]
    _halos := Indices.ofList [0, 0]
    _offsets := Indices.ofList [0, 0]
    _vec_lens := Indices.ofList [1, 1]
    _allocs := Indices.ofList [3, 2]
    _vec_pads := Indices.ofList [0, 0]
    _vec_allocs := Indices.ofList [3, 2]
    is_updated := false }

namespace YkGridBase

/-- The loop of `checkIndices` over the dimensions `is` still to visit, with the
flag `ok` and the content of `*fixed_indices` so far (`none` when the pointer is
null). -/
def checkIndicesLoop (g : YkGridBase) (indices : GridIndices) (strict_indices : Bool) :
    List Nat → Bool × Option GridIndices → Except Fatal (Bool × Option GridIndices)
  | [], st => Except.ok st
  | i :: rest, (ok, fixed) =>
    let idx := indices.getD i 0
    let fixed1 := fixed.map (fun f => f ++ [idx])
    let dname := g.get_dim_name i
    if dname = g._dims._step_dim then
      checkIndicesLoop g indices strict_indices rest (ok, fixed1)
    else
      match g._get_first_allowed_index dname with
      | Except.error e => Except.error e
      | Except.ok first_ok =>
        match g._get_last_allowed_index dname with
        | Except.error e => Except.error e
        | Except.ok last_ok =>
          if idx < first_ok ∨ idx > last_ok then
            if strict_indices then Except.error Fatal.indexRange
            else
              checkIndicesLoop g indices strict_indices rest
                (false,
                  fixed1.map (fun f =>
                    let f1 := if idx < first_ok then f.set i first_ok else f
                    if idx > last_ok then f1.set i last_ok else f1))
          else checkIndicesLoop g indices strict_indices rest (ok, fixed1)

/-- Embeds `YkGridBase::checkIndices(indices, fn, strict_indices, fixed_indices)`.
The argument `fixed_indices` tells whether the pointer is non-null; the result
is the returned flag and, for a non-null pointer, the final `*fixed_indices`. -/
def checkIndices (g : YkGridBase) (indices : GridIndices) (strict_indices : Bool)
    (fixed_indices : Bool) : Except Fatal (Bool × Option GridIndices) :=
  if indices.length ≠ g.get_num_dims then Except.error Fatal.numIndices
  else
    g.checkIndicesLoop indices strict_indices (List.range g.get_num_dims)
      (true, if fixed_indices then some [] else none)

end YkGridBase

/-- Whether the value for dimension `i` passes the range test of
`checkIndices`: the dimension is the step dimension, or the value lies in
`offset - pad .. offset - pad + alloc - 1`. -/
def YkGridBase.indexAllowed (g : YkGridBase) (indices : GridIndices) (i : Nat) : Bool :=
  decide (g.get_dim_name i = g._dims._step_dim ∨
    (g._offsets i - g._pads i ≤ indices.getD i 0 ∧
      indices.getD i 0 ≤ g._offsets i - g._pads i + g._allocs i - 1))

/-- A grid over `t`, `x` with storage attached: step dimension `t` of size 2,
domain dimension `x` with domain 4, pad 1 and offset 10, so that the allowed
indices in `x` are `9 .. 14`. -/
def gridT : YkGridBase :=
  { _dims := dimsTXY
    ggb_dims := ⟨[("t", 2), ("x", 6)], true⟩
    storage := some ⟨fun _ => 0⟩
    _domains := Indices.ofList [2, 4]
    _pads := Indices.ofList [0, 1]
    _halos := Indices.ofList [0, 1]
    _offsets := Indices.ofList [0, 10]
    _vec_lens := Indices.ofList [1, 1]
    _allocs := Indices.ofList [2, 6]
    _vec_pads := Indices.ofList [0, 1]
    _vec_allocs := Indices.ofList [2, 6]
    is_updated := false }

/-- The value that `checkIndices` leaves in `*fixed_indices` for dimension `i`:
the value supplied for the step dimension and every value within
`offset - pad .. offset - pad + alloc - 1` as they are, a value below the first
allowed index set to it and then a value above the last allowed index set to
that one. -/
def YkGridBase.fixedIndex (g : YkGridBase) (indices : GridIndices) (i : Nat) : Int :=
  if g.get_dim_name i = g._dims._step_dim then indices.getD i 0
  else if indices.getD i 0 > g._offsets i - g._pads i + g._allocs i - 1 then
    g._offsets i - g._pads i + g._allocs i - 1
  else if indices.getD i 0 < g._offsets i - g._pads i then g._offsets i - g._pads i
  else indices.getD i 0

/-! ## Element and slice access -/

namespace Tuple

/-- Modelled from the spec: the values of a tuple rewritten position by position,
the names kept; the common shape of `setVals`, `addElements` and `subElements`
of `tuple.hpp`. -/
def mapVals (t : Tuple) (f : Nat → Int → Int) : Tuple :=
  { t with _q := t._q.enum.map (fun p => (p.2.1, f p.1 p.2.2)) }

/-- Modelled from the spec: `setVals(vals)` of `tuple.hpp` for a vector of
values, which overwrites the values by position. -/
def setVals (t : Tuple) (vals : List Int) : Tuple :=
  t.mapVals (fun i v => vals.getD i v)

/-- Modelled from the spec: `addElements(c)` of `tuple.hpp` for a scalar, added
to every value. -/
def addConst (t : Tuple) (c : Int) : Tuple := t.mapVals (fun _ v => v + c)

/-- Modelled from the spec: `addElements(other)` of `tuple.hpp`, elementwise sum
of two tuples over the same dimensions; values are paired positionally. -/
def addElements (t u : Tuple) : Tuple := t.mapVals (fun i v => v + u.getVal i)

/-- Modelled from the spec: `subElements(other)` of `tuple.hpp`, elementwise
difference of two tuples over the same dimensions; values are paired
positionally. -/
def subElements (t u : Tuple) : Tuple := t.mapVals (fun i v => v - u.getVal i)

end Tuple

namespace YkGridBase

/-- Modelled from the spec: `is_storage_allocated()` of the kernel headers,
whether a storage buffer is attached. -/
def is_storage_allocated (g : YkGridBase) : Bool := g.storage.isSome

/-- Modelled from the spec: the allocation-relative index that `readElem` and
`writeElem` of the kernel headers use for dimension `i`. The index of the step
dimension wraps around: it is taken modulo the allocated extent. Any other
logical index `v` is the allocation-relative index `v - offset + pad` (the
inverse of `offset - pad + val`, by which `compare` goes back). -/
def allocIndex (g : YkGridBase) (idxs : Indices) (i : Nat) : Int :=
  if g.get_dim_name i = g._dims._step_dim then idxs i % g._allocs i
  else idxs i - g._offsets i + g._pads i

/-- Modelled from the spec: the allocation-relative coordinate of a logical
coordinate, as a tuple over the dimensions of the grid. -/
def allocPoint (g : YkGridBase) (idxs : Indices) : Tuple :=
  { _q := (List.range g.get_num_dims).map (fun i => (g.get_dim_name i, g.allocIndex idxs i))
    _firstInner := g.ggb_dims._firstInner }

/-- Modelled from the spec: the flat storage offset of the element at a logical
coordinate, the `layout` of its allocation-relative coordinate in the tuple of
the allocation sizes. -/
def elemPosn (g : YkGridBase) (idxs : Indices) : Nat :=
  (g.get_allocs.layout (g.allocPoint idxs)).toNat

/-- Modelled from the spec: `readElem(idxs, line)` of the kernel headers, the
element of the attached storage at a logical coordinate. -/
def readElem (g : YkGridBase) (s : Storage) (idxs : Indices) : real_t :=
  s.elems (g.elemPosn idxs)

/-- Modelled from the spec: `writeElem(val, idxs, line)` of the kernel headers,
which overwrites the element of the attached storage at a logical coordinate. -/
def writeElem (g : YkGridBase) (s : Storage) (val : real_t) (idxs : Indices) : Storage :=
  { elems := Function.update s.elems (g.elemPosn idxs) val }

/-- Embeds `YkGridBase::get_element(indices)`. The conversion of the `real_t`
read to `double` is not represented. -/
def get_element (g : YkGridBase) (indices : GridIndices) : Except Fatal real_t :=
  match g.storage with
  | none => Except.error Fatal.noStorage
  | some s =>
    match g.checkIndices indices true false with
    | Except.error e => Except.error e
    | Except.ok _ => Except.ok (g.readElem s (Indices.ofList indices))

/-- Embeds `YkGridBase::set_element(val, indices, strict_indices)`: the number of
elements updated and the grid afterwards. Without storage `checkIndices` is not
called (`&&`). The conversion of the `double` to `real_t` is not represented;
`set_updated(false)` is the write of `is_updated`. -/
def set_element (g : YkGridBase) (val : real_t) (indices : GridIndices)
    (strict_indices : Bool) : Except GridFatal (Int × YkGridBase) :=
  match g.storage with
  | none => Except.ok (0, g)
  | some s =>
    match g.checkIndices indices strict_indices false with
    | Except.error e => Except.error (e, g)
    | Except.ok (false, _) => Except.ok (0, g)
    | Except.ok (true, _) =>
      Except.ok (1,
        { g with
          storage := some (g.writeElem s val (Indices.ofList indices))
          is_updated := false })

/-- The tuple `firstTuple` (and `lastTuple`) of the slice functions:
`get_allocs()` with the values set from a coordinate list. -/
def sliceTuple (g : YkGridBase) (indices : GridIndices) : Tuple :=
  g.get_allocs.setVals indices

/-- The tuple `numElemsTuple` of the slice functions:
`lastTuple.addElements(1).subElements(firstTuple)`. -/
def numElemsTuple (g : YkGridBase) (first_indices last_indices : GridIndices) : Tuple :=
  ((g.sliceTuple last_indices).addConst 1).subElements (g.sliceTuple first_indices)

/-- The point `pt = firstTuple.addElements(ofs)` visited in a slice, as the
index array handed to `readElem` and `writeElem`. -/
def slicePoint (g : YkGridBase) (first_indices : GridIndices) (ofs : Tuple) : Indices :=
  Indices.ofList ((g.sliceTuple first_indices).addElements ofs).getVals

/-- Embeds `YkGridBase::get_elements_in_slice(buffer_ptr, first_indices,
last_indices)`: the number of elements copied and the caller's buffer
afterwards. The state of the visit is the counter `i` and the buffer. -/
def get_elements_in_slice (g : YkGridBase) (buffer : Nat → real_t)
    (first_indices last_indices : GridIndices) : Except Fatal (Nat × (Nat → real_t)) :=
  match g.storage with
  | none => Except.error Fatal.noStorage
  | some s =>
    match g.checkIndices first_indices true false with
    | Except.error e => Except.error e
    | Except.ok _ =>
      match g.checkIndices last_indices true false with
      | Except.error e => Except.error e
      | Except.ok _ =>
        Except.ok
          ((g.numElemsTuple first_indices last_indices).visitAllPoints
            (fun ofs _ (st : Nat × (Nat → real_t)) =>
              (true,
                (st.1 + 1,
                  Function.update st.2 st.1 (g.readElem s (g.slicePoint first_indices ofs)))))
            (0, buffer))

/-- The visit of the slice functions that write: every point of the region gets
the value `vals i`, where `i` is the counter of the visit; the result is the
final counter and the storage afterwards. -/
def sliceVisitWrite (g : YkGridBase) (s : Storage) (vals : Nat → real_t)
    (first_indices last_indices : GridIndices) : Nat × Storage :=
  (g.numElemsTuple first_indices last_indices).visitAllPoints
    (fun ofs _ (st : Nat × Storage) =>
      (true, (st.1 + 1, g.writeElem st.2 (vals st.1) (g.slicePoint first_indices ofs))))
    (0, s)

/-- Embeds `YkGridBase::set_elements_in_slice(buffer_ptr, first_indices,
last_indices)`: the number of elements copied and the grid afterwards; the
value written at the `i`-th point is `buffer[i]`. -/
def set_elements_in_slice (g : YkGridBase) (buffer : Nat → real_t)
    (first_indices last_indices : GridIndices) : Except GridFatal (Nat × YkGridBase) :=
  match g.storage with
  | none => Except.ok (0, g)
  | some s =>
    match g.checkIndices first_indices true false with
    | Except.error e => Except.error (e, g)
    | Except.ok _ =>
      match g.checkIndices last_indices true false with
      | Except.error e => Except.error (e, g)
      | Except.ok _ =>
        Except.ok
          ((g.sliceVisitWrite s buffer first_indices last_indices).1,
            { g with
              storage := some (g.sliceVisitWrite s buffer first_indices last_indices).2 })

/-- Embeds `YkGridBase::set_elements_in_slice_same(val, first_indices,
last_indices, strict_indices)`: the number of elements written and the grid
afterwards. The two calls of `checkIndices` fill the local copies `first` and
`last`, which the rest of the function does not read; the region is bounded by
`first_indices` and `last_indices`. -/
def set_elements_in_slice_same (g : YkGridBase) (val : real_t)
    (first_indices last_indices : GridIndices) (strict_indices : Bool) :
    Except GridFatal (Nat × YkGridBase) :=
  match g.storage with
  | none => Except.ok (0, g)
  | some s =>
    match g.checkIndices first_indices strict_indices true with
    | Except.error e => Except.error (e, g)
    | Except.ok _ =>
      match g.checkIndices last_indices strict_indices true with
      | Except.error e => Except.error (e, g)
      | Except.ok _ =>
        Except.ok
          ((g.sliceVisitWrite s (fun _ => val) first_indices last_indices).1,
            { g with
              storage :=
                some (g.sliceVisitWrite s (fun _ => val) first_indices last_indices).2 })

end YkGridBase

/-- A grid over `x`, `y` with storage attached: domain sizes 3 and 2, no pad or
halo, offsets 0; the storage holds the value 0 everywhere. -/
def gridXY : YkGridBase :=
  { _dims := dimsTXY
    ggb_dims := ⟨[("x", 3), ("y", 2)], true⟩
    storage := some ⟨fun _ => 0⟩
    _domains := Indices.ofList [3, 2]
    _pads := Indices.ofList [0, 0]
    _halos := Indices.ofList [0, 0]
    _offsets := Indices.ofList [0, 0]
    _vec_lens := Indices.ofList [1, 1]
    _allocs := Indices.ofList [3, 2]
    _vec_pads := Indices.ofList [0, 0]
    _vec_allocs := Indices.ofList [3, 2]
    is_updated := true }

/-- A caller's buffer holding the given values, `0` beyond them. -/
def bufferOf (l : List real_t) : Nat → real_t := fun k => l.getD k 0

namespace YkGridBase

/-- The loop of `is_storage_layout_identical` over the dimensions `is` still to
visit: `false` at the first dimension whose name, allocation size, domain size
or pad size differs from that of `op`. -/
def layoutLoop (g op : YkGridBase) : List Nat → Bool
  | [] => true
  | i :: rest =>
    if g.get_dim_name i != op.get_dim_name i then false
    else if g._allocs i != op._allocs i then false
    else if g._domains i != op._domains i then false
    else if g._pads i != op._pads i then false
    else layoutLoop g op rest

/-- Embeds `is_storage_layout_identical(other)`. The getter
`get_num_storage_bytes()` of the kernel headers is not among the sources; it is
taken as a parameter, the number of bytes it gives for a grid. -/
def is_storage_layout_identical (get_num_storage_bytes : YkGridBase → Nat)
    (g op : YkGridBase) : Bool :=
  if get_num_storage_bytes g != get_num_storage_bytes op then false
  else if g.get_num_dims != op.get_num_dims then false
  else layoutLoop g op (List.range g.get_num_dims)

/-- Body of the first loop of `share_storage(source)` for dimension `i`: the
checks of the dimension, each a fatal exit. -/
def shareCheckDim (g sp : YkGridBase) (i : Nat) : Except Fatal Unit :=
  let dname := g.get_dim_name i
  if sp.get_num_dims != g.get_num_dims || sp.get_dim_name i != dname then
    Except.error Fatal.shareIncompatible
  else if !(g._dims._domain_dims.lookup dname).isSome then
    match g.get_alloc_size dname with
    | Except.error e => Except.error e
    | Except.ok tas =>
      match sp.get_alloc_size dname with
      | Except.error e => Except.error e
      | Except.ok sas =>
        if tas != sas then Except.error Fatal.shareAllocSize else Except.ok ()
  else
    match g.get_rank_domain_size dname with
    | Except.error e => Except.error e
    | Except.ok tdom =>
      match sp.get_rank_domain_size dname with
      | Except.error e => Except.error e
      | Except.ok sdom =>
        if tdom != sdom then Except.error Fatal.shareDomainSize
        else
          match g.get_halo_size dname with
          | Except.error e => Except.error e
          | Except.ok thalo =>
            match sp.get_pad_size dname with
            | Except.error e => Except.error e
            | Except.ok spad =>
              if thalo > spad then Except.error Fatal.sharePadSize else Except.ok ()

/-- First loop of `share_storage(source)` over the dimensions still to visit. -/
def shareCheckLoop (g sp : YkGridBase) : List Nat → Except Fatal Unit
  | [] => Except.ok ()
  | i :: rest =>
    match g.shareCheckDim sp i with
    | Except.error e => Except.error e
    | Except.ok _ => shareCheckLoop g sp rest

/-- Second loop of `share_storage(source)` over the dimensions still to visit:
`spad = sp->get_pad_size(dname); _set_pad_size(dname, spad)`. -/
def sharePadLoop (sp : YkGridBase) : List Nat → YkGridBase → Except GridFatal YkGridBase
  | [], g => Except.ok g
  | i :: rest, g =>
    match sp.get_pad_size (g.get_dim_name i) with
    | Except.error e => Except.error (e, g)
    | Except.ok spad =>
      match g._set_pad_size (g.get_dim_name i) spad with
      | Except.error e => Except.error e
      | Except.ok g1 => sharePadLoop sp rest g1

/-- Modelled from the spec: `release_storage()` of the kernel headers, after
which the grid has no storage attached. -/
def release_storage (g : YkGridBase) : YkGridBase := { g with storage := none }

/-- Modelled from the spec: `share_data(src)` of the kernel headers, with its
result. The function is not among the sources, so whether it reports success
for a target and a source is the parameter `accepts`. When it does, the grid is
attached to the buffer of the source (shared ownership, no element copy); when
it does not, the grid is as it was. -/
def share_data (accepts : YkGridBase → YkGridBase → Bool) (g src : YkGridBase) :
    Bool × YkGridBase :=
  if accepts g src then (true, { g with storage := src.storage }) else (false, g)

/-- Embeds `share_storage(source)`; `accepts` tells for which pairs the
`share_data` of the kernel headers reports success. -/
def share_storage (accepts : YkGridBase → YkGridBase → Bool) (g sp : YkGridBase) :
    Except GridFatal YkGridBase :=
  if !sp.get_raw_storage_buffer then Except.error (Fatal.shareNoSource, g)
  else
    match g.shareCheckLoop sp (List.range g.get_num_dims) with
    | Except.error e => Except.error (e, g)
    | Except.ok _ =>
      match sharePadLoop sp (List.range g.get_num_dims) g with
      | Except.error e => Except.error e
      | Except.ok g1 =>
        let r := g1.release_storage.share_data accepts sp
        if !r.1 then Except.error (Fatal.shareData, r.2) else Except.ok r.2

end YkGridBase

/-- A grid without dimensions and without storage. -/
def gridZ : YkGridBase :=
  { _dims := dimsTXY
    ggb_dims := ⟨[], true⟩
    storage := none
    _domains := Indices.ofList []
    _pads := Indices.ofList []
    _halos := Indices.ofList []
    _offsets := Indices.ofList []
    _vec_lens := Indices.ofList []
    _allocs := Indices.ofList []
    _vec_pads := Indices.ofList []
    _vec_allocs := Indices.ofList []
    is_updated := false }

/-- A grid over `x`, `y` with storage attached: fold lengths 1, domains 3 and
2, pad 1 in `x`, no halo, allocation sizes 5 and 2 as `resize()` computes
them. -/
def gridP : YkGridBase :=
  { _dims := dimsTXY
    ggb_dims := ⟨[("x", 5), ("y", 2)], true⟩
    storage := some ⟨fun _ => 0⟩
    _domains := Indices.ofList [3, 2]
    _pads := Indices.ofList [1, 0]
    _halos := Indices.ofList [0, 0]
    _offsets := Indices.ofList [0, 0]
    _vec_lens := Indices.ofList [1, 1]
    _allocs := Indices.ofList [5, 2]
    _vec_pads := Indices.ofList [1, 0]
    _vec_allocs := Indices.ofList [5, 2]
    is_updated := false }

/-- The grid `gridC` before storage is attached to it. -/
def gridCn : YkGridBase := { gridC with storage := none }

/-- Whether a kind of dimension is among those a caller of `checkDimType`
accepts with its `step_ok, domain_ok, misc_ok`. -/
def DimKind.allowed : DimKind → Bool → Bool → Bool → Bool
  | DimKind.step, step_ok, _, _ => step_ok
  | DimKind.domain, _, domain_ok, _ => domain_ok
  | DimKind.misc, _, _, misc_ok => misc_ok

/-- The getters generated by `GET_GRID_API`. -/
inductive GetterCall where
  | get_rank_domain_size
  | get_pad_size
  | get_halo_size
  | get_first_misc_index
  | get_last_misc_index
  | get_first_rank_domain_index
  | get_last_rank_domain_index
  | get_first_rank_alloc_index
  | get_last_rank_alloc_index
  | get_extra_pad_size
  | get_alloc_size
  | _get_offset
  | _get_first_allowed_index
  | _get_last_allowed_index
deriving DecidableEq

namespace GetterCall

/-- The getter applied to a grid and a dimension name. -/
def run : GetterCall → YkGridBase → String → Except Fatal Int
  | get_rank_domain_size => YkGridBase.get_rank_domain_size
  | get_pad_size => YkGridBase.get_pad_size
  | get_halo_size => YkGridBase.get_halo_size
  | get_first_misc_index => YkGridBase.get_first_misc_index
  | get_last_misc_index => YkGridBase.get_last_misc_index
  | get_first_rank_domain_index => YkGridBase.get_first_rank_domain_index
  | get_last_rank_domain_index => YkGridBase.get_last_rank_domain_index
  | get_first_rank_alloc_index => YkGridBase.get_first_rank_alloc_index
  | get_last_rank_alloc_index => YkGridBase.get_last_rank_alloc_index
  | get_extra_pad_size => YkGridBase.get_extra_pad_size
  | get_alloc_size => YkGridBase.get_alloc_size
  | _get_offset => YkGridBase._get_offset
  | _get_first_allowed_index => YkGridBase._get_first_allowed_index
  | _get_last_allowed_index => YkGridBase._get_last_allowed_index

/-- The kinds of dimension a getter accepts, as documented: the domain getters
accept domain dimensions only, the misc-index getters misc dimensions only, and
`get_alloc_size` and the internal getters every kind. -/
def accepts : GetterCall → DimKind → Bool
  | get_rank_domain_size, k => decide (k = DimKind.domain)
  | get_pad_size, k => decide (k = DimKind.domain)
  | get_halo_size, k => decide (k = DimKind.domain)
  | get_first_misc_index, k => decide (k = DimKind.misc)
  | get_last_misc_index, k => decide (k = DimKind.misc)
  | get_first_rank_domain_index, k => decide (k = DimKind.domain)
  | get_last_rank_domain_index, k => decide (k = DimKind.domain)
  | get_first_rank_alloc_index, k => decide (k = DimKind.domain)
  | get_last_rank_alloc_index, k => decide (k = DimKind.domain)
  | get_extra_pad_size, k => decide (k = DimKind.domain)
  | get_alloc_size, _ => true
  | _get_offset, _ => true
  | _get_first_allowed_index, _ => true
  | _get_last_allowed_index, _ => true

/-- The documented value of a getter for the dimension at position `posn`. -/
def value : GetterCall → YkGridBase → Nat → Int
  | get_rank_domain_size, g, posn => g._domains posn
  | get_pad_size, g, posn => g._pads posn
  | get_halo_size, g, posn => g._halos posn
  | get_first_misc_index, g, posn => g._offsets posn
  | get_last_misc_index, g, posn => g._offsets posn + g._domains posn - 1
  | get_first_rank_domain_index, g, posn => g._offsets posn
  | get_last_rank_domain_index, g, posn => g._offsets posn + g._domains posn - 1
  | get_first_rank_alloc_index, g, posn => g._offsets posn - g._pads posn
  | get_last_rank_alloc_index, g, posn => g._offsets posn - g._pads posn + g._allocs posn - 1
  | get_extra_pad_size, g, posn => g._pads posn - g._halos posn
  | get_alloc_size, g, posn => g._allocs posn
  | _get_offset, g, posn => g._offsets posn
  | _get_first_allowed_index, g, posn => g._offsets posn - g._pads posn
  | _get_last_allowed_index, g, posn => g._offsets posn - g._pads posn + g._allocs posn - 1

end GetterCall

/-- The kinds of dimension a setter accepts, as documented: `set_halo_size`,
`set_min_pad_size` and `set_extra_pad_size` accept domain dimensions only,
`set_first_misc_index` misc dimensions only, `set_alloc_size` step and misc
dimensions, and the internal setters every kind. -/
def SetterCall.accepts : SetterCall → DimKind → Bool
  | SetterCall.set_halo_size _ _, k => decide (k = DimKind.domain)
  | SetterCall.set_min_pad_size _ _, k => decide (k = DimKind.domain)
  | SetterCall.set_extra_pad_size _ _, k => decide (k = DimKind.domain)
  | SetterCall.set_first_misc_index _ _, k => decide (k = DimKind.misc)
  | SetterCall.set_alloc_size _ _, k => decide (k ≠ DimKind.domain)
  | SetterCall._set_domain_size _ _, _ => true
  | SetterCall._set_pad_size _ _, _ => true
  | SetterCall._set_offset _ _, _ => true

/-- The grid `gridT` before storage is attached to it. -/
def gridTn : YkGridBase := { gridT with storage := none }

namespace YkGridBase

/-- The list `idx` that the positional forms of `get_element` and `set_element`
build from their six index arguments: `if (nd >= k) idx.push_back(dimk_index)`
for `k = 1 .. 6`. -/
def positionalIdx (nd : Nat) (dim1_index dim2_index dim3_index dim4_index dim5_index
    dim6_index : Int) : GridIndices :=
  let idx : GridIndices := []
  let idx := if nd ≥ 1 then idx ++ [dim1_index] else idx
  let idx := if nd ≥ 2 then idx ++ [dim2_index] else idx
  let idx := if nd ≥ 3 then idx ++ [dim3_index] else idx
  let idx := if nd ≥ 4 then idx ++ [dim4_index] else idx
  let idx := if nd ≥ 5 then idx ++ [dim5_index] else idx
  let idx := if nd ≥ 6 then idx ++ [dim6_index] else idx
  idx

/-- Embeds the positional form `get_element(dim1_index, ..., dim6_index)`. -/
def get_element6 (g : YkGridBase) (dim1_index dim2_index dim3_index dim4_index dim5_index
    dim6_index : Int) : Except Fatal real_t :=
  g.get_element
    (positionalIdx g.get_num_dims dim1_index dim2_index dim3_index dim4_index dim5_index
      dim6_index)

/-- Embeds the positional form `set_element(val, dim1_index, ..., dim6_index)`. -/
def set_element6 (g : YkGridBase) (val : real_t) (dim1_index dim2_index dim3_index
    dim4_index dim5_index dim6_index : Int) : Except GridFatal (Int × YkGridBase) :=
  g.set_element val
    (positionalIdx g.get_num_dims dim1_index dim2_index dim3_index dim4_index dim5_index
      dim6_index)
    false

/-- The coordinate list the documentation gives for the positional forms: the
first `n` of the six indices, for a grid of `n` dimensions. -/
def firstIndices (n : Nat) (i1 i2 i3 i4 i5 i6 : Int) : GridIndices :=
  [i1, i2, i3, i4, i5, i6].take n

end YkGridBase

/-- A grid over seven misc dimensions `a .. g` of size 1 each, with storage
attached. -/
def grid7 : YkGridBase :=
  { _dims := dimsTXY
    ggb_dims := ⟨[("a", 1), ("b", 1), ("c", 1), ("d", 1), ("e", 1), ("f", 1), ("g", 1)], true⟩
    storage := some ⟨fun _ => 0⟩
    _domains := fun _ => 1
    _pads := fun _ => 0
    _halos := fun _ => 0
    _offsets := fun _ => 0
    _vec_lens := fun _ => 1
    _allocs := fun _ => 1
    _vec_pads := fun _ => 0
    _vec_allocs := fun _ => 1
    is_updated := false }

/-! ## The fold builder (`src/foldBuilder/main.cpp`) -/

/-- The variables of `main.cpp` that are set via command-line options, with
`stencilFunc` as the name of the registered stencil found (`none` for `NULL`). -/
structure Opts where
  printPseudo : Bool
  printPOVRay : Bool
  printDOT : Bool
  printSimpleDOT : Bool
  printMacros : Bool
  printGrids : Bool
  printCpp : Bool
  printKncCpp : Bool
  print512Cpp : Bool
  print256Cpp : Bool
  vlenForStats : Int
  stencilFunc : Option String
  shapeName : String
  foldOptions : Tuple
  clusterOptions : Tuple
  maxExprSize : Int
  minExprSize : Int
  radius : Int
  firstInner : Bool
  allowUnalignedLoads : Bool
  eqGroupTargets : String
  doFuse : Bool
  hbwRW : Bool
  hbwRO : Bool
  doComb : Bool
  doCse : Bool
  stepDim : String
  haloSize : Int
deriving DecidableEq

/-- The initial values of the variables set via command-line options. -/
def Opts.init : Opts :=
  { printPseudo := false
    printPOVRay := false
    printDOT := false
    printSimpleDOT := false
    printMacros := false
    printGrids := false
    printCpp := false
    printKncCpp := false
    print512Cpp := false
    print256Cpp := false
    vlenForStats := 0
    stencilFunc := none
    shapeName := ""
    foldOptions := ⟨[], true⟩
    clusterOptions := ⟨[], true⟩
    maxExprSize := 50
    minExprSize := 2
    radius := 1
    firstInner := true
    allowUnalignedLoads := false
    eqGroupTargets := ""
    doFuse := false
    hbwRW := true
    hbwRO := true
    doComb := false
    doCse := true
    stepDim := "t"
    haloSize := 0 }

/-- The calls of `usage()` in `parseOpts`, each of which ends the program with
`exit(1)`, by the place of the call. -/
inductive UsageExit where
  /-- `argc <= 1` -/
  | noArguments
  /-- one of `-h`, `-help`, `--help` -/
  | help
  /-- error: value missing or bad option -/
  | valueMissing (opt : String)
  /-- error: option not recognized -/
  | notRecognized (opt : String)
  /-- error: unrecognized parameter -/
  | unrecognizedParameter (arg : String)
  /-- error: shape not specified -/
  | shapeNotSpecified
  /-- error: unknown stencil shape -/
  | unknownShape (name : String)
  /-- error: invalid radius for stencil type -/
  | invalidRadius
deriving DecidableEq

/-- What `parseOpts` uses of a registered stencil: `usesRadius()` and
`setRadius(radius)`. -/
structure Stencil where
  usesRadius : Bool
  setRadius : Int → Bool

/-- What `parseOpts` calls and `main.cpp` does not define: the C library
function `atoi`, `ArgParser::parseKeyValuePairs` of `Parse.hpp` (as the list of
key-value pairs it hands to its callback), and the register `stencils`. -/
structure ParseEnv where
  atoi : String → Int
  parseKeyValuePairs : String → List (String × String)
  stencils : List (String × Stencil)

/-- The test `argv[argi][0] == '-' && argv[argi][1]`: the argument starts with
`-` and has a second character. -/
def isOption (arg : String) : Bool :=
  match arg.toList with
  | c :: _ :: _ => c == '-'
  | _ => false

/-- The chain of the options without values in `parseOpts`: `none` when the
option is none of them. -/
def flagOption (opt : String) (o : Opts) : Option (Except UsageExit Opts) :=
  if opt = "-h" ∨ opt = "-help" ∨ opt = "--help" then some (Except.error UsageExit.help)
  else if opt = "-lus" then some (Except.ok { o with firstInner := false })
  else if opt = "-aul" then some (Except.ok { o with allowUnalignedLoads := true })
  else if opt = "-comb" then some (Except.ok { o with doComb := true })
  else if opt = "-no-comb" then some (Except.ok { o with doComb := false })
  else if opt = "-cse" then some (Except.ok { o with doCse := true })
  else if opt = "-no-cse" then some (Except.ok { o with doCse := false })
  else if opt = "-fuse" then some (Except.ok { o with doFuse := true })
  else if opt = "-no-fuse" then some (Except.ok { o with doFuse := false })
  else if opt = "-hbw-rw" then some (Except.ok { o with hbwRW := true })
  else if opt = "-no-hbw-rw" then some (Except.ok { o with hbwRW := false })
  else if opt = "-hbw-ro" then some (Except.ok { o with hbwRO := true })
  else if opt = "-no-hbw-ro" then some (Except.ok { o with hbwRO := false })
  else if opt = "-ph" then some (Except.ok { o with printPseudo := true })
  else if opt = "-pdot-full" then some (Except.ok { o with printDOT := true })
  else if opt = "-pdot-lite" then some (Except.ok { o with printSimpleDOT := true })
  else if opt = "-pp" then some (Except.ok { o with printPOVRay := true })
  else if opt = "-pm" then some (Except.ok { o with printMacros := true })
  else if opt = "-pg" then some (Except.ok { o with printGrids := true })
  else if opt = "-pcpp" then some (Except.ok { o with printCpp := true })
  else if opt = "-pknc" then some (Except.ok { o with printKncCpp := true })
  else if opt = "-p512" then some (Except.ok { o with print512Cpp := true })
  else if opt = "-p256" then some (Except.ok { o with print256Cpp := true })
  else none

/-- The branch of the options with a value in `parseOpts`, for the option `opt`
and its value `argop`; a fatal exit carries the variables at the exit. -/
def valueOption (env : ParseEnv) (opt argop : String) (o : Opts) :
    Except (UsageExit × Opts) Opts :=
  if opt = "-st" then Except.ok { o with shapeName := argop }
  else if opt = "-step" then Except.ok { o with stepDim := argop }
  else if opt = "-eq" then Except.ok { o with eqGroupTargets := argop }
  else if opt = "-fold" ∨ opt = "-cluster" then
    Except.ok
      ((env.parseKeyValuePairs argop).foldl
        (fun (o : Opts) kv =>
          if opt = "-fold" then
            { o with foldOptions := o.foldOptions.addDimBack kv.1 (env.atoi kv.2) }
          else { o with clusterOptions := o.clusterOptions.addDimBack kv.1 (env.atoi kv.2) })
        o)
  else
    let val := env.atoi argop
    let o1 := if opt = "-max-es" then { o with maxExprSize := val } else o
    if opt = "-min-es" then Except.ok { o1 with minExprSize := val }
    else if opt = "-r" then Except.ok { o1 with radius := val }
    else if opt = "-ps" then Except.ok { o1 with vlenForStats := val }
    else if opt = "-halo" then Except.ok { o1 with haloSize := val }
    else Except.error (UsageExit.notRecognized opt, o1)

/-- The loop of `parseOpts` over the arguments from `argv[argi]` on: the
variables after the loop and the arguments left at the `break`. -/
def parseLoop (env : ParseEnv) : List String → Opts →
    Except (UsageExit × Opts) (Opts × List String)
  | [], o => Except.ok (o, [])
  | arg :: rest, o =>
    if isOption arg then
      match flagOption arg o with
      | some (Except.error e) => Except.error (e, o)
      | some (Except.ok o1) => parseLoop env rest o1
      | none =>
        match rest with
        | [] => Except.error (UsageExit.valueMissing arg, o)
        | argop :: rest1 =>
          match valueOption env arg argop o with
          | Except.error e => Except.error e
          | Except.ok o1 => parseLoop env rest1 o1
    else Except.ok (o, arg :: rest)

/-- Embeds `parseOpts(argc, argv)` on the argument vector `argv` (`argv[0]` the
command) and the variables `o`; a fatal exit carries the variables at the
exit. The messages written to `cerr` are not represented. -/
def parseOpts (env : ParseEnv) (argv : List String) (o : Opts) :
    Except (UsageExit × Opts) Opts :=
  match argv with
  | [] => Except.error (UsageExit.noArguments, o)
  | [_] => Except.error (UsageExit.noArguments, o)
  | _ :: arg :: args =>
    match parseLoop env (arg :: args) o with
    | Except.error e => Except.error e
    | Except.ok (o1, left :: _) => Except.error (UsageExit.unrecognizedParameter left, o1)
    | Except.ok (o1, []) =>
      if o1.shapeName.length = 0 then Except.error (UsageExit.shapeNotSpecified, o1)
      else
        match env.stencils.lookup o1.shapeName with
        | none => Except.error (UsageExit.unknownShape o1.shapeName, o1)
        | some st =>
          let o2 := { o1 with stencilFunc := some o1.shapeName }
          if st.usesRadius then
            if !st.setRadius o2.radius then Except.error (UsageExit.invalidRadius, o2)
            else Except.ok o2
          else Except.ok o2

/-- The value of a string of decimal digits. -/
def atoiDigits (s : String) : Int :=
  ((s.toList.foldl (fun acc c => acc * 10 + (c.toNat - 48)) 0 : Nat) : Int)

/-- A `ParseEnv` for the examples: `atoi` on strings of decimal digits,
key-value pairs not parsed, and the stencil `iso3dfd` registered, which uses a
radius and accepts any radius `>= 1`. -/
def exampleEnv : ParseEnv :=
  { atoi := atoiDigits
    parseKeyValuePairs := fun _ => []
    stencils := [("iso3dfd", ⟨true, fun r => decide (1 ≤ r)⟩)] }

namespace Tuple

/-- Lexicographic `less than` on lists of values: the first position at which
the values differ decides. -/
def lexLt : List Int → List Int → Bool
  | a :: as, b :: bs => if a < b then true else if a > b then false else lexLt as bs
  | _, _ => false

/-- Lexicographic `less than` on strings as lists of characters, by character
code; a proper prefix is less. -/
def charsLt : List Char → List Char → Bool
  | [], _ :: _ => true
  | a :: as, b :: bs =>
    if a.toNat < b.toNat then true else if a.toNat > b.toNat then false else charsLt as bs
  | _, _ => false

/-- Lexicographic `less than` on lists of names: the first position at which
the names differ decides. -/
def namesLt : List String → List String → Bool
  | a :: as, b :: bs =>
    if charsLt a.toList b.toList then true
    else if charsLt b.toList a.toList then false
    else namesLt as bs
  | _, _ => false

/-- Modelled from the spec: `operator<` of `tuple.hpp`. A tuple with fewer
dimensions is less; tuples with the same number of dimensions over the same
names compare by total product, then lexicographically by value. For tuples of
the same number of dimensions over different names the names decide, as the
tuple test requires of `(x, z)` against `(x, y)`. -/
def lt (a b : Tuple) : Bool :=
  if a.getNumDims < b.getNumDims then true
  else if a.getNumDims > b.getNumDims then false
  else if a.getDimNames = b.getDimNames then
    if a.product < b.product then true
    else if a.product > b.product then false
    else lexLt a.getVals b.getVals
  else namesLt a.getDimNames b.getDimNames

/-- Modelled from the spec: `operator>` of `tuple.hpp`, `operator<` with the
sides exchanged. -/
def gt (a b : Tuple) : Bool := b.lt a

/-- Modelled from the spec: `operator==` of `tuple.hpp`: the same dimensions in
the same order with the same values. -/
def eq (a b : Tuple) : Bool := decide (a._q = b._q)

/-- Modelled from the spec: `addDimFront(name, value)` of `tuple.hpp`, on a
name that is not yet present. -/
def addDimFront (t : Tuple) (dim : String) (val : Int) : Tuple :=
  { t with _q := (dim, val) :: t._q }

end Tuple

namespace Tuple

/-- Modelled from the spec: the partition of the linear index range `[0, n)`
into contiguous chunks by which `visitAllPointsInParallel` of `tuple.hpp` fans
the index space out to `nworkers` workers. The chunk of worker `w` holds, in
increasing order, the indices `i` with `i / size = w`, where `size` is
`n / nworkers` rounded up. -/
def parallelChunks (n nworkers : Nat) : List (List Nat) :=
  (List.range nworkers).map
    (fun w => (List.range n).filter (fun i => i / ((n + nworkers - 1) / nworkers) == w))

/-- Modelled from the spec: the end of `visitAllPointsInParallel`, where the
indices that are left are delivered, each with the coordinate of the index (its
`unlayout`); a `false` return stops the remaining work. -/
def parallelDrain {σ : Type} (t : Tuple) (visitor : Tuple → Nat → σ → Bool × σ) :
    List Nat → σ → σ
  | [], st => st
  | i :: rest, st =>
    if (visitor (t.unlayout (i : Int)) i st).1 then
      parallelDrain t visitor rest (visitor (t.unlayout (i : Int)) i st).2
    else (visitor (t.unlayout (i : Int)) i st).2

/-- Modelled from the spec: the calls that the workers of
`visitAllPointsInParallel` make, one at a time. `chunks` holds for every worker
the indices it has still to deliver. The order in which the calls occur across
the workers is not specified: `order` names the worker that makes the next call,
which delivers the first index left in its chunk with the coordinate of that
index (its `unlayout`); a worker with nothing left, or a number that names no
worker, makes no call. When `order` is used up the workers run to completion,
one after the other. A `false` return stops the remaining work. The state `σ`
stands for what the callback updates under mutual exclusion. -/
def parallelLoop {σ : Type} (t : Tuple) (visitor : Tuple → Nat → σ → Bool × σ) :
    List Nat → List (List Nat) → σ → σ
  | [], chunks, st => parallelDrain t visitor chunks.flatten st
  | w :: order, chunks, st =>
    match chunks.getD w [] with
    | [] => parallelLoop t visitor order chunks st
    | i :: rest =>
      if (visitor (t.unlayout (i : Int)) i st).1 then
        parallelLoop t visitor order (chunks.set w rest) (visitor (t.unlayout (i : Int)) i st).2
      else (visitor (t.unlayout (i : Int)) i st).2

/-- Modelled from the spec: `visitAllPointsInParallel(callback)` of
`tuple.hpp`, run by `nworkers` workers whose calls occur in the order `order`:
the linear index range `[0, product)` is partitioned into one contiguous chunk
for each worker, and every worker delivers the indices of its chunk. -/
def visitAllPointsInParallel {σ : Type} (t : Tuple) (nworkers : Nat) (order : List Nat)
    (visitor : Tuple → Nat → σ → Bool × σ) (st : σ) : σ :=
  parallelLoop t visitor order (parallelChunks t.product.toNat nworkers) st

/-- The invocations `(coordinate, index)` that `visitAllPointsInParallel` makes
of a callback that always returns `true`, in the order of the calls: the
callback that records its arguments. -/
def parallelTrace (t : Tuple) (nworkers : Nat) (order : List Nat) : List (Tuple × Nat) :=
  t.visitAllPointsInParallel nworkers order (fun c k tr => (true, tr ++ [(c, k)])) []

/-- The indices in the order in which `parallelLoop` delivers them when no
callback returns `false`. -/
def parallelOrder : List Nat → List (List Nat) → List Nat
  | [], chunks => chunks.flatten
  | w :: order, chunks =>
    match chunks.getD w [] with
    | [] => parallelOrder order chunks
    | i :: rest => i :: parallelOrder order (chunks.set w rest)

end Tuple

/-- What `compare` writes to the stream `os`, by message. -/
inductive CompareMsg where
  /-- `** mismatch: no reference grid.` -/
  | noReference
  /-- `** mismatch due to incompatible grids: ...` -/
  | incompatible
  /-- `** mismatch at <name>(<opt>): <te> != <re>` -/
  | mismatchAt (opt : Tuple) (te re : real_t)
  /-- `** Additional errors not printed.` -/
  | additionalNotPrinted
deriving DecidableEq

/-- What `compare` calls and the sources do not define: `get_num_storage_elements()`
and `are_dims_and_sizes_same()` as functions of the dimension tuples of the
underlying generic grids, `count_diffs()` as a function of the dimension tuple
and the two storages, and `within_tolerance(te, re, epsilon)`. -/
structure CompareEnv where
  get_num_storage_elements : Tuple → Int
  are_dims_and_sizes_same : Tuple → Tuple → Bool
  count_diffs : Tuple → Storage → Storage → real_t → Int
  within_tolerance : real_t → real_t → real_t → Bool

namespace YkGridBase

/-- The tuple `opt` that the visitor of `compare` builds from the
allocation-relative point `pt`: the names of `pt` with the values
`_offsets[i] - _pads[i] + pt.getVal(i)`. -/
def comparePoint (g : YkGridBase) (pt : Tuple) : Tuple :=
  (List.range pt.getNumDims).foldl
    (fun opt i => opt.addDimBack (pt.getDimName i) (g._offsets i - g._pads i + pt.getVal i))
    ⟨[], g.ggb_dims._firstInner⟩

/-- The test of the visitor of `compare` at the point `pt`: the elements of the
two grids at `opt` are not within tolerance. -/
def compareBad (env : CompareEnv) (g ref : YkGridBase) (s rs : Storage) (epsilon : real_t)
    (pt : Tuple) : Bool :=
  !env.within_tolerance (g.readElem s (Indices.ofList (g.comparePoint pt).getVals))
    (ref.readElem rs (Indices.ofList (g.comparePoint pt).getVals)) epsilon

/-- The visitor of the detailed comparison in `compare`; its state is `errs` and
what has been written to `os`. -/
def compareVisit (env : CompareEnv) (g ref : YkGridBase) (s rs : Storage) (epsilon : real_t)
    (maxPrint : Int) (pt : Tuple) (_ : Nat) (st : Int × List CompareMsg) :
    Bool × (Int × List CompareMsg) :=
  let opt := g.comparePoint pt
  let te := g.readElem s (Indices.ofList opt.getVals)
  let re := ref.readElem rs (Indices.ofList opt.getVals)
  if !env.within_tolerance te re epsilon then
    let errs := st.1 + 1
    if errs < maxPrint then (true, (errs, st.2 ++ [CompareMsg.mismatchAt opt te re]))
    else if errs = maxPrint then (true, (errs, st.2 ++ [CompareMsg.additionalNotPrinted]))
    else (false, (errs, st.2))
  else (true, st)

/-- Embeds `YkGridBase::compare(ref, epsilon, maxPrint, os)`: the number returned
and what is written to `os`; `ref` is `none` for a null pointer. The result is
`none` when the comparison of the elements is reached and one of the grids has
no storage, where the program reads through a null pointer. -/
def compare (env : CompareEnv) (g : YkGridBase) (ref : Option YkGridBase) (epsilon : real_t)
    (maxPrint : Int) : Option (Int × List CompareMsg) :=
  match ref with
  | none => some (env.get_num_storage_elements g.ggb_dims, [CompareMsg.noReference])
  | some r =>
    if !env.are_dims_and_sizes_same g.ggb_dims r.ggb_dims then
      some (env.get_num_storage_elements g.ggb_dims, [CompareMsg.incompatible])
    else
      match g.storage, r.storage with
      | some s, some rs =>
        if env.count_diffs g.ggb_dims s rs epsilon = 0 then some (0, [])
        else
          some
            (g.get_allocs.visitAllPoints (g.compareVisit env r s rs epsilon maxPrint) (0, []))
      | _, _ => none

end YkGridBase

/-- Modelled from the spec: the functions of the kernel headers that `compare`
calls, for the examples. The element count is the product of the sizes of the
storage dimensions; two generic grids have the same dims and sizes when their
dimension tuples have the same names and sizes; two values are within tolerance
when they differ by at most `epsilon`; the bulk count is the number of linear
positions of the storage whose two values are not within tolerance. -/
def exampleCompareEnv : CompareEnv :=
  { get_num_storage_elements := fun dims => dims.product
    are_dims_and_sizes_same := fun a b => decide (a._q = b._q)
    count_diffs := fun dims s rs epsilon =>
      (((List.range dims.product.toNat).filter
        (fun p => !decide (s.elems p ≤ rs.elems p + epsilon ∧
          rs.elems p ≤ s.elems p + epsilon))).length : Int)
    within_tolerance := fun te re epsilon => decide (te ≤ re + epsilon ∧ re ≤ te + epsilon) }

/-- A grid over `x`, `y` with storage attached and the storage dimensions of `gridP`
(5 and 2), but domains 5 and 2 and no pad. -/
def gridQ : YkGridBase :=
  { _dims := dimsTXY
    ggb_dims := ⟨[("x", 5), ("y", 2)], true⟩
    storage := some ⟨fun _ => 0⟩
    _domains := Indices.ofList [5, 2]
    _pads := Indices.ofList [0, 0]
    _halos := Indices.ofList [0, 0]
    _offsets := Indices.ofList [0, 0]
    _vec_lens := Indices.ofList [1, 1]
    _allocs := Indices.ofList [5, 2]
    _vec_pads := Indices.ofList [0, 0]
    _vec_allocs := Indices.ofList [5, 2]
    is_updated := false }

/-- The grid `gridXY` with the value 9 in the element at `(1, 0)`. -/
def gridXY1 : YkGridBase :=
  { gridXY with storage := some ⟨fun p => if p = 1 then 9 else 0⟩ }

/-- The grid `gridXY` with the value 9 in the elements at `(1, 0)`, `(2, 0)` and
`(1, 1)`. -/
def gridXY3 : YkGridBase :=
  { gridXY with storage := some ⟨fun p => if p = 1 ∨ p = 2 ∨ p = 4 then 9 else 0⟩ }

namespace YkGridBase

/-- The domain of dimension `dim`, extended by its halo on both sides, lies
inside the allowed index range of the dimension: the two internal getters
return, and `first_allowed <= offset - halo` and
`offset + domain - 1 + halo <= last_allowed`. -/
def haloWithinAllowed (g : YkGridBase) (dim : String) : Prop :=
  ∃ first last : Int,
    g._get_first_allowed_index dim = Except.ok first ∧
    g._get_last_allowed_index dim = Except.ok last ∧
    first ≤ g._offsets ((g.ggb_dims.lookup_posn dim).getD 0)
      - g._halos ((g.ggb_dims.lookup_posn dim).getD 0) ∧
    g._offsets ((g.ggb_dims.lookup_posn dim).getD 0)
      + g._domains ((g.ggb_dims.lookup_posn dim).getD 0) - 1
      + g._halos ((g.ggb_dims.lookup_posn dim).getD 0) ≤ last

/-- The three getters of the allocation of dimension `dim` return, and
`get_last_rank_alloc_index - get_first_rank_alloc_index + 1 == get_alloc_size`. -/
def allocIndexSpan (g : YkGridBase) (dim : String) : Prop :=
  ∃ a b c : Int,
    g.get_first_rank_alloc_index dim = Except.ok a ∧
    g.get_last_rank_alloc_index dim = Except.ok b ∧
    g.get_alloc_size dim = Except.ok c ∧
    b - a + 1 = c

end YkGridBase

/-- The line `** mismatch at <name>(<opt>): <te> != <re>` that the visitor of
`compare` writes for the allocation-relative point `pt`. -/
def YkGridBase.mismatchLine (g ref : YkGridBase) (s rs : Storage) (pt : Tuple) : CompareMsg :=
  CompareMsg.mismatchAt (g.comparePoint pt)
    (g.readElem s (Indices.ofList (g.comparePoint pt).getVals))
    (ref.readElem rs (Indices.ofList (g.comparePoint pt).getVals))

/-- Sizes `(x=3, y=4)` of the tuple test, first-inner. -/
def t1 : Tuple := (Tuple.addDimBack (Tuple.addDimBack ⟨[], true⟩ "x" 3) "y" 4)

theorem horner_nil (acc : Int) : horner acc [] = acc := rfl

theorem horner_cons (acc : Int) (sc : Int × Int) (l : List (Int × Int)) :
    horner acc (sc :: l) = horner (acc * sc.1 + sc.2) l := rfl

theorem horner_append (acc : Int) (l₁ l₂ : List (Int × Int)) :
    horner acc (l₁ ++ l₂) = horner (horner acc l₁) l₂ := by
  simp [horner, List.foldl_append]

theorem lookup_of_mem (r : List (String × Int)) (hnd : (r.map Prod.fst).Nodup)
    (d : String) (c : Int) (h : (d, c) ∈ r) : r.lookup d = some c := by
  induction r with
  | nil => simp at h
  | cons hd tl ih =>
    obtain ⟨d0, c0⟩ := hd
    simp only [List.map_cons, List.nodup_cons] at hnd
    rcases List.mem_cons.1 h with h1 | h2
    · cases h1
      simp [List.lookup_cons]
    · have hne : d ≠ d0 := by
        rintro rfl
        exact hnd.1 (List.mem_map.2 ⟨(d, c), h2, rfl⟩)
      have hb : (d == d0) = false := by simpa using hne
      rw [List.lookup_cons, hb]
      exact ih hnd.2 h2

theorem fst_eq_of_mem_zip (q r : List (String × Int))
    (hn : r.map Prod.fst = q.map Prod.fst) (z : (String × Int) × (String × Int))
    (hz : z ∈ List.zip q r) : z.2.1 = z.1.1 := by
  induction q generalizing r with
  | nil => simp at hz
  | cons a q ih =>
    cases r with
    | nil => simp at hz
    | cons b r =>
      simp only [List.map_cons, List.cons.injEq] at hn
      simp only [List.zip_cons_cons, List.mem_cons] at hz
      rcases hz with rfl | hz
      · exact hn.1
      · exact ih r hn.2 hz

theorem foldl_lookup_eq_horner (r : List (String × Int))
    (hnd : (r.map Prod.fst).Nodup) (z : List ((String × Int) × (String × Int)))
    (hz : ∀ x ∈ z, x.2.1 = x.1.1 ∧ x.2 ∈ r) (acc : Int) :
    (z.map Prod.fst).foldl
      (fun idx d =>
        match r.lookup d.1 with
        | some c => idx * d.2 + c
        | none => idx) acc
      = horner acc (z.map (fun x => (x.1.2, x.2.2))) := by
  induction z generalizing acc with
  | nil => rfl
  | cons x z ih =>
    have hx := hz x (List.mem_cons_self _ _)
    have hl : r.lookup x.1.1 = some x.2.2 := by
      apply lookup_of_mem r hnd
      rw [← hx.1]
      exact hx.2
    simp only [List.map_cons, List.foldl_cons, horner_cons, hl]
    exact ih (fun y hy => hz y (List.mem_cons_of_mem _ hy)) _

theorem Tuple.layout_eq_horner (sizes p : Tuple) (hnd : sizes.getDimNames.Nodup)
    (hn : p.getDimNames = sizes.getDimNames) :
    sizes.layout p
      = horner 0 (slowOrder sizes._firstInner (List.zip sizes.getVals p.getVals)) := by
  have hlen : p._q.length = sizes._q.length := by
    have := congrArg List.length hn
    simpa [Tuple.getDimNames] using this
  have hndp : (p._q.map Prod.fst).Nodup := by
    have : p._q.map Prod.fst = sizes.getDimNames := hn
    rw [this]; exact hnd
  have hmem : ∀ x ∈ List.zip sizes._q p._q, x.2.1 = x.1.1 ∧ x.2 ∈ p._q := by
    intro x hx
    refine ⟨fst_eq_of_mem_zip _ _ hn x hx, ?_⟩
    exact (List.of_mem_zip hx).2
  have hfst : (List.zip sizes._q p._q).map Prod.fst = sizes._q := by
    rw [List.map_fst_zip]; omega
  have hval : (List.zip sizes._q p._q).map (fun x => (x.1.2, x.2.2))
      = List.zip sizes.getVals p.getVals := by
    simp [Tuple.getVals, List.zip_map]
  unfold Tuple.layout Tuple.slowFirst Tuple.lookup slowOrder
  by_cases hf : sizes._firstInner = true
  · simp only [hf, if_true]
    have h1 := foldl_lookup_eq_horner p._q hndp (List.zip sizes._q p._q).reverse
      (fun x hx => hmem x (List.mem_reverse.1 hx)) 0
    rw [List.map_reverse, hfst, List.map_reverse, hval] at h1
    exact h1
  · simp only [hf, Bool.false_eq_true, if_false]
    have h1 := foldl_lookup_eq_horner p._q hndp (List.zip sizes._q p._q) hmem 0
    rw [hfst, hval] at h1
    exact h1

theorem zip_reverse_of_length_eq (l₁ l₂ : List Int) (h : l₁.length = l₂.length) :
    List.zip l₁.reverse l₂.reverse = (List.zip l₁ l₂).reverse := by
  unfold List.zip
  exact (List.reverse_zipWith h).symm

theorem horner_reverse_cons (sc : Int × Int) (l : List (Int × Int)) :
    horner 0 (sc :: l).reverse = horner 0 l.reverse * sc.1 + sc.2 := by
  rw [List.reverse_cons, horner_append]
  rfl

/-- Dividing the index of an in-range coordinate recovers the coordinate
(sizes and coordinates listed fastest-varying first). -/
theorem unlayoutVals_horner (S C : List Int)
    (h : List.Forall₂ (fun s c => 0 ≤ c ∧ c < s) S C) :
    Tuple.unlayoutVals S (horner 0 (List.zip S C).reverse) = C := by
  induction h with
  | nil => rfl
  | @cons s c S C hsc _ ih =>
    rw [List.zip_cons_cons, horner_reverse_cons]
    simp only [Tuple.unlayoutVals]
    have hs : s ≠ 0 := by omega
    have hmod : (horner 0 (List.zip S C).reverse * s + c) % s = c := by
      rw [add_comm, Int.add_mul_emod_self]
      exact Int.emod_eq_of_lt hsc.1 hsc.2
    have hdiv : (horner 0 (List.zip S C).reverse * s + c) / s
        = horner 0 (List.zip S C).reverse := by
      rw [add_comm, Int.add_mul_ediv_right _ _ hs, Int.ediv_eq_zero_of_lt hsc.1 hsc.2]
      simp
    rw [hmod, hdiv, ih]

theorem unlayoutVals_length (S : List Int) (i : Int) :
    (Tuple.unlayoutVals S i).length = S.length := by
  induction S generalizing i with
  | nil => rfl
  | cons s S ih => simp [Tuple.unlayoutVals, ih]

/-- Every value produced by the divmod is within its dimension. -/
theorem unlayoutVals_inRange (S : List Int) (hpos : ∀ s ∈ S, 1 ≤ s) (i : Int) :
    List.Forall₂ (fun s c => 0 ≤ c ∧ c < s) S (Tuple.unlayoutVals S i) := by
  induction S generalizing i with
  | nil => exact List.Forall₂.nil
  | cons s S ih =>
    have hs : 1 ≤ s := hpos s (List.mem_cons_self _ _)
    refine List.Forall₂.cons ⟨Int.emod_nonneg _ (by omega), Int.emod_lt_of_pos _ (by omega)⟩ ?_
    exact ih (fun t ht => hpos t (List.mem_cons_of_mem _ ht)) _

/-- Accumulating the values produced by the divmod gives the index back. -/
theorem horner_unlayoutVals (S : List Int) (hpos : ∀ s ∈ S, 1 ≤ s) (i : Int)
    (h0 : 0 ≤ i) (hi : i < S.prod) :
    horner 0 (List.zip S (Tuple.unlayoutVals S i)).reverse = i := by
  induction S generalizing i with
  | nil =>
    simp only [List.prod_nil] at hi
    simp only [Tuple.unlayoutVals, List.zip_nil_right, List.reverse_nil, horner_nil]
    omega
  | cons s S ih =>
    have hs : 1 ≤ s := hpos s (List.mem_cons_self _ _)
    simp only [Tuple.unlayoutVals]
    rw [List.zip_cons_cons, horner_reverse_cons]
    rw [List.prod_cons] at hi
    have hq0 : 0 ≤ i / s := Int.ediv_nonneg h0 (by omega)
    have hq1 : i / s < S.prod := by
      apply Int.ediv_lt_of_lt_mul (by omega)
      rw [mul_comm]; exact hi
    rw [ih (fun t ht => hpos t (List.mem_cons_of_mem _ ht)) _ hq0 hq1]
    have := Int.emod_add_ediv i s
    simp only
    linarith [mul_comm s (i / s)]

theorem Tuple.getDimNames_unlayout (sizes : Tuple) (i : Int) :
    (sizes.unlayout i).getDimNames = sizes.getDimNames := by
  unfold Tuple.unlayout Tuple.getDimNames
  apply List.map_fst_zip
  by_cases hf : sizes._firstInner = true <;>
    simp [hf, unlayoutVals_length, Tuple.getVals]

theorem Tuple.getVals_unlayout (sizes : Tuple) (i : Int) :
    (sizes.unlayout i).getVals
      = if sizes._firstInner then Tuple.unlayoutVals sizes.getVals i
        else (Tuple.unlayoutVals sizes.getVals.reverse i).reverse := by
  unfold Tuple.unlayout
  simp only [Tuple.getVals]
  apply List.map_snd_zip
  by_cases hf : sizes._firstInner = true <;>
    simp [hf, unlayoutVals_length, Tuple.getVals, Tuple.getDimNames]

theorem prod_range_getD (S : List Int) :
    ∏ j ∈ Finset.range S.length, S.getD j 0 = S.prod := by
  induction S with
  | nil => simp
  | cons s S ih =>
    rw [List.length_cons, Finset.prod_range_succ', List.prod_cons, ← ih]
    simp [mul_comm]

theorem horner_reverse_formula (S C : List Int) (hlen : S.length = C.length) :
    horner 0 (List.zip S C).reverse
      = ∑ k ∈ Finset.range S.length, C.getD k 0 * ∏ j ∈ Finset.range k, S.getD j 0 := by
  induction S generalizing C with
  | nil => simp [horner_nil]
  | cons s S ih =>
    cases C with
    | nil => simp at hlen
    | cons c C =>
      simp only [List.length_cons, Nat.succ.injEq] at hlen
      rw [List.zip_cons_cons, horner_reverse_cons, ih C hlen, List.length_cons,
        Finset.sum_range_succ']
      simp only [Finset.prod_range_succ', List.getD_cons_succ, List.getD_cons_zero,
        Finset.range_zero, Finset.prod_empty, mul_one]
      rw [Finset.sum_mul]
      congr 1
      apply Finset.sum_congr rfl
      intro k _
      ring

theorem horner_formula (S C : List Int) (hlen : S.length = C.length) (acc : Int) :
    horner acc (List.zip S C)
      = acc * S.prod + ∑ k ∈ Finset.range S.length,
          C.getD k 0 * ∏ j ∈ (Finset.range S.length).filter (fun j => k < j), S.getD j 0 := by
  induction S generalizing C acc with
  | nil => simp [horner_nil]
  | cons s S ih =>
    cases C with
    | nil => simp at hlen
    | cons c C =>
      simp only [List.length_cons, Nat.succ.injEq] at hlen
      rw [List.zip_cons_cons, horner_cons, ih C hlen, List.length_cons,
        Finset.sum_range_succ', List.prod_cons]
      simp only [Finset.prod_filter, Finset.prod_range_succ', List.getD_cons_succ,
        List.getD_cons_zero, Nat.add_lt_add_iff_right, Nat.zero_lt_succ, if_true,
        Nat.not_lt_zero, if_false, mul_one, lt_self_iff_false, prod_range_getD]
      ring
theorem Tuple.zip_names_vals (p : Tuple) : List.zip p.getDimNames p.getVals = p._q :=
  (List.zip_of_prod rfl rfl).symm

theorem Tuple.unlayout_layout_q (sizes p : Tuple) (hnd : sizes.getDimNames.Nodup)
    (hr : sizes.inRange p) : (sizes.unlayout (sizes.layout p))._q = p._q := by
  obtain ⟨hn, hv⟩ := hr
  rw [Tuple.layout_eq_horner sizes p hnd hn]
  unfold Tuple.unlayout slowOrder
  simp only
  rw [← p.zip_names_vals, hn]
  congr 1
  by_cases hf : sizes._firstInner = true
  · simp only [hf, if_true]
    exact unlayoutVals_horner _ _ hv
  · simp only [hf, Bool.false_eq_true, if_false]
    have h1 := unlayoutVals_horner sizes.getVals.reverse p.getVals.reverse
      (List.forall₂_reverse_iff.2 hv)
    rw [zip_reverse_of_length_eq _ _ hv.length_eq, List.reverse_reverse] at h1
    rw [h1, List.reverse_reverse]

theorem Tuple.inRange_unlayout (sizes : Tuple) (hpos : ∀ s ∈ sizes.getVals, 1 ≤ s)
    (i : Int) : sizes.inRange (sizes.unlayout i) := by
  refine ⟨sizes.getDimNames_unlayout i, ?_⟩
  rw [Tuple.getVals_unlayout]
  by_cases hf : sizes._firstInner = true
  · simp only [hf, if_true]
    exact unlayoutVals_inRange _ hpos i
  · simp only [hf, Bool.false_eq_true, if_false]
    apply List.forall₂_reverse_iff.1
    rw [List.reverse_reverse]
    exact unlayoutVals_inRange _ (fun s hs => hpos s (List.mem_reverse.1 hs)) i

theorem Tuple.layout_unlayout_eq (sizes : Tuple) (hnd : sizes.getDimNames.Nodup)
    (hpos : ∀ s ∈ sizes.getVals, 1 ≤ s) (i : Int) (h0 : 0 ≤ i) (hi : i < sizes.product) :
    sizes.layout (sizes.unlayout i) = i := by
  rw [Tuple.layout_eq_horner sizes _ hnd (sizes.getDimNames_unlayout i),
    Tuple.getVals_unlayout]
  unfold slowOrder
  by_cases hf : sizes._firstInner = true
  · simp only [hf, if_true]
    exact horner_unlayoutVals _ hpos i h0 hi
  · simp only [hf, Bool.false_eq_true, if_false]
    have hi2 : i < sizes.getVals.reverse.prod := by
      rw [List.prod_reverse]; exact hi
    have h1 := horner_unlayoutVals sizes.getVals.reverse
      (fun s hs => hpos s (List.mem_reverse.1 hs)) i h0 hi2
    rw [← List.reverse_reverse (Tuple.unlayoutVals sizes.getVals.reverse i),
      ← zip_reverse_of_length_eq _ _ (by simp [unlayoutVals_length])] at h1
    simpa using h1

/-- C1: for sizes with unique names and a coordinate `p` over the same
dimensions with `0 <= p[d] < size[d]` everywhere (which makes every size
`>= 1`), first-inner or last-inner, `sizes.unlayout(sizes.layout(p))` has
exactly the named values of `p` (and carries the flag of `sizes`). -/
theorem C1_unlayout_layout (sizes p : Tuple) (hnd : sizes.getDimNames.Nodup)
    (hr : sizes.inRange p) :
    (sizes.unlayout (sizes.layout p))._q = p._q ∧
      (sizes.unlayout (sizes.layout p))._firstInner = sizes._firstInner :=
  ⟨Tuple.unlayout_layout_q sizes p hnd hr, rfl⟩

/-- C1 at the sizes `(x=3, y=4)` and the coordinate `(x=2, y=3)`. -/
theorem C1_unlayout_layout_witness :
    (t1.unlayout (t1.layout ⟨[("x", 2), ("y", 3)], false⟩))._q = [("x", 2), ("y", 3)] ∧
      (t1.unlayout (t1.layout ⟨[("x", 2), ("y", 3)], false⟩))._firstInner = true :=
  C1_unlayout_layout t1 ⟨[("x", 2), ("y", 3)], false⟩ (by decide)
    ⟨rfl, by
      refine List.Forall₂.cons ⟨by decide, by decide⟩
        (List.Forall₂.cons ⟨by decide, by decide⟩ List.Forall₂.nil)⟩

/-- C2: for sizes with unique names whose values are all `>= 1` and every
linear index `0 <= i < sizes.product()`, `sizes.unlayout(i)` is an in-range
coordinate over the dimensions of `sizes` and
`sizes.layout(sizes.unlayout(i)) == i`. -/
theorem C2_layout_unlayout (sizes : Tuple) (hnd : sizes.getDimNames.Nodup)
    (hpos : ∀ s ∈ sizes.getVals, 1 ≤ s) (i : Int) (h0 : 0 ≤ i) (hi : i < sizes.product) :
    sizes.inRange (sizes.unlayout i) ∧ sizes.layout (sizes.unlayout i) = i :=
  ⟨Tuple.inRange_unlayout sizes hpos i, Tuple.layout_unlayout_eq sizes hnd hpos i h0 hi⟩

/-- C2 at the sizes `(x=3, y=4)` and the index 7. -/
theorem C2_layout_unlayout_witness :
    t1.inRange (t1.unlayout 7) ∧ t1.layout (t1.unlayout 7) = 7 :=
  C2_layout_unlayout t1 (by decide) (by decide) 7 (by decide) (by decide)

theorem Tuple.layout_t1 (x y : Int) (b : Bool) :
    t1.layout ⟨[("x", x), ("y", y)], b⟩ = y * 3 + x := by
  simp [Tuple.layout, t1, Tuple.addDimBack, Tuple.slowFirst, Tuple.lookup, List.lookup]

/-- C3: `layout` is the mixed-radix index. For sizes `(s_0..s_{n-1})` with
unique names and a coordinate `p` over the same dimensions (in range or not),
a first-inner tuple gives `sum_k p_k * prod_{j<k} s_j` and a last-inner tuple
gives `sum_k p_k * prod_{j>k} s_j`. For the first-inner sizes `(x=3, y=4)`,
`layout(x, y) = y*3 + x`, and iterating `y` outermost and `x` innermost yields
`0, 1, 2, ..., 11`. -/
theorem C3_layout_mixed_radix (sizes p : Tuple) (hnd : sizes.getDimNames.Nodup)
    (hn : p.getDimNames = sizes.getDimNames) :
    sizes.layout p
        = (if sizes._firstInner then
            ∑ k ∈ Finset.range sizes.getNumDims,
              p.getVal k * ∏ j ∈ Finset.range k, sizes.getVal j
          else
            ∑ k ∈ Finset.range sizes.getNumDims,
              p.getVal k *
                ∏ j ∈ (Finset.range sizes.getNumDims).filter (fun j => k < j),
                  sizes.getVal j) ∧
      (∀ (x y : Int) (b : Bool), t1.layout ⟨[("x", x), ("y", y)], b⟩ = y * 3 + x) ∧
      (List.range 4).flatMap (fun (y : Nat) => (List.range 3).map (fun (x : Nat) =>
          t1.layout ⟨[("x", (x : Int)), ("y", (y : Int))], true⟩))
        = (List.range 12).map (fun (i : Nat) => (i : Int)) := by
  refine ⟨?_, Tuple.layout_t1, by decide⟩
  have hlen : sizes.getVals.length = p.getVals.length := by
    have := congrArg List.length hn
    simpa [Tuple.getDimNames, Tuple.getVals] using this.symm
  have hnum : sizes.getNumDims = sizes.getVals.length := by
    simp [Tuple.getNumDims, Tuple.getVals]
  rw [Tuple.layout_eq_horner sizes p hnd hn, hnum]
  unfold slowOrder Tuple.getVal
  by_cases hf : sizes._firstInner = true
  · simp only [hf, if_true]
    exact horner_reverse_formula _ _ hlen
  · simp only [hf, Bool.false_eq_true, if_false]
    rw [horner_formula _ _ hlen 0]
    simp

/-- C3 at the last-inner sizes `(x=3, y=4, z=5)` and the coordinate `(2, 1, 4)`. -/
theorem C3_layout_mixed_radix_witness :
    Tuple.layout ⟨[("x", 3), ("y", 4), ("z", 5)], false⟩ ⟨[("x", 2), ("y", 1), ("z", 4)], false⟩
      = 2 * (4 * 5) + 1 * 5 + 4 := by
  have h := (C3_layout_mixed_radix ⟨[("x", 3), ("y", 4), ("z", 5)], false⟩
    ⟨[("x", 2), ("y", 1), ("z", 4)], false⟩ (by decide) rfl).1
  rw [h]
  decide

theorem range_mul_flatMap (a P : Nat) :
    List.range (a * P)
      = (List.range a).flatMap (fun i => (List.range P).map (fun k => i * P + k)) := by
  induction a with
  | zero => simp
  | succ a ih =>
    rw [Nat.succ_mul, List.range_add, List.range_succ, List.flatMap_append, ← ih]
    simp

theorem pointVals_length (S : List Int) (c : List Int) (hc : c ∈ Tuple.pointVals S) :
    c.length = S.length := by
  induction S generalizing c with
  | nil =>
    simp only [Tuple.pointVals, List.mem_singleton] at hc
    simp [hc]
  | cons s S ih =>
    simp only [Tuple.pointVals, List.mem_flatMap, List.mem_map] at hc
    obtain ⟨i, _, c', hc', rfl⟩ := hc
    simp [ih c' hc']

theorem pointVals_inRange (S : List Int) (c : List Int) (hc : c ∈ Tuple.pointVals S) :
    List.Forall₂ (fun s v => 0 ≤ v ∧ v < s) S c := by
  induction S generalizing c with
  | nil =>
    simp only [Tuple.pointVals, List.mem_singleton] at hc
    subst hc
    exact List.Forall₂.nil
  | cons s S ih =>
    simp only [Tuple.pointVals, List.mem_flatMap, List.mem_map, List.mem_range] at hc
    obtain ⟨i, hi, c', hc', rfl⟩ := hc
    refine List.Forall₂.cons ⟨by omega, by omega⟩ (ih c' hc')

/-- The nested loops deliver the coordinates in the order of their index. -/
theorem pointVals_horner (S : List Int) (hpos : ∀ s ∈ S, 0 ≤ s) (acc : Int) :
    (Tuple.pointVals S).map (fun c => horner acc (List.zip S c))
      = (List.range S.prod.toNat).map (fun (k : Nat) => acc * S.prod + (k : Int)) := by
  induction S generalizing acc with
  | nil => simp [Tuple.pointVals, horner_nil, List.range_succ]
  | cons s S ih =>
    have hs : 0 ≤ s := hpos s (List.mem_cons_self _ _)
    have hS : ∀ t ∈ S, 0 ≤ t := fun t ht => hpos t (List.mem_cons_of_mem _ ht)
    have hP : 0 ≤ S.prod := List.prod_nonneg hS
    obtain ⟨a, rfl⟩ := Int.eq_ofNat_of_zero_le hs
    obtain ⟨P, hPe⟩ := Int.eq_ofNat_of_zero_le hP
    simp only [Tuple.pointVals, List.map_flatMap, List.map_map, Function.comp_def,
      List.zip_cons_cons, horner_cons, Int.toNat_ofNat, List.prod_cons]
    have hprod : ((a : Int) * S.prod).toNat = a * P := by
      rw [hPe, ← Int.natCast_mul, Int.toNat_ofNat]
    rw [hprod, range_mul_flatMap, List.map_flatMap]
    congr 1
    funext i
    rw [ih hS, hPe, Int.toNat_ofNat, List.map_map]
    apply List.map_congr_left
    intro k _
    simp only [Function.comp_def]
    push_cast
    ring

theorem visitLoop_of_true {σ : Type} (visitor : Tuple → Nat → σ → Bool × σ)
    (htrue : ∀ c k st, (visitor c k st).1 = true) (pts : List Tuple) (idx : Nat) (st : σ) :
    Tuple.visitLoop visitor pts idx st
      = (pts.enumFrom idx).foldl (fun s kc => (visitor kc.2 kc.1 s).2) st := by
  induction pts generalizing idx st with
  | nil => rfl
  | cons pt pts ih =>
    simp only [Tuple.visitLoop, htrue, if_true, List.enumFrom_cons, List.foldl_cons]
    exact ih _ _

theorem foldl_record (l : List (Nat × Tuple)) (tr : List (Tuple × Nat)) :
    l.foldl (fun s kc => s ++ [(kc.2, kc.1)]) tr = tr ++ l.map (fun kc => (kc.2, kc.1)) := by
  induction l generalizing tr with
  | nil => simp
  | cons x l ih => simp [ih]

theorem Tuple.visitTrace_eq (t : Tuple) :
    t.visitTrace = t.visitPoints.enum.map (fun kc => (kc.2, kc.1)) := by
  unfold Tuple.visitTrace Tuple.visitAllPoints
  rw [visitLoop_of_true _ (fun _ _ _ => rfl)]
  simp only
  rw [foldl_record]
  simp [List.enum]

theorem Tuple.visitAllPoints_of_true {σ : Type} (t : Tuple)
    (visitor : Tuple → Nat → σ → Bool × σ)
    (htrue : ∀ c k st, (visitor c k st).1 = true) (st : σ) :
    t.visitAllPoints visitor st
      = t.visitTrace.foldl (fun s ck => (visitor ck.1 ck.2 s).2) st := by
  rw [Tuple.visitTrace_eq, List.foldl_map]
  unfold Tuple.visitAllPoints
  rw [visitLoop_of_true _ htrue]
  rfl

theorem slowOrder_length {α : Type} (b : Bool) (l : List α) :
    (slowOrder b l).length = l.length := by
  cases b <;> simp [slowOrder]

theorem slowOrder_zip (b : Bool) (S c : List Int) (h : c.length = S.length) :
    slowOrder b (List.zip S (slowOrder b c)) = List.zip (slowOrder b S) c := by
  cases b
  · rfl
  · simp only [slowOrder, if_true]
    rw [← zip_reverse_of_length_eq _ _ (by simp [h]), List.reverse_reverse]

theorem Tuple.getVals_length (t : Tuple) : t.getVals.length = t.getDimNames.length := by
  simp [Tuple.getVals, Tuple.getDimNames]

theorem Tuple.layout_visitPoint (t : Tuple) (hnd : t.getDimNames.Nodup) (c : List Int)
    (hc : c.length = t.getVals.length) :
    t.layout ⟨List.zip t.getDimNames (slowOrder t._firstInner c), t._firstInner⟩
      = horner 0 (List.zip (slowOrder t._firstInner t.getVals) c) := by
  have hlen : t.getDimNames.length = (slowOrder t._firstInner c).length := by
    rw [slowOrder_length, hc, Tuple.getVals_length]
  have hn : Tuple.getDimNames
      ⟨List.zip t.getDimNames (slowOrder t._firstInner c), t._firstInner⟩
      = t.getDimNames := List.map_fst_zip _ _ (le_of_eq hlen)
  have hv : Tuple.getVals
      ⟨List.zip t.getDimNames (slowOrder t._firstInner c), t._firstInner⟩
      = slowOrder t._firstInner c := List.map_snd_zip _ _ (le_of_eq hlen.symm)
  rw [Tuple.layout_eq_horner t _ hnd hn, hv, slowOrder_zip _ _ _ hc]

theorem slowOrder_prod (b : Bool) (S : List Int) : (slowOrder b S).prod = S.prod := by
  cases b <;> simp [slowOrder, List.prod_reverse]

theorem Tuple.visitPoints_layout (t : Tuple) (hnd : t.getDimNames.Nodup)
    (hpos : ∀ s ∈ t.getVals, 0 ≤ s) :
    t.visitPoints.map t.layout
      = (List.range t.product.toNat).map (fun (k : Nat) => (k : Int)) := by
  have hpos2 : ∀ s ∈ slowOrder t._firstInner t.getVals, 0 ≤ s := by
    intro s hs
    apply hpos
    cases hf : t._firstInner <;> simp [slowOrder, hf] at hs <;> exact hs
  have h := pointVals_horner (slowOrder t._firstInner t.getVals) hpos2 0
  simp only [zero_mul, zero_add, slowOrder_prod] at h
  unfold Tuple.product
  rw [← h]
  unfold Tuple.visitPoints
  rw [List.map_map]
  apply List.map_congr_left
  intro c hc
  have hlen := pointVals_length _ c hc
  rw [slowOrder_length] at hlen
  exact Tuple.layout_visitPoint t hnd c hlen

theorem Tuple.visitPoints_inRange (t : Tuple) (pt : Tuple) (hpt : pt ∈ t.visitPoints) :
    t.inRange pt := by
  unfold Tuple.visitPoints at hpt
  obtain ⟨c, hc, rfl⟩ := List.mem_map.1 hpt
  have hlen := pointVals_length _ c hc
  rw [slowOrder_length] at hlen
  have hl2 : t.getDimNames.length = (slowOrder t._firstInner c).length := by
    rw [slowOrder_length, hlen, Tuple.getVals_length]
  have hr := pointVals_inRange _ c hc
  refine ⟨List.map_fst_zip _ _ (le_of_eq hl2), ?_⟩
  have hv : Tuple.getVals
      ⟨List.zip t.getDimNames (slowOrder t._firstInner c), t._firstInner⟩
      = slowOrder t._firstInner c := List.map_snd_zip _ _ (le_of_eq hl2.symm)
  rw [hv]
  cases hf : t._firstInner
  · simpa [slowOrder, hf] using hr
  · rw [hf] at hr
    simp only [slowOrder, if_true] at hr ⊢
    apply List.forall₂_reverse_iff.1
    rw [List.reverse_reverse]
    exact hr

theorem Tuple.visitTrace_spec (t : Tuple) (hnd : t.getDimNames.Nodup)
    (hpos : ∀ s ∈ t.getVals, 1 ≤ s) :
    (t.visitTrace.length : Int) = t.product ∧
      t.visitTrace.map Prod.snd = List.range t.visitTrace.length ∧
      ∀ ck ∈ t.visitTrace, t.inRange ck.1 ∧ t.layout ck.1 = (ck.2 : Int) := by
  have hpos0 : ∀ s ∈ t.getVals, 0 ≤ s := fun s hs => by have := hpos s hs; omega
  have hlay := Tuple.visitPoints_layout t hnd hpos0
  have hprod : 0 ≤ t.product := List.prod_nonneg hpos0
  have hlen : t.visitPoints.length = t.product.toNat := by
    have := congrArg List.length hlay
    simpa using this
  refine ⟨?_, ?_, ?_⟩
  · rw [Tuple.visitTrace_eq, List.length_map, List.enum_length, hlen]
    exact Int.toNat_of_nonneg hprod
  · rw [Tuple.visitTrace_eq, List.map_map, List.length_map, List.enum_length]
    have : (Prod.snd ∘ fun (kc : Nat × Tuple) => (kc.2, kc.1)) = Prod.fst := rfl
    rw [this, List.enum_map_fst]
  · intro ck hck
    rw [Tuple.visitTrace_eq] at hck
    obtain ⟨⟨k, pt⟩, hmem, rfl⟩ := List.mem_map.1 hck
    have hget : t.visitPoints[k]? = some pt := List.mk_mem_enum_iff_getElem?.1 hmem
    refine ⟨Tuple.visitPoints_inRange t pt (List.getElem?_mem hget), ?_⟩
    have h1 : (t.visitPoints.map t.layout)[k]? = some (t.layout pt) := by
      rw [List.getElem?_map, hget]; rfl
    rw [hlay, List.getElem?_map] at h1
    have hk : k < t.product.toNat := by
      rw [← hlen]
      exact (List.getElem?_eq_some_iff.1 hget).1
    rw [List.getElem?_range hk] at h1
    simp only [Option.map_some', Option.some.injEq] at h1
    exact h1.symm

/-- C4: for a tuple with unique names whose values are all `>= 1` and a
callback that always returns `true`, `visitAllPoints` invokes the callback
exactly `product()` times; the invocations carry the indices `0, 1, 2, ...` in
increasing order, each with an in-range coordinate `c` such that
`layout(c)` is that index; and what any such callback computes is the fold of
the callback over exactly these invocations. -/
theorem C4_visitAllPoints (t : Tuple) (hnd : t.getDimNames.Nodup)
    (hpos : ∀ s ∈ t.getVals, 1 ≤ s) :
    (t.visitTrace.length : Int) = t.product ∧
      t.visitTrace.map Prod.snd = List.range t.visitTrace.length ∧
      (∀ ck ∈ t.visitTrace, t.inRange ck.1 ∧ t.layout ck.1 = (ck.2 : Int)) ∧
      ∀ (σ : Type) (visitor : Tuple → Nat → σ → Bool × σ) (st : σ),
        (∀ c k s, (visitor c k s).1 = true) →
          t.visitAllPoints visitor st
            = t.visitTrace.foldl (fun s ck => (visitor ck.1 ck.2 s).2) st :=
  ⟨(Tuple.visitTrace_spec t hnd hpos).1, (Tuple.visitTrace_spec t hnd hpos).2.1,
    (Tuple.visitTrace_spec t hnd hpos).2.2,
    fun _ visitor st htrue => Tuple.visitAllPoints_of_true t visitor htrue st⟩

/-- C4 at the sizes `(x=3, y=4)`. -/
theorem C4_visitAllPoints_witness :
    (t1.visitTrace.length : Int) = t1.product ∧
      t1.visitTrace.map Prod.snd = List.range t1.visitTrace.length ∧
      (∀ ck ∈ t1.visitTrace, t1.inRange ck.1 ∧ t1.layout ck.1 = (ck.2 : Int)) :=
  ⟨(C4_visitAllPoints t1 (by decide) (by decide)).1,
    (C4_visitAllPoints t1 (by decide) (by decide)).2.1,
    (C4_visitAllPoints t1 (by decide) (by decide)).2.2.1⟩


/-! ### Rounding up -/

theorem ROUND_UP_dvd (n m : Int) : m ∣ ROUND_UP n m := Dvd.intro_left _ rfl

theorem ROUND_UP_ge (n m : Int) (hm : 1 ≤ m) : n ≤ ROUND_UP n m := by
  unfold ROUND_UP
  have h := Int.lt_ediv_add_one_mul_self (n + m - 1) (by omega : 0 < m)
  have : ((n + m - 1) / m + 1) * m = (n + m - 1) / m * m + m := by ring
  omega

theorem ROUND_UP_least (n m k : Int) (hm : 1 ≤ m) (hk : m ∣ k) (hn : n ≤ k) :
    ROUND_UP n m ≤ k := by
  obtain ⟨j, rfl⟩ := hk
  unfold ROUND_UP
  have h : (n + m - 1) / m < j + 1 := by
    apply Int.ediv_lt_of_lt_mul (by omega)
    have : (j + 1) * m = m * j + m := by ring
    omega
  have h2 : (n + m - 1) / m ≤ j := by omega
  calc (n + m - 1) / m * m ≤ j * m := Int.mul_le_mul_of_nonneg_right h2 (by omega)
    _ = m * j := mul_comm _ _

theorem ROUND_UP_of_dvd (n m : Int) (hm : 1 ≤ m) (h : m ∣ n) : ROUND_UP n m = n := by
  apply le_antisymm
  · exact ROUND_UP_least n m n hm h (le_refl _)
  · exact ROUND_UP_ge n m hm

theorem tdiv_mul_cancel_of_dvd (a m : Int) (h : m ∣ a) : Int.tdiv a m * m = a := by
  obtain ⟨j, rfl⟩ := h
  by_cases hm : m = 0
  · subst hm; simp
  · rw [Int.mul_tdiv_cancel_left _ hm, mul_comm]

/-! ### Entry of a setter -/

theorem YkGridBase.get_dim_posn_of_used (g : YkGridBase) (dim : String)
    (h : g.is_dim_used dim = true) :
    g.get_dim_posn dim = Except.ok ((g.ggb_dims.lookup_posn dim).getD 0) := by
  unfold YkGridBase.is_dim_used at h
  unfold YkGridBase.get_dim_posn
  cases hl : g.ggb_dims.lookup_posn dim with
  | none => simp [hl] at h
  | some p => rfl

theorem YkGridBase.used_of_checkDimType (g : YkGridBase) (dim : String) (a b c : Bool)
    (h : g.checkDimType dim a b c = Except.ok ()) : g.is_dim_used dim = true := by
  unfold YkGridBase.checkDimType at h
  by_cases hu : g.is_dim_used dim = true
  · exact hu
  · simp [hu] at h

theorem YkGridBase.checkDimType_all (g : YkGridBase) (dim : String)
    (h : g.is_dim_used dim = true) : g.checkDimType dim true true true = Except.ok () := by
  unfold YkGridBase.checkDimType Dims.checkDimType
  simp only [h, Bool.not_true, Bool.false_eq_true, if_false, if_true]
  cases g._dims.kind dim <;> rfl

theorem YkGridBase.SET_GRID_API_of_ok (g : YkGridBase) (dim : String) (a b c : Bool)
    (expr : YkGridBase → Nat → Except GridFatal YkGridBase)
    (h : g.checkDimType dim a b c = Except.ok ()) :
    YkGridBase.SET_GRID_API a b c expr g dim
      = expr g ((g.ggb_dims.lookup_posn dim).getD 0) := by
  unfold YkGridBase.SET_GRID_API
  rw [g.get_dim_posn_of_used dim (g.used_of_checkDimType dim a b c h), h]

theorem YkGridBase.SET_GRID_API_all (g : YkGridBase) (dim : String)
    (expr : YkGridBase → Nat → Except GridFatal YkGridBase)
    (h : g.is_dim_used dim = true) :
    YkGridBase.SET_GRID_API true true true expr g dim
      = expr g ((g.ggb_dims.lookup_posn dim).getD 0) :=
  YkGridBase.SET_GRID_API_of_ok g dim _ _ _ expr (g.checkDimType_all dim h)

/-- An accepted call is `resize()` on the assigned fields when it reaches
`resize()`, and the assigned fields themselves otherwise. -/
theorem SetterCall.run_eq (c : SetterCall) (g : YkGridBase) (h : c.accepted g) :
    c.run g = if c.runsResize g then (c.assign g).resize else Except.ok (c.assign g) := by
  have hu : g.is_dim_used c.dim = true := g.used_of_checkDimType _ _ _ _ h
  cases c with
  | set_halo_size dim n =>
    have h : g.checkDimType dim false true false = Except.ok () := h
    have hu : g.is_dim_used dim = true := hu
    simp only [SetterCall.run, YkGridBase.set_halo_size, SetterCall.runsResize, if_true]
    rw [YkGridBase.SET_GRID_API_of_ok g dim _ _ _ _ h]
    simp only [YkGridBase._set_pad_size]
    rw [YkGridBase.SET_GRID_API_all]
    · rfl
    · exact hu
  | set_min_pad_size dim n =>
    have h : g.checkDimType dim false true false = Except.ok () := h
    have hu : g.is_dim_used dim = true := hu
    simp only [SetterCall.run, YkGridBase.set_min_pad_size, SetterCall.runsResize]
    rw [YkGridBase.SET_GRID_API_of_ok g dim _ _ _ _ h]
    by_cases hn : n > g._pads ((g.ggb_dims.lookup_posn dim).getD 0)
    · simp only [SetterCall.posn, SetterCall.dim, hn, decide_True, if_true,
        SetterCall.assign, YkGridBase._set_pad_size]
      rw [YkGridBase.SET_GRID_API_all _ _ _ hu]
    · simp [SetterCall.posn, SetterCall.dim, hn, SetterCall.assign]
  | set_extra_pad_size dim n =>
    have h : g.checkDimType dim false true false = Except.ok () := h
    have hu : g.is_dim_used dim = true := hu
    simp only [SetterCall.run, YkGridBase.set_extra_pad_size, SetterCall.runsResize]
    rw [YkGridBase.SET_GRID_API_of_ok g dim _ _ _ _ h]
    simp only [YkGridBase.set_min_pad_size]
    rw [YkGridBase.SET_GRID_API_of_ok g dim _ _ _ _ h]
    by_cases hn : g._halos ((g.ggb_dims.lookup_posn dim).getD 0) + n
        > g._pads ((g.ggb_dims.lookup_posn dim).getD 0)
    · simp only [SetterCall.posn, SetterCall.dim, hn, decide_True, if_true,
        SetterCall.assign, YkGridBase._set_pad_size]
      rw [YkGridBase.SET_GRID_API_all _ _ _ hu]
    · simp [SetterCall.posn, SetterCall.dim, hn, SetterCall.assign]
  | set_first_misc_index dim n =>
    have h : g.checkDimType dim false false true = Except.ok () := h
    simp only [SetterCall.run, YkGridBase.set_first_misc_index, SetterCall.runsResize]
    rw [YkGridBase.SET_GRID_API_of_ok g dim _ _ _ _ h]
    rfl
  | set_alloc_size dim n =>
    have h : g.checkDimType dim true false true = Except.ok () := h
    have hu : g.is_dim_used dim = true := hu
    simp only [SetterCall.run, YkGridBase.set_alloc_size, SetterCall.runsResize, if_true]
    rw [YkGridBase.SET_GRID_API_of_ok g dim _ _ _ _ h]
    simp only [YkGridBase._set_domain_size]
    rw [YkGridBase.SET_GRID_API_all _ _ _ hu]
    rfl
  | _set_domain_size dim n =>
    have hu : g.is_dim_used dim = true := hu
    simp only [SetterCall.run, YkGridBase._set_domain_size, SetterCall.runsResize, if_true]
    rw [YkGridBase.SET_GRID_API_all _ _ _ hu]
    rfl
  | _set_pad_size dim n =>
    have hu : g.is_dim_used dim = true := hu
    simp only [SetterCall.run, YkGridBase._set_pad_size, SetterCall.runsResize, if_true]
    rw [YkGridBase.SET_GRID_API_all _ _ _ hu]
    rfl
  | _set_offset dim n =>
    have hu : g.is_dim_used dim = true := hu
    simp only [SetterCall.run, YkGridBase._set_offset, SetterCall.runsResize]
    rw [YkGridBase.SET_GRID_API_all _ _ _ hu]
    rfl

/-! ### `resize()` -/

theorem Tuple.getDimNames_setVal (t : Tuple) (i : Nat) (v : Int) :
    (t.setVal i v).getDimNames = t.getDimNames := by
  unfold Tuple.setVal Tuple.getDimNames
  simp only
  generalize t._q = l
  induction l generalizing i with
  | nil => cases i <;> rfl
  | cons a l ih =>
    cases i with
    | zero => rfl
    | succ i => simp only [List.modify_succ_cons, List.map_cons, ih]

theorem YkGridBase.getDimNames_setDimSizes (t : Tuple) (vals : Indices) (n : Nat) :
    (YkGridBase.setDimSizes t vals n).getDimNames = t.getDimNames := by
  unfold YkGridBase.setDimSizes
  generalize List.range n = l
  induction l generalizing t with
  | nil => rfl
  | cons a l ih => rw [List.foldl_cons, ih, Tuple.getDimNames_setVal]

theorem Tuple.getNumDims_eq_of_names (t u : Tuple) (h : t.getDimNames = u.getDimNames) :
    t.getNumDims = u.getNumDims := by
  have := congrArg List.length h
  simpa [Tuple.getDimNames, Tuple.getNumDims] using this

theorem Tuple.lookup_posn_eq_of_names (t u : Tuple) (h : t.getDimNames = u.getDimNames)
    (dim : String) : t.lookup_posn dim = u.lookup_posn dim := by
  unfold Tuple.lookup_posn
  rw [h, Tuple.getNumDims_eq_of_names t u h]

theorem foldl_mul_range (f : Nat → Int) (n : Nat) :
    (List.range n).foldl (fun acc i => acc * f i) 1 = ∏ i ∈ Finset.range n, f i := by
  induction n with
  | zero => rfl
  | succ n ih => rw [List.range_succ, List.foldl_append, ih, Finset.prod_range_succ]; rfl

theorem prod_map_range (f : Nat → Int) (n : Nat) :
    ((List.range n).map f).prod = ∏ i ∈ Finset.range n, f i := by
  induction n with
  | zero => rfl
  | succ n ih =>
    rw [List.range_succ, List.map_append, List.prod_append, ih, Finset.prod_range_succ]
    simp

theorem YkGridBase.newSize_eq (g : YkGridBase) :
    g.newSize = ∏ i ∈ Finset.range g.get_num_dims, g.newAllocs i :=
  foldl_mul_range _ _

theorem YkGridBase.get_allocs_product (g : YkGridBase) :
    g.get_allocs.product = ∏ i ∈ Finset.range g.get_num_dims, g._allocs i := by
  unfold YkGridBase.get_allocs Tuple.product Tuple.getVals
  simp only [List.map_map]
  exact prod_map_range _ _

/-- Either `resize()` exits, with the pads rounded and nothing else written, or
returns the resized grid; it exits exactly when storage is attached and the
total size differs. -/
theorem YkGridBase.resize_eq (g : YkGridBase) :
    g.resize
      = if g.get_raw_storage_buffer = true ∧
            ∏ i ∈ Finset.range g.get_num_dims, g.roundPads.newAllocs i
              ≠ ∏ i ∈ Finset.range g.get_num_dims, g._allocs i
        then Except.error (Fatal.resizeAfterAlloc, g.roundPads)
        else Except.ok g.resized := by
  unfold YkGridBase.resize
  simp only [YkGridBase.get_allocs_product, YkGridBase.newSize_eq]
  have hn : g.roundPads.get_num_dims = g.get_num_dims := rfl
  have hs : g.roundPads.get_raw_storage_buffer = g.get_raw_storage_buffer := rfl
  by_cases h1 : g.get_raw_storage_buffer = true
  · by_cases h2 : ∏ i ∈ Finset.range g.get_num_dims, g.roundPads.newAllocs i
        = ∏ i ∈ Finset.range g.get_num_dims, g._allocs i
    · simp only [hs, hn, h1, h2, bne_self_eq_false, Bool.and_false, Bool.false_eq_true,
        if_false, ne_eq, not_true_eq_false, and_false]
      rfl
    · have h3 : ¬ (∏ i ∈ Finset.range g.get_num_dims, g._allocs i
          = ∏ i ∈ Finset.range g.get_num_dims, g.roundPads.newAllocs i) :=
        fun h => h2 h.symm
      simp [hs, hn, h1, h2, h3]
  · simp only [hs, h1, Bool.false_and, Bool.false_eq_true, if_false, false_and]
    rfl

theorem YkGridBase.get_num_dims_resized (g : YkGridBase) :
    g.resized.get_num_dims = g.get_num_dims :=
  Tuple.getNumDims_eq_of_names _ _ (YkGridBase.getDimNames_setDimSizes _ _ _)

theorem YkGridBase.get_dim_posn_error (g : YkGridBase) (dim : String) (e : Fatal)
    (h : g.get_dim_posn dim = Except.error e) : e = Fatal.dimNotFound := by
  unfold YkGridBase.get_dim_posn at h
  cases hl : g.ggb_dims.lookup_posn dim with
  | none => rw [hl] at h; cases h; rfl
  | some p => rw [hl] at h; cases h

theorem YkGridBase.checkDimType_error (g : YkGridBase) (dim : String) (a b c : Bool)
    (e : Fatal) (h : g.checkDimType dim a b c = Except.error e) :
    e = Fatal.dimNotUsed ∨ e = Fatal.dimKind := by
  unfold YkGridBase.checkDimType Dims.checkDimType at h
  by_cases hu : g.is_dim_used dim = true
  · right
    simp only [hu, Bool.not_true, Bool.false_eq_true, if_false] at h
    cases hk : g._dims.kind dim <;> rw [hk] at h <;> simp only at h <;>
      split at h <;> cases h <;> rfl
  · left
    simp only [hu, Bool.not_false, Bool.not_eq_true] at h
    simp at hu
    simp [hu] at h
    exact h.symm

theorem YkGridBase.SET_GRID_API_of_not_ok (g : YkGridBase) (dim : String) (a b c : Bool)
    (expr : YkGridBase → Nat → Except GridFatal YkGridBase)
    (h : ¬ g.checkDimType dim a b c = Except.ok ()) :
    ∃ e, YkGridBase.SET_GRID_API a b c expr g dim = Except.error (e, g) ∧
      e ≠ Fatal.resizeAfterAlloc := by
  unfold YkGridBase.SET_GRID_API
  cases hp : g.get_dim_posn dim with
  | error e =>
    refine ⟨e, rfl, ?_⟩
    rw [g.get_dim_posn_error dim e hp]
    decide
  | ok posn =>
    cases hc : g.checkDimType dim a b c with
    | error e =>
      refine ⟨e, rfl, ?_⟩
      rcases g.checkDimType_error dim a b c e hc with rfl | rfl <;> decide
    | ok u => exact absurd hc h

theorem SetterCall.run_of_not_accepted (c : SetterCall) (g : YkGridBase)
    (h : ¬ c.accepted g) :
    ∃ e, c.run g = Except.error (e, g) ∧ e ≠ Fatal.resizeAfterAlloc := by
  cases c <;> simp only [SetterCall.accepted, SetterCall.kinds, SetterCall.dim] at h <;>
    simp only [SetterCall.run, YkGridBase.set_halo_size, YkGridBase.set_min_pad_size,
      YkGridBase.set_extra_pad_size, YkGridBase.set_first_misc_index,
      YkGridBase.set_alloc_size, YkGridBase._set_domain_size, YkGridBase._set_pad_size,
      YkGridBase._set_offset] <;>
    exact YkGridBase.SET_GRID_API_of_not_ok g _ _ _ _ _ h

theorem SetterCall.accepted_of_ok (c : SetterCall) (g g' : YkGridBase)
    (h : c.run g = Except.ok g') : c.accepted g := by
  by_contra hn
  obtain ⟨e, he, _⟩ := c.run_of_not_accepted g hn
  rw [he] at h
  cases h

theorem SetterCall.accepted_of_resize_error (c : SetterCall) (g s : YkGridBase)
    (h : c.run g = Except.error (Fatal.resizeAfterAlloc, s)) : c.accepted g := by
  by_contra hn
  obtain ⟨e, he, hne⟩ := c.run_of_not_accepted g hn
  rw [he] at h
  cases h
  exact hne rfl

/-- What `assign` leaves alone. -/
theorem SetterCall.assign_frame (c : SetterCall) (g : YkGridBase) :
    (c.assign g).ggb_dims = g.ggb_dims ∧ (c.assign g)._vec_lens = g._vec_lens ∧
      (c.assign g).storage = g.storage ∧ (c.assign g)._allocs = g._allocs ∧
      (c.assign g)._vec_allocs = g._vec_allocs ∧ (c.assign g)._dims = g._dims := by
  cases c <;>
    first
    | exact ⟨rfl, rfl, rfl, rfl, rfl, rfl⟩
    | (unfold SetterCall.assign
       dsimp only
       split <;> exact ⟨rfl, rfl, rfl, rfl, rfl, rfl⟩)

theorem SetterCall.get_num_dims_assign (c : SetterCall) (g : YkGridBase) :
    (c.assign g).get_num_dims = g.get_num_dims := by
  unfold YkGridBase.get_num_dims
  rw [(c.assign_frame g).1]

/-- An accepted call that reaches `resize()`, in full. -/
theorem SetterCall.run_resize (c : SetterCall) (g : YkGridBase) (h : c.accepted g)
    (hres : c.runsResize g = true) :
    c.run g
      = if g.get_raw_storage_buffer = true ∧
            ∏ i ∈ Finset.range g.get_num_dims, (c.assign g).roundPads.newAllocs i
              ≠ ∏ i ∈ Finset.range g.get_num_dims, g._allocs i
        then Except.error (Fatal.resizeAfterAlloc, (c.assign g).roundPads)
        else Except.ok (c.assign g).resized := by
  rw [c.run_eq g h, hres, if_pos rfl, YkGridBase.resize_eq, c.get_num_dims_assign,
    (c.assign_frame g).2.2.2.1]
  have : (c.assign g).get_raw_storage_buffer = g.get_raw_storage_buffer := by
    unfold YkGridBase.get_raw_storage_buffer
    rw [(c.assign_frame g).2.2.1]
  rw [this]

theorem SetterCall.ok_of_runsResize (c : SetterCall) (g g' : YkGridBase)
    (hres : c.runsResize g = true) (hok : c.run g = Except.ok g') :
    g' = (c.assign g).resized := by
  rw [c.run_resize g (c.accepted_of_ok g g' hok) hres] at hok
  split at hok
  · cases hok
  · cases hok; rfl

theorem YkGridBase.resized_pads (g : YkGridBase) (i : Nat) (hi : i < g.get_num_dims) :
    g.resized._pads i = ROUND_UP (g._pads i) (g._vec_lens i) := by
  simp [YkGridBase.resized, YkGridBase.roundPads, hi]

theorem YkGridBase.resized_allocs (g : YkGridBase) (i : Nat) (hi : i < g.get_num_dims) :
    g.resized._allocs i
      = ROUND_UP (g.resized._domains i + 2 * g.resized._pads i) (g.resized._vec_lens i) := by
  have hn : g.roundPads.get_num_dims = g.get_num_dims := rfl
  simp [YkGridBase.resized, YkGridBase.newAllocs, hn, hi]

theorem YkGridBase.resized_vec_allocs (g : YkGridBase) (i : Nat) (hi : i < g.get_num_dims) :
    g.resized._vec_allocs i = Int.tdiv (g.resized._allocs i) (g.resized._vec_lens i) := by
  have hn : g.roundPads.get_num_dims = g.get_num_dims := rfl
  simp [YkGridBase.resized, hn, hi]

/-- C5: after a setter call in which `resize()` runs and that returns, for every
dimension `i` with fold length `v_i >= 1` and non-negative domain and pad:
`pad_i` is a multiple of `v_i`; `alloc_i` is `ROUND_UP(domain_i + 2*pad_i, v_i)`,
which is the least multiple of `v_i` that is `>= domain_i + 2*pad_i`; and
`vec_alloc_i * v_i == alloc_i`. -/
theorem C5_resize_sizes (c : SetterCall) (g g' : YkGridBase)
    (hres : c.runsResize g = true) (hok : c.run g = Except.ok g')
    (i : Nat) (hi : i < g'.get_num_dims) (hv : 1 ≤ g'._vec_lens i)
    (hd : 0 ≤ g'._domains i) (hp : 0 ≤ g'._pads i) :
    g'._vec_lens i ∣ g'._pads i ∧
      g'._allocs i = ROUND_UP (g'._domains i + 2 * g'._pads i) (g'._vec_lens i) ∧
      (g'._vec_lens i ∣ g'._allocs i ∧ g'._domains i + 2 * g'._pads i ≤ g'._allocs i ∧
        ∀ m : Int, g'._vec_lens i ∣ m → g'._domains i + 2 * g'._pads i ≤ m →
          g'._allocs i ≤ m) ∧
      g'._vec_allocs i * g'._vec_lens i = g'._allocs i := by
  have hg := c.ok_of_runsResize g g' hres hok
  subst hg
  have hi' : i < (c.assign g).get_num_dims := by
    rw [← YkGridBase.get_num_dims_resized]; exact hi
  have ha := YkGridBase.resized_allocs _ i hi'
  have hdvd : (c.assign g).resized._vec_lens i ∣ (c.assign g).resized._allocs i := by
    rw [ha]; exact ROUND_UP_dvd _ _
  refine ⟨?_, ha, ⟨hdvd, ?_, ?_⟩, ?_⟩
  · rw [YkGridBase.resized_pads _ i hi']
    exact ROUND_UP_dvd _ _
  · rw [ha]; exact ROUND_UP_ge _ _ hv
  · intro m hm hle
    rw [ha]; exact ROUND_UP_least _ _ m hv hm hle
  · rw [YkGridBase.resized_vec_allocs _ i hi']
    exact tdiv_mul_cancel_of_dvd _ _ hdvd

/-- C5 at `set_halo_size(x, 2)` on `gridA`: pad 4, allocation size 16 in `x`. -/
theorem C5_resize_sizes_witness :
    (4 : Int) ∣ ((SetterCall.set_halo_size "x" 2).assign gridA).resized._pads 0 ∧
      ((SetterCall.set_halo_size "x" 2).assign gridA).resized._allocs 0 = 16 ∧
      ((SetterCall.set_halo_size "x" 2).assign gridA).resized._vec_allocs 0 * 4 = 16 := by
  have h := C5_resize_sizes (SetterCall.set_halo_size "x" 2) gridA
    ((SetterCall.set_halo_size "x" 2).assign gridA).resized rfl rfl 0 (by decide)
    (by decide) (by decide) (by decide)
  have h16 : ((SetterCall.set_halo_size "x" 2).assign gridA).resized._allocs 0 = 16 := by
    decide
  exact ⟨h.1, h16, h16 ▸ h.2.2.2⟩

theorem SetterCall.assign_halo_le (c : SetterCall) (g : YkGridBase) (i : Nat)
    (hph : g._halos i ≤ g._pads i) : (c.assign g)._halos i ≤ (c.assign g)._pads i := by
  cases c with
  | set_halo_size dim n =>
    simp only [SetterCall.assign]
    by_cases h : i = (SetterCall.set_halo_size dim n).posn g
    · subst h; simp
    · simp [Function.update_noteq h, hph]
  | set_min_pad_size dim n =>
    simp only [SetterCall.assign]
    split
    · by_cases h : i = (SetterCall.set_min_pad_size dim n).posn g
      · subst h; simp
      · simp [Function.update_noteq h, hph]
    · exact hph
  | set_extra_pad_size dim n =>
    simp only [SetterCall.assign]
    split
    · by_cases h : i = (SetterCall.set_extra_pad_size dim n).posn g
      · subst h; simp
      · simp [Function.update_noteq h, hph]
    · exact hph
  | set_first_misc_index dim n => exact hph
  | set_alloc_size dim n => exact hph
  | _set_domain_size dim n => exact hph
  | _set_pad_size dim n =>
    simp only [SetterCall.assign]
    by_cases h : i = (SetterCall._set_pad_size dim n).posn g
    · subst h; simp
    · simp [Function.update_noteq h, hph]
  | _set_offset dim n => exact hph

/-- C6: for a grid with fold lengths `>= 1` in which `pad >= halo` holds in every
dimension, after a call of `set_halo_size`, `set_min_pad_size`,
`set_extra_pad_size`, `set_alloc_size`, `_set_domain_size` or `_set_pad_size`
that runs `resize()` and returns, every dimension (so every domain dimension)
satisfies `pad >= halo` and `pad % fold_length == 0`. -/
theorem C6_pad_halo_invariant (c : SetterCall) (g g' : YkGridBase)
    (hres : c.runsResize g = true) (hok : c.run g = Except.ok g')
    (hv : ∀ i, i < g.get_num_dims → 1 ≤ g._vec_lens i)
    (hph : ∀ i, i < g.get_num_dims → g._halos i ≤ g._pads i)
    (i : Nat) (hi : i < g'.get_num_dims) :
    g'._halos i ≤ g'._pads i ∧ Int.tmod (g'._pads i) (g'._vec_lens i) = 0 := by
  have hg := c.ok_of_runsResize g g' hres hok
  subst hg
  have hi' : i < (c.assign g).get_num_dims := by
    rw [← YkGridBase.get_num_dims_resized]; exact hi
  have hi0 : i < g.get_num_dims := by rw [← c.get_num_dims_assign]; exact hi'
  have hvl : (c.assign g)._vec_lens i = g._vec_lens i := by rw [(c.assign_frame g).2.1]
  rw [YkGridBase.resized_pads _ i hi']
  constructor
  · calc (c.assign g).resized._halos i = (c.assign g)._halos i := rfl
      _ ≤ (c.assign g)._pads i := c.assign_halo_le g i (hph i hi0)
      _ ≤ ROUND_UP ((c.assign g)._pads i) ((c.assign g)._vec_lens i) :=
        ROUND_UP_ge _ _ (by rw [hvl]; exact hv i hi0)
  · exact Int.tmod_eq_zero_of_dvd (ROUND_UP_dvd _ _)

/-- C6 at `set_halo_size(x, 6)` on `gridA`. -/
theorem C6_pad_halo_invariant_witness :
    ((SetterCall.set_halo_size "x" 6).assign gridA).resized._halos 0
        ≤ ((SetterCall.set_halo_size "x" 6).assign gridA).resized._pads 0 ∧
      Int.tmod (((SetterCall.set_halo_size "x" 6).assign gridA).resized._pads 0)
        (((SetterCall.set_halo_size "x" 6).assign gridA).resized._vec_lens 0) = 0 :=
  C6_pad_halo_invariant (SetterCall.set_halo_size "x" 6) gridA
    ((SetterCall.set_halo_size "x" 6).assign gridA).resized rfl rfl
    (by
      intro i hi
      have h2 : i < 2 := hi
      interval_cases i <;> decide)
    (by
      intro i hi
      have h2 : i < 2 := hi
      interval_cases i <;> decide)
    0 (by decide)

/-- C7: for a dimension that is used in the grid and of a kind the setter
accepts, a setter call that runs `resize()` ends in a fatal exit iff storage is
attached and the product of the newly computed allocation sizes differs from
the product of the stored ones; the exit is the one of `resize()`. With no
storage attached the call returns and the newly computed allocation sizes are
the stored ones afterwards. -/
theorem C7_resize_failure (c : SetterCall) (g : YkGridBase) (hacc : c.accepted g)
    (hres : c.runsResize g = true) :
    ((∃ e, c.run g = Except.error e) ↔
        (g.get_raw_storage_buffer = true ∧
          ∏ i ∈ Finset.range g.get_num_dims, (c.assign g).roundPads.newAllocs i
            ≠ ∏ i ∈ Finset.range g.get_num_dims, g._allocs i)) ∧
      (∀ e, c.run g = Except.error e → e.1 = Fatal.resizeAfterAlloc) ∧
      (g.get_raw_storage_buffer = false →
        ∃ g', c.run g = Except.ok g' ∧
          ∀ i, g'._allocs i = (c.assign g).roundPads.newAllocs i) := by
  have hrun := c.run_resize g hacc hres
  by_cases hcond : g.get_raw_storage_buffer = true ∧
      ∏ i ∈ Finset.range g.get_num_dims, (c.assign g).roundPads.newAllocs i
        ≠ ∏ i ∈ Finset.range g.get_num_dims, g._allocs i
  · rw [if_pos hcond] at hrun
    refine ⟨⟨fun _ => hcond, fun _ => ⟨_, hrun⟩⟩, ?_, ?_⟩
    · intro e he
      rw [hrun] at he
      cases he
      rfl
    · intro hno
      rw [hcond.1] at hno
      cases hno
  · rw [if_neg hcond] at hrun
    refine ⟨⟨?_, fun h => absurd h hcond⟩, ?_, ?_⟩
    · rintro ⟨e, he⟩
      rw [hrun] at he
      cases he
    · intro e he
      rw [hrun] at he
      cases he
    · intro _
      exact ⟨_, hrun, fun _ => rfl⟩

/-- C7 at `_set_domain_size(x, 5)`: rejected on `gridC` (storage attached), adopted on `gridA` (no storage). -/
theorem C7_resize_failure_witness :
    (∃ e, (SetterCall._set_domain_size "x" 5).run gridC = Except.error e) ∧
      ∃ g', (SetterCall._set_domain_size "x" 5).run gridA = Except.ok g' ∧
        ∀ i, g'._allocs i
          = ((SetterCall._set_domain_size "x" 5).assign gridA).roundPads.newAllocs i :=
  ⟨(C7_resize_failure (SetterCall._set_domain_size "x" 5) gridC rfl rfl).1.2
      ⟨rfl, by decide⟩,
    (C7_resize_failure (SetterCall._set_domain_size "x" 5) gridA rfl rfl).2.2 rfl⟩

theorem Tuple.lookup_posn_lt (t : Tuple) (dim : String) (p : Nat)
    (h : t.lookup_posn dim = some p) : p < t.getNumDims := by
  unfold Tuple.lookup_posn at h
  split at h
  · cases h; assumption
  · cases h

theorem SetterCall.posn_lt (c : SetterCall) (g : YkGridBase) (h : c.accepted g) :
    c.posn g < g.get_num_dims := by
  have hu := g.used_of_checkDimType _ _ _ _ h
  unfold YkGridBase.is_dim_used at hu
  unfold SetterCall.posn YkGridBase.get_num_dims
  cases hl : g.ggb_dims.lookup_posn c.dim with
  | none => simp [hl] at hu
  | some p => exact Tuple.lookup_posn_lt _ _ _ hl

/-- The fields of the other dimensions that `assign` leaves alone. -/
theorem SetterCall.assign_other (c : SetterCall) (g : YkGridBase) (i : Nat)
    (hi : i ≠ c.posn g) :
    (c.assign g)._domains i = g._domains i ∧ (c.assign g)._pads i = g._pads i ∧
      (c.assign g)._halos i = g._halos i := by
  cases c <;>
    first
    | exact ⟨rfl, rfl, rfl⟩
    | (unfold SetterCall.assign
       dsimp only
       first
       | exact ⟨Function.update_noteq hi _ _, rfl, rfl⟩
       | exact ⟨rfl, Function.update_noteq hi _ _, rfl⟩
       | exact ⟨rfl, Function.update_noteq hi _ _, Function.update_noteq hi _ _⟩
       | (split
          · exact ⟨rfl, Function.update_noteq hi _ _, rfl⟩
          · exact ⟨rfl, rfl, rfl⟩))

theorem YkGridBase.get_alloc_size_congr (g g' : YkGridBase)
    (hn : g'.ggb_dims.getDimNames = g.ggb_dims.getDimNames) (hd : g'._dims = g._dims)
    (ha : ∀ i, i < g.get_num_dims → g'._allocs i = g._allocs i) (d : String) :
    g'.get_alloc_size d = g.get_alloc_size d := by
  have hl := Tuple.lookup_posn_eq_of_names _ _ hn d
  unfold YkGridBase.get_alloc_size YkGridBase.GET_GRID_API YkGridBase.get_dim_posn
  have hc : g'.checkDimType d true true true = g.checkDimType d true true true := by
    unfold YkGridBase.checkDimType YkGridBase.is_dim_used
    rw [hl, hd]
  rw [hl, hc]
  cases hp : g.ggb_dims.lookup_posn d with
  | none => rfl
  | some p =>
    simp only
    rw [ha p (Tuple.lookup_posn_lt _ _ _ hp)]

theorem YkGridBase.newAllocs_roundPads (g : YkGridBase) (i : Nat)
    (hi : i < g.get_num_dims) :
    g.roundPads.newAllocs i
      = ROUND_UP (g._domains i + 2 * ROUND_UP (g._pads i) (g._vec_lens i))
          (g._vec_lens i) := by
  have hn : g.roundPads.get_num_dims = g.get_num_dims := rfl
  unfold YkGridBase.newAllocs
  rw [hn, if_pos hi]
  simp only [YkGridBase.roundPads, hi, if_true]

theorem prod_cancel_at (f f' : Nat → Int) (n p : Nat) (hp : p < n)
    (heq : ∀ i, i < n → i ≠ p → f' i = f i) (hnz : ∀ i, i < n → i ≠ p → f i ≠ 0)
    (hprod : ∏ i ∈ Finset.range n, f' i = ∏ i ∈ Finset.range n, f i) : f' p = f p := by
  have hmem : p ∈ Finset.range n := Finset.mem_range.2 hp
  rw [← Finset.mul_prod_erase _ f' hmem, ← Finset.mul_prod_erase _ f hmem] at hprod
  have hE : ∏ x ∈ (Finset.range n).erase p, f' x = ∏ x ∈ (Finset.range n).erase p, f x := by
    apply Finset.prod_congr rfl
    intro x hx
    exact heq x (Finset.mem_range.1 (Finset.mem_of_mem_erase hx)) (Finset.ne_of_mem_erase hx)
  have hEnz : ∏ x ∈ (Finset.range n).erase p, f x ≠ 0 := by
    rw [Finset.prod_ne_zero_iff]
    intro x hx
    exact hnz x (Finset.mem_range.1 (Finset.mem_of_mem_erase hx)) (Finset.ne_of_mem_erase hx)
  rw [hE] at hprod
  exact mul_right_cancel₀ hEnz hprod

/-- C8 as stated fails: on a grid with storage attached, `_set_domain_size`
returns and the allocation size of `y` has changed from 2 to 5 (the other
dimension has allocation size 0, so the total stays 0). -/
theorem C8_alloc_size_not_immutable :
    gridB.get_raw_storage_buffer = true ∧
      ∃ g', (SetterCall._set_domain_size "y" 5).run gridB = Except.ok g' ∧
        gridB.get_alloc_size "y" = Except.ok 2 ∧ g'.get_alloc_size "y" = Except.ok 5 :=
  ⟨rfl, _, rfl, rfl, rfl⟩

/-- C8, amended: with storage attached, every setter call that returns leaves
the product of the allocation sizes as it was. If moreover the stored sizes are
those `resize()` computes (fold lengths `>= 1`, pads non-negative multiples of
them, `alloc = ROUND_UP(domain + 2*pad, fold)`) and no dimension other than the
named one has allocation size 0, `get_alloc_size(d)` is the same before and
after the call for every `d`. -/
theorem C8_total_alloc_immutable (c : SetterCall) (g g' : YkGridBase)
    (hsto : g.get_raw_storage_buffer = true) (hok : c.run g = Except.ok g') :
    (∏ i ∈ Finset.range g.get_num_dims, g'._allocs i
        = ∏ i ∈ Finset.range g.get_num_dims, g._allocs i) ∧
      ((∀ i, i < g.get_num_dims → 1 ≤ g._vec_lens i ∧ 0 ≤ g._pads i ∧
          g._vec_lens i ∣ g._pads i ∧
          g._allocs i = ROUND_UP (g._domains i + 2 * g._pads i) (g._vec_lens i)) →
        (∀ i, i < g.get_num_dims → i ≠ c.posn g → g._allocs i ≠ 0) →
        ∀ d, g'.get_alloc_size d = g.get_alloc_size d) := by
  have hacc := c.accepted_of_ok g g' hok
  by_cases hres : c.runsResize g = true
  · have hrun := c.run_resize g hacc hres
    rw [hok] at hrun
    split at hrun
    · cases hrun
    · rename_i hcond
      cases hrun
      have hprod : ∏ i ∈ Finset.range g.get_num_dims, (c.assign g).roundPads.newAllocs i
          = ∏ i ∈ Finset.range g.get_num_dims, g._allocs i := by
        by_contra hne
        exact hcond ⟨hsto, hne⟩
      refine ⟨hprod, ?_⟩
      intro hcons hnz d
      have hother : ∀ i, i < g.get_num_dims → i ≠ c.posn g →
          (c.assign g).roundPads.newAllocs i = g._allocs i := by
        intro i hi hne
        obtain ⟨hv, _, hdvd, hal⟩ := hcons i hi
        obtain ⟨hdo, hpa, _⟩ := c.assign_other g i hne
        have hi' : i < (c.assign g).get_num_dims := by
          rw [c.get_num_dims_assign]; exact hi
        rw [YkGridBase.newAllocs_roundPads _ i hi', (c.assign_frame g).2.1, hdo, hpa,
          ROUND_UP_of_dvd _ _ hv hdvd, hal]
      have hp := prod_cancel_at g._allocs (c.assign g).roundPads.newAllocs g.get_num_dims
        (c.posn g) (c.posn_lt g hacc) hother hnz hprod
      apply YkGridBase.get_alloc_size_congr
      · exact (YkGridBase.getDimNames_setDimSizes _ _ _).trans
          (congrArg Tuple.getDimNames (c.assign_frame g).1)
      · exact (c.assign_frame g).2.2.2.2.2
      · intro i hi
        by_cases hip : i = c.posn g
        · rw [hip]; exact hp
        · exact hother i hi hip
  · have hrun := c.run_eq g hacc
    rw [hok, if_neg hres] at hrun
    cases hrun
    rw [(c.assign_frame g).2.2.2.1]
    refine ⟨rfl, fun _ _ d => ?_⟩
    apply YkGridBase.get_alloc_size_congr
    · rw [(c.assign_frame g).1]
    · exact (c.assign_frame g).2.2.2.2.2
    · intro i _
      rw [(c.assign_frame g).2.2.2.1]

/-- C8, amended, at `set_halo_size(x, 0)` on `gridC`. -/
theorem C8_total_alloc_immutable_witness :
    ((SetterCall.set_halo_size "x" 0).assign gridC).resized.get_alloc_size "x"
      = gridC.get_alloc_size "x" :=
  (C8_total_alloc_immutable (SetterCall.set_halo_size "x" 0) gridC
    ((SetterCall.set_halo_size "x" 0).assign gridC).resized rfl rfl).2
    (by
      intro i hi
      have h2 : i < 2 := hi
      interval_cases i <;> decide)
    (by
      intro i hi _
      have h2 : i < 2 := hi
      interval_cases i <;> decide)
    "x"


theorem SetterCall.offsets_of_runsResize (c : SetterCall) (g : YkGridBase)
    (hres : c.runsResize g = true) : (c.assign g)._offsets = g._offsets := by
  cases c <;>
    first
    | rfl
    | cases hres
    | (unfold SetterCall.assign
       dsimp only
       split <;> rfl)

/-- C9 as stated fails: `_set_domain_size("x", 5)` on a grid with storage
attached is rejected by `resize()`, and at the fatal exit the domain size of `x`
is 5, not the 3 it was before the call. -/
theorem C9_metadata_changed_at_rejection :
    ∃ s, (SetterCall._set_domain_size "x" 5).run gridC
        = Except.error (Fatal.resizeAfterAlloc, s) ∧
      gridC.get_rank_domain_size "x" = Except.ok 3 ∧
      s.get_rank_domain_size "x" = Except.ok 5 :=
  ⟨_, rfl, rfl, rfl⟩

/-- C9, amended: when a setter call is rejected by `resize()` (storage attached,
total allocation size would change), the allocation size, the vector
allocation size and the offset of every dimension are what they were before the
call, and so are the domain and the halo of every dimension other than the
named one; the grid holds what the setter had assigned before the check, with
every pad rounded up to its fold length. -/
theorem C9_rejection_state (c : SetterCall) (g s : YkGridBase)
    (h : c.run g = Except.error (Fatal.resizeAfterAlloc, s)) :
    s = (c.assign g).roundPads ∧ s._allocs = g._allocs ∧ s._vec_allocs = g._vec_allocs ∧
      s._offsets = g._offsets ∧ s.ggb_dims = g.ggb_dims ∧
      ∀ i, i ≠ c.posn g → s._domains i = g._domains i ∧ s._halos i = g._halos i := by
  have hacc := c.accepted_of_resize_error g s h
  have hres : c.runsResize g = true := by
    by_contra hn
    rw [c.run_eq g hacc, if_neg hn] at h
    cases h
  rw [c.run_resize g hacc hres] at h
  split at h
  · cases h
    refine ⟨rfl, (c.assign_frame g).2.2.2.1, (c.assign_frame g).2.2.2.2.1,
      c.offsets_of_runsResize g hres, (c.assign_frame g).1, ?_⟩
    intro i hi
    exact ⟨(c.assign_other g i hi).1, (c.assign_other g i hi).2.2⟩
  · cases h

/-- C9, amended, at `_set_domain_size(x, 5)` on `gridC`. -/
theorem C9_rejection_state_witness :
    ∃ s, (SetterCall._set_domain_size "x" 5).run gridC
        = Except.error (Fatal.resizeAfterAlloc, s) ∧
      s._allocs = gridC._allocs ∧ s._offsets = gridC._offsets :=
  ⟨_, rfl,
    (C9_rejection_state (SetterCall._set_domain_size "x" 5) gridC _ rfl).2.1,
    (C9_rejection_state (SetterCall._set_domain_size "x" 5) gridC _ rfl).2.2.2.1⟩

/-! ### `checkIndices` -/

theorem YkGridBase.lookup_posn_get_dim_name (g : YkGridBase)
    (hnd : g.ggb_dims.getDimNames.Nodup) (i : Nat) (hi : i < g.get_num_dims) :
    g.ggb_dims.lookup_posn (g.get_dim_name i) = some i := by
  have hlen : g.ggb_dims.getDimNames.length = g.ggb_dims.getNumDims := by
    simp [Tuple.getDimNames, Tuple.getNumDims]
  have hi' : i < g.ggb_dims.getDimNames.length := by rw [hlen]; exact hi
  have hname : g.get_dim_name i = g.ggb_dims.getDimNames[i] := by
    unfold YkGridBase.get_dim_name Tuple.getDimName
    rw [List.getD_eq_getElem _ _ hi']
  have hidx : List.indexOf (g.get_dim_name i) g.ggb_dims.getDimNames = i := by
    rw [hname]; exact List.indexOf_getElem hnd i hi'
  unfold Tuple.lookup_posn
  rw [hidx]
  exact if_pos hi

theorem YkGridBase.GET_GRID_API_all (g : YkGridBase)
    (hnd : g.ggb_dims.getDimNames.Nodup) (expr : YkGridBase → Nat → Int)
    (i : Nat) (hi : i < g.get_num_dims) :
    YkGridBase.GET_GRID_API true true true expr g (g.get_dim_name i)
      = Except.ok (expr g i) := by
  have hl := g.lookup_posn_get_dim_name hnd i hi
  have hu : g.is_dim_used (g.get_dim_name i) = true := by
    unfold YkGridBase.is_dim_used; rw [hl]; rfl
  unfold YkGridBase.GET_GRID_API YkGridBase.get_dim_posn
  rw [hl, g.checkDimType_all _ hu]

theorem YkGridBase.checkIndicesLoop_nonstrict (g : YkGridBase)
    (hnd : g.ggb_dims.getDimNames.Nodup) (indices : GridIndices) (l : List Nat)
    (hl : ∀ i ∈ l, i < g.get_num_dims) (ok : Bool) (fixed : Option GridIndices) :
    ∃ out, g.checkIndicesLoop indices false l (ok, fixed)
      = Except.ok (ok && l.all (g.indexAllowed indices), out) := by
  induction l generalizing ok fixed with
  | nil => exact ⟨fixed, by simp [YkGridBase.checkIndicesLoop]⟩
  | cons i l ih =>
    have hi : i < g.get_num_dims := hl i (List.mem_cons_self _ _)
    have hl' : ∀ j ∈ l, j < g.get_num_dims := fun j hj => hl j (List.mem_cons_of_mem _ hj)
    unfold YkGridBase.checkIndicesLoop
    simp only [List.all_cons]
    by_cases hstep : g.get_dim_name i = g._dims._step_dim
    · rw [if_pos hstep]
      obtain ⟨out, ho⟩ := ih hl' ok (fixed.map (fun f => f ++ [indices.getD i 0]))
      refine ⟨out, ?_⟩
      rw [ho]
      simp [YkGridBase.indexAllowed, hstep]
    · rw [if_neg hstep]
      have hf : g._get_first_allowed_index (g.get_dim_name i)
          = Except.ok (g._offsets i - g._pads i) :=
        g.GET_GRID_API_all hnd _ i hi
      have hla : g._get_last_allowed_index (g.get_dim_name i)
          = Except.ok (g._offsets i - g._pads i + g._allocs i - 1) :=
        g.GET_GRID_API_all hnd _ i hi
      rw [hf, hla]
      simp only
      by_cases hout : indices.getD i 0 < g._offsets i - g._pads i ∨
          indices.getD i 0 > g._offsets i - g._pads i + g._allocs i - 1
      · rw [if_pos hout]
        simp only [Bool.false_eq_true, if_false]
        obtain ⟨out, ho⟩ := ih hl' false
          ((fixed.map (fun f => f ++ [indices.getD i 0])).map (fun f =>
            let f1 := if indices.getD i 0 < g._offsets i - g._pads i then
              f.set i (g._offsets i - g._pads i) else f
            if indices.getD i 0 > g._offsets i - g._pads i + g._allocs i - 1 then
              f1.set i (g._offsets i - g._pads i + g._allocs i - 1) else f1))
        refine ⟨out, ?_⟩
        rw [ho]
        have hna : g.indexAllowed indices i = false := by
          unfold YkGridBase.indexAllowed
          rw [decide_eq_false_iff_not]
          rintro (h | ⟨h1, h2⟩)
          · exact hstep h
          · rcases hout with h | h <;> omega
        simp [hna]
      · rw [if_neg hout]
        obtain ⟨out, ho⟩ := ih hl' ok (fixed.map (fun f => f ++ [indices.getD i 0]))
        refine ⟨out, ?_⟩
        rw [ho]
        have hna : g.indexAllowed indices i = true := by
          unfold YkGridBase.indexAllowed
          rw [decide_eq_true_iff]
          right
          constructor <;> omega
        simp [hna]

theorem YkGridBase.checkIndices_nonstrict (g : YkGridBase)
    (hnd : g.ggb_dims.getDimNames.Nodup) (indices : GridIndices)
    (hlen : indices.length = g.get_num_dims) (fixed_indices : Bool) :
    ∃ out, g.checkIndices indices false fixed_indices
      = Except.ok ((List.range g.get_num_dims).all (g.indexAllowed indices), out) := by
  unfold YkGridBase.checkIndices
  rw [if_neg (by simpa using hlen)]
  obtain ⟨out, ho⟩ := g.checkIndicesLoop_nonstrict hnd indices (List.range g.get_num_dims)
    (fun i hi => List.mem_range.1 hi) true (if fixed_indices then some [] else none)
  exact ⟨out, by rw [ho]; simp⟩

theorem YkGridBase.all_indexAllowed_iff (g : YkGridBase) (indices : GridIndices) :
    (List.range g.get_num_dims).all (g.indexAllowed indices) = true ↔
      ∀ i, i < g.get_num_dims → g.get_dim_name i ≠ g._dims._step_dim →
        g._offsets i - g._pads i ≤ indices.getD i 0 ∧
          indices.getD i 0 ≤ g._offsets i - g._pads i + g._allocs i - 1 := by
  rw [List.all_eq_true]
  constructor
  · intro h i hi hstep
    have := h i (List.mem_range.2 hi)
    unfold YkGridBase.indexAllowed at this
    rw [decide_eq_true_iff] at this
    rcases this with h1 | h1
    · exact absurd h1 hstep
    · exact h1
  · intro h i hi
    unfold YkGridBase.indexAllowed
    rw [decide_eq_true_iff]
    by_cases hstep : g.get_dim_name i = g._dims._step_dim
    · exact Or.inl hstep
    · exact Or.inr (h i (List.mem_range.1 hi) hstep)

/-- C10: for a grid with unique dimension names and a coordinate list with
exactly one value per dimension, non-strict `checkIndices` returns, and it
returns `true` iff every dimension other than the step dimension has its value
`v` in `offset - pad <= v <= offset - pad + alloc - 1`; a list that differs
only in the value for the step dimension gets the same result. -/
theorem C10_checkIndices_nonstrict (g : YkGridBase)
    (hnd : g.ggb_dims.getDimNames.Nodup) (indices : GridIndices)
    (hlen : indices.length = g.get_num_dims) (fixed_indices : Bool) :
    ∃ b out, g.checkIndices indices false fixed_indices = Except.ok (b, out) ∧
      (b = true ↔
        ∀ i, i < g.get_num_dims → g.get_dim_name i ≠ g._dims._step_dim →
          g._offsets i - g._pads i ≤ indices.getD i 0 ∧
            indices.getD i 0 ≤ g._offsets i - g._pads i + g._allocs i - 1) ∧
      ∀ indices2 : GridIndices, indices2.length = g.get_num_dims →
        (∀ i, i < g.get_num_dims → g.get_dim_name i ≠ g._dims._step_dim →
          indices2.getD i 0 = indices.getD i 0) →
        ∃ out2, g.checkIndices indices2 false fixed_indices = Except.ok (b, out2) := by
  obtain ⟨out, ho⟩ := g.checkIndices_nonstrict hnd indices hlen fixed_indices
  refine ⟨_, out, ho, g.all_indexAllowed_iff indices, ?_⟩
  intro indices2 hlen2 hsame
  obtain ⟨out2, ho2⟩ := g.checkIndices_nonstrict hnd indices2 hlen2 fixed_indices
  refine ⟨out2, ?_⟩
  rw [ho2]
  have hall : (List.range g.get_num_dims).all (g.indexAllowed indices2)
      = (List.range g.get_num_dims).all (g.indexAllowed indices) := by
    rw [Bool.eq_iff_iff, g.all_indexAllowed_iff, g.all_indexAllowed_iff]
    constructor
    · intro h i hi hstep
      rw [← hsame i hi hstep]; exact h i hi hstep
    · intro h i hi hstep
      rw [hsame i hi hstep]; exact h i hi hstep
  rw [hall]

/-- C10 at the indices `(t=100, x=15)` on `gridT`. -/
theorem C10_checkIndices_nonstrict_witness :
    ∃ b out, gridT.checkIndices [100, 15] false true = Except.ok (b, out) ∧
      (b = true ↔
        ∀ i, i < gridT.get_num_dims → gridT.get_dim_name i ≠ gridT._dims._step_dim →
          gridT._offsets i - gridT._pads i ≤ [100, 15].getD i 0 ∧
            [100, 15].getD i 0 ≤ gridT._offsets i - gridT._pads i + gridT._allocs i - 1) :=
  (C10_checkIndices_nonstrict gridT (by decide) [100, 15] rfl true).imp
    (fun _ h => h.imp (fun _ h2 => ⟨h2.1, h2.2.1⟩))


/-! ### `checkIndices`: strict calls and the fix-up output -/

/-- One turn of the loop of `checkIndices`, for a dimension of the grid. -/
theorem YkGridBase.checkIndicesLoop_cons (g : YkGridBase)
    (hnd : g.ggb_dims.getDimNames.Nodup) (indices : GridIndices) (strict : Bool)
    (i : Nat) (hi : i < g.get_num_dims) (rest : List Nat) (ok : Bool)
    (fixed : Option GridIndices) :
    g.checkIndicesLoop indices strict (i :: rest) (ok, fixed)
      = if g.indexAllowed indices i = true then
          g.checkIndicesLoop indices strict rest
            (ok, fixed.map (fun f => f ++ [indices.getD i 0]))
        else if strict = true then Except.error Fatal.indexRange
        else
          g.checkIndicesLoop indices strict rest
            (false, fixed.map (fun f => (f ++ [indices.getD i 0]).set i (g.fixedIndex indices i))) := by
  have hf : g._get_first_allowed_index (g.get_dim_name i)
      = Except.ok (g._offsets i - g._pads i) :=
    g.GET_GRID_API_all hnd _ i hi
  have hla : g._get_last_allowed_index (g.get_dim_name i)
      = Except.ok (g._offsets i - g._pads i + g._allocs i - 1) :=
    g.GET_GRID_API_all hnd _ i hi
  rw [YkGridBase.checkIndicesLoop]
  by_cases hstep : g.get_dim_name i = g._dims._step_dim
  · have ha : g.indexAllowed indices i = true := by
      unfold YkGridBase.indexAllowed
      rw [decide_eq_true_iff]
      exact Or.inl hstep
    simp only [hstep, if_true, ha]
  · simp only [hstep, if_false, hf, hla]
    by_cases hout : indices.getD i 0 < g._offsets i - g._pads i ∨
        indices.getD i 0 > g._offsets i - g._pads i + g._allocs i - 1
    · have ha : ¬ (g.indexAllowed indices i = true) := by
        unfold YkGridBase.indexAllowed
        rw [decide_eq_true_iff]
        rintro (h | ⟨h1, h2⟩)
        · exact hstep h
        · rcases hout with h | h <;> omega
      rw [if_pos hout, if_neg ha]
      by_cases hs : strict = true
      · simp [hs]
      · simp only [hs, Bool.false_eq_true, if_false, Option.map_map]
        congr 3
        funext f
        simp only [Function.comp]
        unfold YkGridBase.fixedIndex
        rw [if_neg hstep]
        by_cases h1 : indices.getD i 0 > g._offsets i - g._pads i + g._allocs i - 1
        · rw [if_pos h1, if_pos h1]
          by_cases h2 : indices.getD i 0 < g._offsets i - g._pads i
          · rw [if_pos h2, List.set_set]
          · rw [if_neg h2]
        · have h2 : indices.getD i 0 < g._offsets i - g._pads i := by
            rcases hout with h | h
            · exact h
            · exact absurd h h1
          rw [if_neg h1, if_neg h1, if_pos h2, if_pos h2]
    · have ha : g.indexAllowed indices i = true := by
        unfold YkGridBase.indexAllowed
        rw [decide_eq_true_iff]
        right
        constructor <;> omega
      rw [if_neg hout, if_pos ha]

theorem YkGridBase.checkIndicesLoop_strict (g : YkGridBase)
    (hnd : g.ggb_dims.getDimNames.Nodup) (indices : GridIndices) (l : List Nat)
    (hl : ∀ i ∈ l, i < g.get_num_dims) (ok : Bool) (fixed : Option GridIndices) :
    (l.all (g.indexAllowed indices) = true →
        ∃ out, g.checkIndicesLoop indices true l (ok, fixed) = Except.ok (ok, out)) ∧
      (l.all (g.indexAllowed indices) = false →
        g.checkIndicesLoop indices true l (ok, fixed) = Except.error Fatal.indexRange) := by
  induction l generalizing ok fixed with
  | nil =>
    constructor
    · intro _; exact ⟨fixed, rfl⟩
    · intro h; simp at h
  | cons i l ih =>
    have hi : i < g.get_num_dims := hl i (List.mem_cons_self _ _)
    have hl' : ∀ j ∈ l, j < g.get_num_dims := fun j hj => hl j (List.mem_cons_of_mem _ hj)
    rw [g.checkIndicesLoop_cons hnd indices true i hi]
    by_cases ha : g.indexAllowed indices i = true
    · simp only [ha, if_true, List.all_cons, Bool.true_and]
      exact ih hl' ok _
    · simp only [ha, if_false, if_true, List.all_cons]
      simp only [Bool.not_eq_true] at ha
      simp [ha]

theorem YkGridBase.not_all_indexAllowed_iff (g : YkGridBase) (indices : GridIndices) :
    (List.range g.get_num_dims).all (g.indexAllowed indices) = false ↔
      ∃ i, i < g.get_num_dims ∧ g.get_dim_name i ≠ g._dims._step_dim ∧
        (indices.getD i 0 < g._offsets i - g._pads i ∨
          indices.getD i 0 > g._offsets i - g._pads i + g._allocs i - 1) := by
  rw [← Bool.not_eq_true, g.all_indexAllowed_iff]
  constructor
  · intro h
    by_contra hne
    apply h
    intro i hi hstep
    by_contra hr
    apply hne
    refine ⟨i, hi, hstep, ?_⟩
    by_contra hx
    apply hr
    constructor <;> omega
  · rintro ⟨i, hi, hstep, hout⟩ h
    have := h i hi hstep
    rcases hout with h1 | h1 <;> omega

/-- C11: for a grid with unique dimension names, `checkIndices` ends in a fatal
exit iff the coordinate list has not exactly one value per dimension, or
`strict` is true and the value of some dimension other than the step dimension is
outside `offset - pad .. offset - pad + alloc - 1`. A list of the wrong length is
fatal whatever `strict` is, and a strict call that returns returns `true`. -/
theorem C11_checkIndices_fatal (g : YkGridBase) (hnd : g.ggb_dims.getDimNames.Nodup)
    (indices : GridIndices) (strict fixed_indices : Bool) :
    ((∃ e, g.checkIndices indices strict fixed_indices = Except.error e) ↔
        (indices.length ≠ g.get_num_dims ∨
          (strict = true ∧
            ∃ i, i < g.get_num_dims ∧ g.get_dim_name i ≠ g._dims._step_dim ∧
              (indices.getD i 0 < g._offsets i - g._pads i ∨
                indices.getD i 0 > g._offsets i - g._pads i + g._allocs i - 1)))) ∧
      (indices.length ≠ g.get_num_dims →
        g.checkIndices indices strict fixed_indices = Except.error Fatal.numIndices) ∧
      (∀ b out, g.checkIndices indices true fixed_indices = Except.ok (b, out) →
        b = true) := by
  have hlenerr : ∀ s : Bool, indices.length ≠ g.get_num_dims →
      g.checkIndices indices s fixed_indices = Except.error Fatal.numIndices := by
    intro s h
    unfold YkGridBase.checkIndices
    rw [if_pos h]
  have hstrict := g.checkIndicesLoop_strict hnd indices (List.range g.get_num_dims)
    (fun i hi => List.mem_range.1 hi) true (if fixed_indices then some [] else none)
  refine ⟨?_, hlenerr strict, ?_⟩
  · by_cases hlen : indices.length = g.get_num_dims
    · cases strict with
      | false =>
        obtain ⟨out, ho⟩ := g.checkIndices_nonstrict hnd indices hlen fixed_indices
        constructor
        · rintro ⟨e, he⟩
          rw [ho] at he
          cases he
        · rintro (h | ⟨h, _⟩)
          · exact absurd hlen h
          · cases h
      | true =>
        have hck : g.checkIndices indices true fixed_indices
            = g.checkIndicesLoop indices true (List.range g.get_num_dims)
                (true, if fixed_indices then some [] else none) := by
          unfold YkGridBase.checkIndices
          rw [if_neg (by simpa using hlen)]
        rw [hck]
        cases hall : (List.range g.get_num_dims).all (g.indexAllowed indices) with
        | true =>
          obtain ⟨out, ho⟩ := hstrict.1 hall
          constructor
          · rintro ⟨e, he⟩
            rw [ho] at he
            cases he
          · rintro (h | ⟨_, h⟩)
            · exact absurd hlen h
            · have := (g.not_all_indexAllowed_iff indices).2 h
              rw [hall] at this
              cases this
        | false =>
          constructor
          · intro _
            exact Or.inr ⟨rfl, (g.not_all_indexAllowed_iff indices).1 hall⟩
          · intro _
            exact ⟨_, hstrict.2 hall⟩
    · constructor
      · intro _; exact Or.inl hlen
      · intro _; exact ⟨_, hlenerr strict hlen⟩
  · intro b out hb
    by_cases hlen : indices.length = g.get_num_dims
    · have hck : g.checkIndices indices true fixed_indices
          = g.checkIndicesLoop indices true (List.range g.get_num_dims)
              (true, if fixed_indices then some [] else none) := by
        unfold YkGridBase.checkIndices
        rw [if_neg (by simpa using hlen)]
      rw [hck] at hb
      cases hall : (List.range g.get_num_dims).all (g.indexAllowed indices) with
      | true =>
        obtain ⟨out2, ho⟩ := hstrict.1 hall
        rw [ho] at hb
        cases hb
        rfl
      | false =>
        rw [hstrict.2 hall] at hb
        cases hb
    · rw [hlenerr true hlen] at hb
      cases hb

/-- C11 at `gridT`: the list `(t=100)` is fatal also when not strict, and the
strict call on `(t=100, x=15)` is fatal. -/
theorem C11_checkIndices_fatal_witness :
    gridT.checkIndices [100] false false = Except.error Fatal.numIndices ∧
      ∃ e, gridT.checkIndices [100, 15] true false = Except.error e :=
  ⟨(C11_checkIndices_fatal gridT (by decide) [100] false false).2.1 (by decide),
    (C11_checkIndices_fatal gridT (by decide) [100, 15] true false).1.2
      (Or.inr ⟨rfl, 1, by decide, by decide, Or.inr (by decide)⟩)⟩

theorem set_append_singleton (f : List Int) (a b : Int) (k : Nat) (hk : f.length = k) :
    (f ++ [a]).set k b = f ++ [b] := by
  subst hk
  induction f with
  | nil => rfl
  | cons x f ih => simp [ih]

theorem YkGridBase.fixedIndex_of_allowed (g : YkGridBase) (indices : GridIndices) (i : Nat)
    (h : g.indexAllowed indices i = true) : g.fixedIndex indices i = indices.getD i 0 := by
  unfold YkGridBase.indexAllowed at h
  rw [decide_eq_true_iff] at h
  unfold YkGridBase.fixedIndex
  rcases h with h | ⟨h1, h2⟩
  · rw [if_pos h]
  · by_cases hstep : g.get_dim_name i = g._dims._step_dim
    · rw [if_pos hstep]
    · rw [if_neg hstep, if_neg (by omega), if_neg (by omega)]

/-- The loop of a non-strict `checkIndices` with a fix-up output, over the
dimensions `k .. k+m-1` when `k` values have been pushed so far. -/
theorem YkGridBase.checkIndicesLoop_fixed (g : YkGridBase)
    (hnd : g.ggb_dims.getDimNames.Nodup) (indices : GridIndices) (m k : Nat)
    (f : GridIndices) (hf : f.length = k) (hk : k + m ≤ g.get_num_dims) (ok : Bool) :
    g.checkIndicesLoop indices false (List.range' k m) (ok, some f)
      = Except.ok (ok && (List.range' k m).all (g.indexAllowed indices),
          some (f ++ (List.range' k m).map (g.fixedIndex indices))) := by
  induction m generalizing k f ok with
  | zero => simp [YkGridBase.checkIndicesLoop]
  | succ m ih =>
    rw [List.range'_succ, g.checkIndicesLoop_cons hnd indices false k (by omega)]
    by_cases ha : g.indexAllowed indices k = true
    · rw [if_pos ha]
      simp only [Option.map_some']
      rw [ih (k + 1) (f ++ [indices.getD k 0]) (by simp [hf]) (by omega) ok]
      simp [ha, g.fixedIndex_of_allowed indices k ha]
    · rw [if_neg ha, if_neg (by decide)]
      simp only [Option.map_some']
      rw [set_append_singleton f _ _ k hf,
        ih (k + 1) (f ++ [g.fixedIndex indices k]) (by simp [hf]) (by omega) false]
      simp only [Bool.not_eq_true] at ha
      simp [ha]

theorem YkGridBase.checkIndices_fixed (g : YkGridBase)
    (hnd : g.ggb_dims.getDimNames.Nodup) (indices : GridIndices)
    (hlen : indices.length = g.get_num_dims) :
    g.checkIndices indices false true
      = Except.ok ((List.range g.get_num_dims).all (g.indexAllowed indices),
          some ((List.range g.get_num_dims).map (g.fixedIndex indices))) := by
  unfold YkGridBase.checkIndices
  rw [if_neg (by simpa using hlen), List.range_eq_range']
  have h := g.checkIndicesLoop_fixed hnd indices g.get_num_dims 0 [] rfl (by omega) true
  simpa using h

theorem getD_map_range (f : Nat → Int) (n i : Nat) (hi : i < n) :
    ((List.range n).map f).getD i 0 = f i := by
  rw [List.getD_eq_getElem _ _ (by simp [hi])]
  simp

/-- The clamped value lies in the allowed range when that range is not empty. -/
theorem YkGridBase.fixedIndex_inRange (g : YkGridBase) (indices : GridIndices) (i : Nat)
    (hstep : g.get_dim_name i ≠ g._dims._step_dim) (hal : 1 ≤ g._allocs i) :
    g._offsets i - g._pads i ≤ g.fixedIndex indices i ∧
      g.fixedIndex indices i ≤ g._offsets i - g._pads i + g._allocs i - 1 := by
  unfold YkGridBase.fixedIndex
  rw [if_neg hstep]
  split_ifs <;> constructor <;> omega

/-- C12 as stated fails: in a dimension of allocation size 0 the allowed range
is empty, the value 0 is set to the last allowed index -1, and `checkIndices`
applied to the fix-up output `(-1, 0)` returns `false`. -/
theorem C12_fixup_not_in_range :
    gridB.checkIndices [0, 0] false true = Except.ok (false, some [-1, 0]) ∧
      gridB.checkIndices [-1, 0] false true = Except.ok (false, some [0, 0]) :=
  ⟨rfl, rfl⟩

/-- C12, amended: for a grid with unique dimension names in which every
dimension other than the step dimension has allocation size `>= 1`, and a
coordinate list with one value per dimension, non-strict `checkIndices` with a
fix-up output returns an output with one value per dimension; values that were
in range and the value of the step dimension are copied unchanged; every value of
a dimension other than the step dimension lies in
`offset - pad .. offset - pad + alloc - 1`; and `checkIndices` applied to the
output, strict or not, returns `true`. -/
theorem C12_fixup_clamped (g : YkGridBase) (hnd : g.ggb_dims.getDimNames.Nodup)
    (indices : GridIndices) (hlen : indices.length = g.get_num_dims)
    (hal : ∀ i, i < g.get_num_dims → g.get_dim_name i ≠ g._dims._step_dim →
      1 ≤ g._allocs i) :
    ∃ b fixed, g.checkIndices indices false true = Except.ok (b, some fixed) ∧
      fixed.length = g.get_num_dims ∧
      (∀ i, i < g.get_num_dims →
        (g.get_dim_name i = g._dims._step_dim ∨
          (g._offsets i - g._pads i ≤ indices.getD i 0 ∧
            indices.getD i 0 ≤ g._offsets i - g._pads i + g._allocs i - 1)) →
        fixed.getD i 0 = indices.getD i 0) ∧
      (∀ i, i < g.get_num_dims → g.get_dim_name i ≠ g._dims._step_dim →
        g._offsets i - g._pads i ≤ fixed.getD i 0 ∧
          fixed.getD i 0 ≤ g._offsets i - g._pads i + g._allocs i - 1) ∧
      ∀ strict fixed_indices : Bool,
        ∃ out, g.checkIndices fixed strict fixed_indices = Except.ok (true, out) := by
  have hfix : ∀ i, i < g.get_num_dims →
      ((List.range g.get_num_dims).map (g.fixedIndex indices)).getD i 0
        = g.fixedIndex indices i := fun i hi => getD_map_range _ _ i hi
  have hflen : ((List.range g.get_num_dims).map (g.fixedIndex indices)).length
      = g.get_num_dims := by simp
  have hrange : ∀ i, i < g.get_num_dims → g.get_dim_name i ≠ g._dims._step_dim →
      g._offsets i - g._pads i
          ≤ ((List.range g.get_num_dims).map (g.fixedIndex indices)).getD i 0 ∧
        ((List.range g.get_num_dims).map (g.fixedIndex indices)).getD i 0
          ≤ g._offsets i - g._pads i + g._allocs i - 1 := by
    intro i hi hstep
    rw [hfix i hi]
    exact g.fixedIndex_inRange indices i hstep (hal i hi hstep)
  have hall : (List.range g.get_num_dims).all
      (g.indexAllowed ((List.range g.get_num_dims).map (g.fixedIndex indices))) = true :=
    (g.all_indexAllowed_iff _).2 hrange
  refine ⟨_, _, g.checkIndices_fixed hnd indices hlen, hflen, ?_, hrange, ?_⟩
  · intro i hi h
    rw [hfix i hi]
    apply g.fixedIndex_of_allowed
    unfold YkGridBase.indexAllowed
    rw [decide_eq_true_iff]
    exact h
  · intro strict fixed_indices
    cases strict with
    | false =>
      obtain ⟨out, ho⟩ := g.checkIndices_nonstrict hnd _ hflen fixed_indices
      rw [hall] at ho
      exact ⟨out, ho⟩
    | true =>
      obtain ⟨out, ho⟩ := (g.checkIndicesLoop_strict hnd _ (List.range g.get_num_dims)
        (fun i hi => List.mem_range.1 hi) true
        (if fixed_indices then some [] else none)).1 hall
      refine ⟨out, ?_⟩
      unfold YkGridBase.checkIndices
      rw [if_neg (by simp)]
      exact ho

/-- C12, amended, at `gridT` and the list `(t=100, x=20)`: the output is
`(100, 14)`. -/
theorem C12_fixup_clamped_witness :
    ∃ b fixed, gridT.checkIndices [100, 20] false true = Except.ok (b, some fixed) ∧
      fixed.length = gridT.get_num_dims ∧
      ∀ strict fixed_indices : Bool,
        ∃ out, gridT.checkIndices fixed strict fixed_indices = Except.ok (true, out) :=
  (C12_fixup_clamped gridT (by decide) [100, 20] rfl
    (by
      intro i hi _
      have h2 : i < 2 := hi
      interval_cases i <;> decide)).imp
    (fun _ h => h.imp (fun _ h2 => ⟨h2.1, h2.2.1, h2.2.2.2.2⟩))


/-! ### Element access -/

/-- C13: for a grid with no storage attached, `get_element` and
`get_elements_in_slice` end in the fatal exit for missing storage, while
`set_element`, `set_elements_in_slice` and `set_elements_in_slice_same` return
0 and leave the grid as it was, for every argument (no check of the indices is
made). -/
theorem C13_no_storage (g : YkGridBase) (hno : g.storage = none)
    (val : real_t) (buffer : Nat → real_t) (indices first_indices last_indices : GridIndices)
    (strict : Bool) :
    g.get_element indices = Except.error Fatal.noStorage ∧
      g.get_elements_in_slice buffer first_indices last_indices
        = Except.error Fatal.noStorage ∧
      g.set_element val indices strict = Except.ok (0, g) ∧
      g.set_elements_in_slice buffer first_indices last_indices = Except.ok (0, g) ∧
      g.set_elements_in_slice_same val first_indices last_indices strict
        = Except.ok (0, g) := by
  unfold YkGridBase.get_element YkGridBase.get_elements_in_slice YkGridBase.set_element
    YkGridBase.set_elements_in_slice YkGridBase.set_elements_in_slice_same
  rw [hno]
  exact ⟨rfl, rfl, rfl, rfl, rfl⟩

/-- C13 at `gridA`, with a coordinate list of the wrong length and `strict`
true. -/
theorem C13_no_storage_witness :
    gridA.get_element [7] = Except.error Fatal.noStorage ∧
      gridA.get_elements_in_slice (bufferOf []) [7] [100, 100, 100]
        = Except.error Fatal.noStorage ∧
      gridA.set_element 5 [7] true = Except.ok (0, gridA) ∧
      gridA.set_elements_in_slice (bufferOf []) [7] [100, 100, 100]
        = Except.ok (0, gridA) ∧
      gridA.set_elements_in_slice_same 5 [7] [100, 100, 100] true
        = Except.ok (0, gridA) :=
  C13_no_storage gridA rfl 5 (bufferOf []) [7] [7] [100, 100, 100] true

theorem YkGridBase.checkIndices_strict_of_all (g : YkGridBase)
    (hnd : g.ggb_dims.getDimNames.Nodup) (indices : GridIndices)
    (hlen : indices.length = g.get_num_dims) (fixed_indices : Bool)
    (hall : (List.range g.get_num_dims).all (g.indexAllowed indices) = true) :
    ∃ out, g.checkIndices indices true fixed_indices = Except.ok (true, out) := by
  obtain ⟨out, ho⟩ := (g.checkIndicesLoop_strict hnd indices (List.range g.get_num_dims)
    (fun i hi => List.mem_range.1 hi) true
    (if fixed_indices then some [] else none)).1 hall
  refine ⟨out, ?_⟩
  unfold YkGridBase.checkIndices
  rw [if_neg (by simpa using hlen)]
  exact ho

/-- C14: for a grid with storage attached and unique dimension names, and a
coordinate list `idx` with one value per dimension: if `idx` passes the range
test, `set_element(val, idx, false)` returns 1, the element at `idx` is `val`
afterwards (`get_element` reads it), no other element has changed and
`is_updated` is `false`; if `idx` does not pass, it returns 0 and the grid is as
it was, elements and flag included. Whatever the arguments, a call that returns
returns 0 or 1. -/
theorem C14_set_element (g : YkGridBase) (s : Storage) (hs : g.storage = some s)
    (hnd : g.ggb_dims.getDimNames.Nodup) (val : real_t) (indices : GridIndices)
    (hlen : indices.length = g.get_num_dims) :
    ((∀ i, i < g.get_num_dims → g.get_dim_name i ≠ g._dims._step_dim →
          g._offsets i - g._pads i ≤ indices.getD i 0 ∧
            indices.getD i 0 ≤ g._offsets i - g._pads i + g._allocs i - 1) →
        ∃ g' s', g.set_element val indices false = Except.ok (1, g') ∧
          g'.storage = some s' ∧ g'.is_updated = false ∧
          g'.get_element indices = Except.ok val ∧
          s'.elems (g.elemPosn (Indices.ofList indices)) = val ∧
          (∀ p, p ≠ g.elemPosn (Indices.ofList indices) → s'.elems p = s.elems p) ∧
          g' = { g with storage := some s', is_updated := false }) ∧
      (¬ (∀ i, i < g.get_num_dims → g.get_dim_name i ≠ g._dims._step_dim →
          g._offsets i - g._pads i ≤ indices.getD i 0 ∧
            indices.getD i 0 ≤ g._offsets i - g._pads i + g._allocs i - 1) →
        g.set_element val indices false = Except.ok (0, g)) ∧
      ∀ (v : real_t) (idx : GridIndices) (strict : Bool) (r : Int) (g2 : YkGridBase),
        g.set_element v idx strict = Except.ok (r, g2) → r = 0 ∨ r = 1 := by
  obtain ⟨out, ho⟩ := g.checkIndices_nonstrict hnd indices hlen false
  refine ⟨?_, ?_, ?_⟩
  · intro hpass
    have hall := (g.all_indexAllowed_iff indices).2 hpass
    rw [hall] at ho
    have hset : g.set_element val indices false
        = Except.ok (1, { g with
            storage := some (g.writeElem s val (Indices.ofList indices))
            is_updated := false }) := by
      unfold YkGridBase.set_element
      rw [hs, ho]
    refine ⟨_, _, hset, rfl, rfl, ?_, ?_, ?_, rfl⟩
    · obtain ⟨out2, ho2⟩ := YkGridBase.checkIndices_strict_of_all
        { g with
          storage := some (g.writeElem s val (Indices.ofList indices))
          is_updated := false } hnd indices hlen false hall
      unfold YkGridBase.get_element
      simp only [ho2]
      simp [YkGridBase.readElem, YkGridBase.writeElem, YkGridBase.elemPosn,
        YkGridBase.get_allocs, YkGridBase.allocPoint, YkGridBase.allocIndex,
        YkGridBase.get_num_dims, YkGridBase.get_dim_name]
    · simp [YkGridBase.writeElem]
    · intro p hp
      simp [YkGridBase.writeElem, Function.update_noteq hp]
  · intro hnot
    have hall : (List.range g.get_num_dims).all (g.indexAllowed indices) = false := by
      rw [← Bool.not_eq_true, g.all_indexAllowed_iff]
      exact hnot
    rw [hall] at ho
    unfold YkGridBase.set_element
    rw [hs, ho]
  · intro v idx strict r g2 h
    unfold YkGridBase.set_element at h
    rw [hs] at h
    simp only at h
    split at h
    · cases h
    · cases h; exact Or.inl rfl
    · cases h; exact Or.inr rfl

/-- C14 at `gridT`: the value 7 is stored at `(t=5, x=12)`, and `(t=5, x=15)` is
refused. -/
theorem C14_set_element_witness :
    (∃ g' s', gridT.set_element 7 [5, 12] false = Except.ok (1, g') ∧
        g'.storage = some s' ∧ g'.is_updated = false ∧
        g'.get_element [5, 12] = Except.ok 7) ∧
      gridT.set_element 7 [5, 15] false = Except.ok (0, gridT) :=
  ⟨((C14_set_element gridT ⟨fun _ => 0⟩ rfl (by decide) 7 [5, 12] rfl).1
      (by
        intro i hi hstep
        have h2 : i < 2 := hi
        interval_cases i
        · exact absurd rfl hstep
        · decide)).imp
      (fun _ h => h.imp (fun _ h2 => ⟨h2.1, h2.2.1, h2.2.2.1, h2.2.2.2.1⟩)),
    (C14_set_element gridT ⟨fun _ => 0⟩ rfl (by decide) 7 [5, 15] rfl).2.1
      (by
        intro h
        have := h 1 (by decide) (by decide)
        revert this
        decide)⟩


/-! ### Slices -/

theorem Tuple.mapVals_map_range (names : Nat → String) (v : Nat → Int) (n : Nat)
    (f : Nat → Int → Int) (fl : Bool) :
    Tuple.mapVals ⟨(List.range n).map (fun i => (names i, v i)), fl⟩ f
      = ⟨(List.range n).map (fun i => (names i, f i (v i))), fl⟩ := by
  unfold Tuple.mapVals
  simp only [Tuple.mk.injEq, and_true]
  apply List.ext_getElem
  · simp
  · intro i h1 h2
    simp

theorem Tuple.getVal_map_range (names : Nat → String) (v : Nat → Int) (n : Nat)
    (fl : Bool) (i : Nat) (hi : i < n) :
    Tuple.getVal ⟨(List.range n).map (fun i => (names i, v i)), fl⟩ i = v i := by
  unfold Tuple.getVal Tuple.getVals
  simp only [List.map_map]
  exact getD_map_range _ n i hi

theorem Tuple.getDimNames_map_range (names : Nat → String) (v : Nat → Int) (n : Nat)
    (fl : Bool) :
    Tuple.getDimNames ⟨(List.range n).map (fun i => (names i, v i)), fl⟩
      = (List.range n).map names := by
  simp [Tuple.getDimNames]

theorem Tuple.getVals_map_range (names : Nat → String) (v : Nat → Int) (n : Nat)
    (fl : Bool) :
    Tuple.getVals ⟨(List.range n).map (fun i => (names i, v i)), fl⟩
      = (List.range n).map v := by
  simp [Tuple.getVals]

theorem map_range_congr {α : Type} (f h : Nat → α) (n : Nat)
    (hfh : ∀ i, i < n → f i = h i) : (List.range n).map f = (List.range n).map h :=
  List.map_congr_left (fun i hi => hfh i (List.mem_range.1 hi))

/-- The tuple `firstTuple` holds the coordinate list, under the names of the
grid. -/
theorem YkGridBase.sliceTuple_eq (g : YkGridBase) (indices : GridIndices)
    (hlen : indices.length = g.get_num_dims) :
    g.sliceTuple indices
      = ⟨(List.range g.get_num_dims).map (fun i => (g.get_dim_name i, indices.getD i 0)),
          g.ggb_dims._firstInner⟩ := by
  unfold YkGridBase.sliceTuple YkGridBase.get_allocs Tuple.setVals
  rw [Tuple.mapVals_map_range]
  congr 1
  apply map_range_congr
  intro i hi
  rw [List.getD_eq_getElem _ _ (by omega), List.getD_eq_getElem _ _ (by omega)]

/-- The tuple `numElemsTuple` holds `last - first + 1` in every dimension. -/
theorem YkGridBase.numElemsTuple_eq (g : YkGridBase) (first last : GridIndices)
    (hlf : first.length = g.get_num_dims) (hll : last.length = g.get_num_dims) :
    g.numElemsTuple first last
      = ⟨(List.range g.get_num_dims).map
            (fun i => (g.get_dim_name i, last.getD i 0 + 1 - first.getD i 0)),
          g.ggb_dims._firstInner⟩ := by
  unfold YkGridBase.numElemsTuple Tuple.addConst Tuple.subElements
  rw [g.sliceTuple_eq first hlf, g.sliceTuple_eq last hll, Tuple.mapVals_map_range,
    Tuple.mapVals_map_range]
  congr 1
  apply map_range_congr
  intro i hi
  rw [Tuple.getVal_map_range _ _ _ _ i hi]

/-- The point visited in a slice is `first + ofs` in every dimension. -/
theorem YkGridBase.slicePoint_apply (g : YkGridBase) (first : GridIndices)
    (hlf : first.length = g.get_num_dims) (ofs : Tuple) (i : Nat)
    (hi : i < g.get_num_dims) :
    g.slicePoint first ofs i = first.getD i 0 + ofs.getVal i := by
  unfold YkGridBase.slicePoint Tuple.addElements Indices.ofList
  rw [g.sliceTuple_eq first hlf, Tuple.mapVals_map_range, Tuple.getVals_map_range]
  exact getD_map_range _ _ i hi

theorem Tuple.visitLoop_foldl {σ : Type} (step : σ → Tuple → σ) (pts : List Tuple)
    (idx : Nat) (st : σ) :
    Tuple.visitLoop (fun c _ s => (true, step s c)) pts idx st = pts.foldl step st := by
  induction pts generalizing idx st with
  | nil => rfl
  | cons pt pts ih =>
    simp only [Tuple.visitLoop, if_true, List.foldl_cons]
    exact ih _ _

/-- A visit whose callback always returns `true` and does not read the index is
the fold of the callback over the points visited. -/
theorem Tuple.visitAllPoints_foldl {σ : Type} (t : Tuple) (step : σ → Tuple → σ)
    (st : σ) :
    t.visitAllPoints (fun c _ s => (true, step s c)) st = t.visitPoints.foldl step st :=
  Tuple.visitLoop_foldl step _ 0 st

/-- Copying one value per point into a buffer at a running counter. -/
theorem foldl_copy_out {α : Type} (h : α → real_t) (pts : List α) (buffer : Nat → real_t) :
    (pts.foldl (fun (st : Nat × (Nat → real_t)) pt =>
        (st.1 + 1, Function.update st.2 st.1 (h pt))) (0, buffer)).1 = pts.length ∧
      ∀ k, (pts.foldl (fun (st : Nat × (Nat → real_t)) pt =>
          (st.1 + 1, Function.update st.2 st.1 (h pt))) (0, buffer)).2 k
        = (pts[k]?.map h).getD (buffer k) := by
  induction pts using List.reverseRecOn with
  | nil => exact ⟨rfl, fun k => rfl⟩
  | append_singleton l p ih =>
    rw [List.foldl_append]
    simp only [List.foldl_cons, List.foldl_nil, List.length_append, List.length_singleton]
    refine ⟨by rw [ih.1], ?_⟩
    intro k
    rw [ih.1]
    by_cases hk : k = l.length
    · subst hk
      simp
    · rw [Function.update_noteq hk, ih.2 k]
      by_cases hlt : k < l.length
      · rw [List.getElem?_append_left hlt]
      · have hge : l.length < k := by omega
        rw [List.getElem?_eq_none (by omega),
          List.getElem?_eq_none (by simp; omega)]

/-- The `k`-th point of a visit is `unlayout(k)`. -/
theorem Tuple.visitPoints_getElem (t : Tuple) (hnd : t.getDimNames.Nodup)
    (hpos : ∀ s ∈ t.getVals, 1 ≤ s) :
    t.visitPoints.length = t.product.toNat ∧
      ∀ (k : Nat) (pt : Tuple), t.visitPoints[k]? = some pt →
        pt._q = (t.unlayout (k : Int))._q := by
  have hpos0 : ∀ s ∈ t.getVals, 0 ≤ s := fun s hs => by have := hpos s hs; omega
  have hlay := Tuple.visitPoints_layout t hnd hpos0
  have hlen : t.visitPoints.length = t.product.toNat := by
    have := congrArg List.length hlay
    simpa using this
  refine ⟨hlen, ?_⟩
  intro k pt hget
  have hk : k < t.product.toNat := by
    rw [← hlen]
    exact (List.getElem?_eq_some_iff.1 hget).1
  have h1 : (t.visitPoints.map t.layout)[k]? = some (t.layout pt) := by
    rw [List.getElem?_map, hget]; rfl
  rw [hlay, List.getElem?_map, List.getElem?_range hk] at h1
  simp only [Option.map_some', Option.some.injEq] at h1
  have hr := Tuple.visitPoints_inRange t pt (List.getElem?_mem hget)
  have := Tuple.unlayout_layout_q t pt hnd hr
  rw [← h1] at this
  exact this.symm

theorem YkGridBase.map_get_dim_name (g : YkGridBase) :
    (List.range g.get_num_dims).map g.get_dim_name = g.ggb_dims.getDimNames := by
  apply List.ext_getElem
  · simp [YkGridBase.get_num_dims, Tuple.getNumDims, Tuple.getDimNames]
  · intro i h1 h2
    simp only [List.getElem_map, List.getElem_range]
    unfold YkGridBase.get_dim_name Tuple.getDimName
    rw [List.getD_eq_getElem _ _ h2]

theorem Tuple.getVal_eq_of_q (a b : Tuple) (h : a._q = b._q) (i : Nat) :
    a.getVal i = b.getVal i := by
  unfold Tuple.getVal Tuple.getVals
  rw [h]

theorem YkGridBase.slicePoint_congr (g : YkGridBase) (first : GridIndices) (a b : Tuple)
    (h : a._q = b._q) : g.slicePoint first a = g.slicePoint first b := by
  unfold YkGridBase.slicePoint Tuple.addElements
  have : (fun (i : Nat) (v : Int) => v + a.getVal i) = fun i v => v + b.getVal i := by
    funext i v
    rw [Tuple.getVal_eq_of_q a b h]
  rw [this]

/-- What the slice functions know of the region: the names of `numElemsTuple`
are those of the grid, its values are `last - first + 1`, and its product is the
product of these. -/
theorem YkGridBase.numElemsTuple_facts (g : YkGridBase) (first last : GridIndices)
    (hlf : first.length = g.get_num_dims) (hll : last.length = g.get_num_dims) :
    (g.numElemsTuple first last).getDimNames = g.ggb_dims.getDimNames ∧
      (∀ i, i < g.get_num_dims →
        (g.numElemsTuple first last).getVal i = last.getD i 0 - first.getD i 0 + 1) ∧
      (g.numElemsTuple first last).product
        = ∏ i ∈ Finset.range g.get_num_dims, (last.getD i 0 - first.getD i 0 + 1) ∧
      ((∀ i, i < g.get_num_dims → first.getD i 0 ≤ last.getD i 0) →
        ∀ s ∈ (g.numElemsTuple first last).getVals, 1 ≤ s) := by
  rw [g.numElemsTuple_eq first last hlf hll]
  refine ⟨?_, ?_, ?_, ?_⟩
  · rw [Tuple.getDimNames_map_range]
    exact g.map_get_dim_name
  · intro i hi
    rw [Tuple.getVal_map_range _ _ _ _ i hi]
    ring
  · unfold Tuple.product
    rw [Tuple.getVals_map_range, prod_map_range]
    apply Finset.prod_congr rfl
    intro i _
    ring
  · intro hle s hs
    rw [Tuple.getVals_map_range] at hs
    obtain ⟨i, hi, rfl⟩ := List.mem_map.1 hs
    have := hle i (List.mem_range.1 hi)
    omega

theorem Tuple.unlayoutVals_zero (S : List Int) :
    Tuple.unlayoutVals S 0 = S.map (fun _ => 0) := by
  induction S with
  | nil => rfl
  | cons s S ih => simp [Tuple.unlayoutVals, ih]

theorem Tuple.getVal_unlayout_zero (t : Tuple) (i : Nat) : (t.unlayout 0).getVal i = 0 := by
  unfold Tuple.getVal
  rw [Tuple.getVals_unlayout]
  by_cases hf : t._firstInner = true
  · simp only [hf, if_true, Tuple.unlayoutVals_zero]
    by_cases hi : i < t.getVals.length
    · rw [List.getD_eq_getElem _ _ (by simpa using hi)]; simp
    · rw [List.getD_eq_default _ _ (by simpa using hi)]
  · simp only [hf, Bool.false_eq_true, if_false, Tuple.unlayoutVals_zero]
    by_cases hi : i < t.getVals.length
    · rw [List.getD_eq_getElem _ _ (by simpa using hi)]; simp
    · rw [List.getD_eq_default _ _ (by simpa using hi)]

/-- Reading a slice: the count and the buffer afterwards. -/
theorem YkGridBase.get_elements_in_slice_eq (g : YkGridBase) (s : Storage)
    (hs : g.storage = some s) (hnd : g.ggb_dims.getDimNames.Nodup)
    (buffer : Nat → real_t) (first last : GridIndices)
    (hlf : first.length = g.get_num_dims) (hll : last.length = g.get_num_dims)
    (hfirst : (List.range g.get_num_dims).all (g.indexAllowed first) = true)
    (hlast : (List.range g.get_num_dims).all (g.indexAllowed last) = true) :
    g.get_elements_in_slice buffer first last
      = Except.ok ((g.numElemsTuple first last).visitPoints.length,
          fun k =>
            ((g.numElemsTuple first last).visitPoints[k]?.map
              (fun pt => g.readElem s (g.slicePoint first pt))).getD (buffer k)) := by
  obtain ⟨o1, h1⟩ := g.checkIndices_strict_of_all hnd first hlf false hfirst
  obtain ⟨o2, h2⟩ := g.checkIndices_strict_of_all hnd last hll false hlast
  unfold YkGridBase.get_elements_in_slice
  rw [hs]
  simp only [h1, h2]
  rw [Tuple.visitAllPoints_foldl (g.numElemsTuple first last)
    (fun (st : Nat × (Nat → real_t)) ofs =>
      (st.1 + 1, Function.update st.2 st.1 (g.readElem s (g.slicePoint first ofs))))]
  have h := foldl_copy_out (fun pt => g.readElem s (g.slicePoint first pt))
    (g.numElemsTuple first last).visitPoints buffer
  congr 1
  apply Prod.ext
  · exact h.1
  · funext k
    exact h.2 k

theorem YkGridBase.slicePoint_apply_ge (g : YkGridBase) (first : GridIndices)
    (hlf : first.length = g.get_num_dims) (ofs : Tuple) (i : Nat)
    (hi : g.get_num_dims ≤ i) : g.slicePoint first ofs i = 0 := by
  unfold YkGridBase.slicePoint Tuple.addElements Indices.ofList
  rw [g.sliceTuple_eq first hlf, Tuple.mapVals_map_range, Tuple.getVals_map_range]
  exact List.getD_eq_default _ _ (by simpa using hi)

theorem YkGridBase.slicePoint_unlayout_zero (g : YkGridBase) (first : GridIndices)
    (hlf : first.length = g.get_num_dims) (t : Tuple) :
    g.slicePoint first (t.unlayout 0) = Indices.ofList first := by
  funext i
  by_cases hi : i < g.get_num_dims
  · rw [g.slicePoint_apply first hlf _ i hi, Tuple.getVal_unlayout_zero]
    simp [Indices.ofList]
  · rw [g.slicePoint_apply_ge first hlf _ i (by omega)]
    unfold Indices.ofList
    exact (List.getD_eq_default _ _ (by omega)).symm

/-- C15: for a grid with storage attached and unique dimension names, and
coordinate lists `first`, `last` with one value per dimension that pass the range
test, with `first[d] <= last[d]` in every dimension: `get_elements_in_slice`
returns `N`, the product over the dimensions of `last[d] - first[d] + 1`, which
is the product of the extent tuple `E`; for every `k < N` the buffer holds at `k`
the element at the coordinate `first + E.unlayout(k)`; the buffer beyond `N` is
as it was; and `buffer[0]` is the element at `first`. -/
theorem C15_get_elements_in_slice (g : YkGridBase) (s : Storage)
    (hs : g.storage = some s) (hnd : g.ggb_dims.getDimNames.Nodup)
    (buffer : Nat → real_t) (first last : GridIndices)
    (hlf : first.length = g.get_num_dims) (hll : last.length = g.get_num_dims)
    (hfirst : ∀ i, i < g.get_num_dims → g.get_dim_name i ≠ g._dims._step_dim →
      g._offsets i - g._pads i ≤ first.getD i 0 ∧
        first.getD i 0 ≤ g._offsets i - g._pads i + g._allocs i - 1)
    (hlast : ∀ i, i < g.get_num_dims → g.get_dim_name i ≠ g._dims._step_dim →
      g._offsets i - g._pads i ≤ last.getD i 0 ∧
        last.getD i 0 ≤ g._offsets i - g._pads i + g._allocs i - 1)
    (hle : ∀ i, i < g.get_num_dims → first.getD i 0 ≤ last.getD i 0) :
    ∃ (N : Nat) (out : Nat → real_t),
      g.get_elements_in_slice buffer first last = Except.ok (N, out) ∧
      (N : Int) = ∏ i ∈ Finset.range g.get_num_dims, (last.getD i 0 - first.getD i 0 + 1) ∧
      (N : Int) = (g.numElemsTuple first last).product ∧
      (∀ i, i < g.get_num_dims →
        (g.numElemsTuple first last).getVal i = last.getD i 0 - first.getD i 0 + 1) ∧
      (∀ k, k < N →
        out k = g.readElem s
            (g.slicePoint first ((g.numElemsTuple first last).unlayout (k : Int))) ∧
          ∀ i, i < g.get_num_dims →
            g.slicePoint first ((g.numElemsTuple first last).unlayout (k : Int)) i
              = first.getD i 0
                + ((g.numElemsTuple first last).unlayout (k : Int)).getVal i) ∧
      (∀ k, N ≤ k → out k = buffer k) ∧
      out 0 = g.readElem s (Indices.ofList first) := by
  obtain ⟨hnames, hvals, hprod, hpos⟩ := g.numElemsTuple_facts first last hlf hll
  have hndE : (g.numElemsTuple first last).getDimNames.Nodup := by rw [hnames]; exact hnd
  obtain ⟨hlen, hpt⟩ := Tuple.visitPoints_getElem _ hndE (hpos hle)
  have hprod0 : 0 < (g.numElemsTuple first last).product := by
    rw [hprod]
    apply Finset.prod_pos
    intro i hi
    have := hle i (Finset.mem_range.1 hi)
    omega
  have hN : ((g.numElemsTuple first last).visitPoints.length : Int)
      = (g.numElemsTuple first last).product := by
    rw [hlen]; exact Int.toNat_of_nonneg (le_of_lt hprod0)
  have hout : ∀ k, k < (g.numElemsTuple first last).visitPoints.length →
      ((g.numElemsTuple first last).visitPoints[k]?.map
          (fun pt => g.readElem s (g.slicePoint first pt))).getD (buffer k)
        = g.readElem s
            (g.slicePoint first ((g.numElemsTuple first last).unlayout (k : Int))) := by
    intro k hk
    have hget : (g.numElemsTuple first last).visitPoints[k]?
        = some ((g.numElemsTuple first last).visitPoints[k]) := List.getElem?_eq_getElem hk
    rw [hget]
    simp only [Option.map_some', Option.getD_some]
    rw [g.slicePoint_congr first _ _ (hpt k _ hget)]
  refine ⟨_, _, g.get_elements_in_slice_eq s hs hnd buffer first last hlf hll
    ((g.all_indexAllowed_iff first).2 hfirst) ((g.all_indexAllowed_iff last).2 hlast),
    ?_, hN, hvals, ?_, ?_, ?_⟩
  · rw [hN, hprod]
  · intro k hk
    exact ⟨hout k hk, fun i hi => g.slicePoint_apply first hlf _ i hi⟩
  · intro k hk
    show ((g.numElemsTuple first last).visitPoints[k]?.map
      (fun pt => g.readElem s (g.slicePoint first pt))).getD (buffer k) = buffer k
    rw [List.getElem?_eq_none hk]
    rfl
  · have h0 : 0 < (g.numElemsTuple first last).visitPoints.length := by
      have : (0 : Int) < ((g.numElemsTuple first last).visitPoints.length : Int) := by
        rw [hN]; exact hprod0
      exact_mod_cast this
    show ((g.numElemsTuple first last).visitPoints[0]?.map
      (fun pt => g.readElem s (g.slicePoint first pt))).getD (buffer 0) = _
    rw [hout 0 h0]
    have : ((0 : Nat) : Int) = 0 := rfl
    rw [this, g.slicePoint_unlayout_zero first hlf]

/-- C15 at `gridXY` and the region `(1, 0) .. (2, 1)`: four elements. -/
theorem C15_get_elements_in_slice_witness :
    ∃ (N : Nat) (out : Nat → real_t),
      gridXY.get_elements_in_slice (bufferOf []) [1, 0] [2, 1] = Except.ok (N, out) ∧
      (N : Int) = ∏ i ∈ Finset.range gridXY.get_num_dims,
        ([2, 1].getD i 0 - [1, 0].getD i 0 + 1) ∧
      out 0 = gridXY.readElem ⟨fun _ => 0⟩ (Indices.ofList [1, 0]) :=
  (C15_get_elements_in_slice gridXY ⟨fun _ => 0⟩ rfl (by decide) (bufferOf []) [1, 0] [2, 1]
    rfl rfl
    (by
      intro i hi _
      have h2 : i < 2 := hi
      interval_cases i <;> decide)
    (by
      intro i hi _
      have h2 : i < 2 := hi
      interval_cases i <;> decide)
    (by
      intro i hi
      have h2 : i < 2 := hi
      interval_cases i <;> decide)).imp
    (fun _ h => h.imp (fun _ h2 => ⟨h2.1, h2.2.1, h2.2.2.2.2.2.2⟩))


/-- Writing one value per point at a running counter: a point that no later
point of the visit shares its storage position with keeps its value. -/
theorem foldl_write {α : Type} (P : α → Nat) (b : Nat → real_t) (pts : List α)
    (s : Storage) :
    (pts.foldl (fun (st : Nat × Storage) pt =>
        (st.1 + 1, ({ elems := Function.update st.2.elems (P pt) (b st.1) } : Storage)))
        (0, s)).1 = pts.length ∧
      ∀ (k : Nat) (hk : k < pts.length),
        (∀ (j : Nat) (hj : j < pts.length), k < j → P pts[j] ≠ P pts[k]) →
        (pts.foldl (fun (st : Nat × Storage) pt =>
          (st.1 + 1, ({ elems := Function.update st.2.elems (P pt) (b st.1) } : Storage)))
          (0, s)).2.elems (P pts[k]) = b k := by
  induction pts using List.reverseRecOn with
  | nil => exact ⟨rfl, fun k hk => absurd hk (by simp)⟩
  | append_singleton l p ih =>
    rw [List.foldl_append]
    simp only [List.foldl_cons, List.foldl_nil, List.length_append, List.length_singleton]
    refine ⟨by rw [ih.1], ?_⟩
    intro k hk hlater
    rw [ih.1]
    have e1 : (l ++ [p])[l.length] = p := by simp
    by_cases hkl : k < l.length
    · have hlast := hlater l.length (by omega) hkl
      have hb2 : k < (l ++ [p]).length := by
        rw [List.length_append, List.length_singleton]; omega
      have e2 : (l ++ [p])[k] = l[k] := List.getElem_append_left hkl
      rw [e1, e2] at hlast
      rw [e2, Function.update_noteq (Ne.symm hlast)]
      apply ih.2 k hkl
      intro j hj hkj
      have := hlater j (by omega) hkj
      rw [List.getElem_append_left hj, e2] at this
      exact this
    · have hkeq : k = l.length := by omega
      subst hkeq
      rw [e1, Function.update_same]

/-- Writing a slice: the count and the grid afterwards. -/
theorem YkGridBase.set_elements_in_slice_eq (g : YkGridBase) (s : Storage)
    (hs : g.storage = some s) (hnd : g.ggb_dims.getDimNames.Nodup)
    (buffer : Nat → real_t) (first last : GridIndices)
    (hlf : first.length = g.get_num_dims) (hll : last.length = g.get_num_dims)
    (hfirst : (List.range g.get_num_dims).all (g.indexAllowed first) = true)
    (hlast : (List.range g.get_num_dims).all (g.indexAllowed last) = true) :
    g.set_elements_in_slice buffer first last
      = Except.ok
          (((g.numElemsTuple first last).visitPoints.foldl
              (fun (st : Nat × Storage) pt =>
                (st.1 + 1,
                  ({ elems := Function.update st.2.elems
                      (g.elemPosn (g.slicePoint first pt)) (buffer st.1) } : Storage)))
              (0, s)).1,
            { g with
              storage := some
                ((g.numElemsTuple first last).visitPoints.foldl
                  (fun (st : Nat × Storage) pt =>
                    (st.1 + 1,
                      ({ elems := Function.update st.2.elems
                          (g.elemPosn (g.slicePoint first pt)) (buffer st.1) } : Storage)))
                  (0, s)).2 }) := by
  obtain ⟨o1, h1⟩ := g.checkIndices_strict_of_all hnd first hlf false hfirst
  obtain ⟨o2, h2⟩ := g.checkIndices_strict_of_all hnd last hll false hlast
  unfold YkGridBase.set_elements_in_slice
  rw [hs]
  simp only [h1, h2]
  have hv : g.sliceVisitWrite s buffer first last
      = (g.numElemsTuple first last).visitPoints.foldl
          (fun (st : Nat × Storage) pt =>
            (st.1 + 1,
              ({ elems := Function.update st.2.elems
                  (g.elemPosn (g.slicePoint first pt)) (buffer st.1) } : Storage)))
          (0, s) := by
    unfold YkGridBase.sliceVisitWrite
    exact Tuple.visitAllPoints_foldl (g.numElemsTuple first last)
      (fun (st : Nat × Storage) ofs =>
        (st.1 + 1, g.writeElem st.2 (buffer st.1) (g.slicePoint first ofs))) (0, s)
  rw [hv]

/-- Round trip through a region whose points have pairwise distinct storage
positions. -/
theorem YkGridBase.slice_round_trip_of_distinct (g : YkGridBase) (s : Storage)
    (hs : g.storage = some s) (hnd : g.ggb_dims.getDimNames.Nodup)
    (buffer out0 : Nat → real_t) (first last : GridIndices)
    (hlf : first.length = g.get_num_dims) (hll : last.length = g.get_num_dims)
    (hfirst : (List.range g.get_num_dims).all (g.indexAllowed first) = true)
    (hlast : (List.range g.get_num_dims).all (g.indexAllowed last) = true)
    (hdist : ∀ (j k : Nat) (hj : j < (g.numElemsTuple first last).visitPoints.length)
      (hk : k < (g.numElemsTuple first last).visitPoints.length), k < j →
        g.elemPosn (g.slicePoint first ((g.numElemsTuple first last).visitPoints[j]))
          ≠ g.elemPosn (g.slicePoint first ((g.numElemsTuple first last).visitPoints[k]))) :
    ∃ (g' : YkGridBase) (out : Nat → real_t),
      g.set_elements_in_slice buffer first last
        = Except.ok ((g.numElemsTuple first last).visitPoints.length, g') ∧
      g'.get_elements_in_slice out0 first last
        = Except.ok ((g.numElemsTuple first last).visitPoints.length, out) ∧
      (∀ k, k < (g.numElemsTuple first last).visitPoints.length → out k = buffer k) ∧
      ∀ k, (g.numElemsTuple first last).visitPoints.length ≤ k → out k = out0 k := by
  have hw := foldl_write (fun pt => g.elemPosn (g.slicePoint first pt)) buffer
    (g.numElemsTuple first last).visitPoints s
  have hset := g.set_elements_in_slice_eq s hs hnd buffer first last hlf hll hfirst hlast
  rw [hw.1] at hset
  obtain ⟨s2, hs2⟩ : ∃ s2 : Storage, s2
      = ((g.numElemsTuple first last).visitPoints.foldl
          (fun (st : Nat × Storage) pt =>
            (st.1 + 1,
              ({ elems := Function.update st.2.elems
                  (g.elemPosn (g.slicePoint first pt)) (buffer st.1) } : Storage)))
          (0, s)).2 := ⟨_, rfl⟩
  rw [← hs2] at hset
  have hw2 := hw.2
  rw [← hs2] at hw2
  have hget := YkGridBase.get_elements_in_slice_eq { g with storage := some s2 } s2 rfl hnd
    out0 first last hlf hll hfirst hlast
  refine ⟨_, _, hset, hget, ?_, ?_⟩
  · intro k hk
    show (((g.numElemsTuple first last).visitPoints[k]?).map _).getD (out0 k) = buffer k
    rw [List.getElem?_eq_getElem hk]
    simp only [Option.map_some', Option.getD_some]
    exact hw2 k hk (fun j hj hkj => hdist j k hj hk hkj)
  · intro k hk
    show (((g.numElemsTuple first last).visitPoints[k]?).map _).getD (out0 k) = out0 k
    rw [List.getElem?_eq_none hk]
    rfl

theorem horner_nonneg (l : List (Int × Int)) (acc : Int) (hacc : 0 ≤ acc)
    (hl : ∀ sc ∈ l, 0 ≤ sc.1 ∧ 0 ≤ sc.2) : 0 ≤ horner acc l := by
  induction l generalizing acc with
  | nil => exact hacc
  | cons sc l ih =>
    rw [horner_cons]
    have h := hl sc (List.mem_cons_self _ _)
    apply ih
    · have := mul_nonneg hacc h.1
      omega
    · exact fun x hx => hl x (List.mem_cons_of_mem _ hx)

theorem Tuple.layout_nonneg (sizes p : Tuple) (hnd : sizes.getDimNames.Nodup)
    (hr : sizes.inRange p) : 0 ≤ sizes.layout p := by
  rw [Tuple.layout_eq_horner sizes p hnd hr.1]
  apply horner_nonneg _ _ (le_refl _)
  intro sc hsc
  have hz : sc ∈ List.zip sizes.getVals p.getVals := by
    unfold slowOrder at hsc
    split at hsc
    · exact List.mem_reverse.1 hsc
    · exact hsc
  have := (List.forall₂_iff_zip.1 hr.2).2 hz
  constructor <;> omega

/-- In-range coordinates with the same index are the same coordinate. -/
theorem Tuple.layout_injective (sizes p q : Tuple) (hnd : sizes.getDimNames.Nodup)
    (hp : sizes.inRange p) (hq : sizes.inRange q)
    (h : (sizes.layout p).toNat = (sizes.layout q).toNat) : p._q = q._q := by
  have h2 : sizes.layout p = sizes.layout q := by
    have e1 := Int.toNat_of_nonneg (Tuple.layout_nonneg sizes p hnd hp)
    have e2 := Int.toNat_of_nonneg (Tuple.layout_nonneg sizes q hnd hq)
    rw [← e1, ← e2, h]
  rw [← Tuple.unlayout_layout_q sizes p hnd hp, ← Tuple.unlayout_layout_q sizes q hnd hq, h2]

theorem forall₂_map_range {α β : Type} (R : α → β → Prop) (f : Nat → α) (h : Nat → β)
    (n : Nat) (hR : ∀ i, i < n → R (f i) (h i)) :
    List.Forall₂ R ((List.range n).map f) ((List.range n).map h) := by
  rw [List.forall₂_map_left_iff, List.forall₂_map_right_iff, List.forall₂_same]
  exact fun i hi => hR i (List.mem_range.1 hi)

theorem Tuple.inRange_getVal (sizes p : Tuple) (hr : sizes.inRange p) (i : Nat)
    (hi : i < sizes.getNumDims) : 0 ≤ p.getVal i ∧ p.getVal i < sizes.getVal i := by
  have hlen : sizes.getVals.length = p.getVals.length := hr.2.length_eq
  have hn : sizes.getVals.length = sizes.getNumDims := by
    simp [Tuple.getVals, Tuple.getNumDims]
  have h1 : i < sizes.getVals.length := by omega
  have h2 : i < p.getVals.length := by omega
  have := (List.forall₂_iff_get.1 hr.2).2 i h1 h2
  unfold Tuple.getVal
  rw [List.getD_eq_getElem _ _ h1, List.getD_eq_getElem _ _ h2]
  exact this

theorem Tuple.q_eq_of_getVal (a b : Tuple) (hn : a.getDimNames = b.getDimNames)
    (hv : ∀ i, i < a.getNumDims → a.getVal i = b.getVal i) : a._q = b._q := by
  have hla : a.getVals.length = a.getNumDims := by simp [Tuple.getVals, Tuple.getNumDims]
  have hlb : b.getVals.length = a.getNumDims := by
    have := congrArg List.length hn
    simp only [Tuple.getDimNames, List.length_map] at this
    simp [Tuple.getVals, Tuple.getNumDims, this]
  have hvals : a.getVals = b.getVals := by
    apply List.ext_getElem (by omega)
    intro i h1 h2
    have := hv i (by omega)
    unfold Tuple.getVal at this
    rw [List.getD_eq_getElem _ _ h1, List.getD_eq_getElem _ _ h2] at this
    exact this
  rw [← a.zip_names_vals, ← b.zip_names_vals, hn, hvals]

theorem Tuple.layout_congr_q (t a b : Tuple) (h : a._q = b._q) : t.layout a = t.layout b := by
  unfold Tuple.layout Tuple.lookup
  rw [h]

theorem emod_inj_of_window (a x y lo : Int) (hx : lo ≤ x) (hx2 : x < lo + a) (hy : lo ≤ y)
    (hy2 : y < lo + a) (h : x % a = y % a) : x = y := by
  have h1 := Int.emod_eq_emod_iff_emod_sub_eq_zero.1 h
  have h2 : |x - y| < a := by
    rw [abs_lt]
    constructor <;> omega
  have h3 := Int.eq_zero_of_abs_lt_dvd (Int.dvd_of_emod_eq_zero h1) h2
  omega

theorem YkGridBase.getVal_get_allocs (g : YkGridBase) (i : Nat) (hi : i < g.get_num_dims) :
    g.get_allocs.getVal i = g._allocs i :=
  Tuple.getVal_map_range _ _ _ _ i hi

/-- The points of a region within the allowed indices, with a step extent within
the allocated extent, have distinct allocation-relative coordinates within the
allocation, hence distinct storage positions. -/
theorem YkGridBase.slice_positions_distinct (g : YkGridBase)
    (hnd : g.ggb_dims.getDimNames.Nodup) (first last : GridIndices)
    (hlf : first.length = g.get_num_dims) (hll : last.length = g.get_num_dims)
    (hfirst : ∀ i, i < g.get_num_dims → g.get_dim_name i ≠ g._dims._step_dim →
      g._offsets i - g._pads i ≤ first.getD i 0 ∧
        first.getD i 0 ≤ g._offsets i - g._pads i + g._allocs i - 1)
    (hlast : ∀ i, i < g.get_num_dims → g.get_dim_name i ≠ g._dims._step_dim →
      g._offsets i - g._pads i ≤ last.getD i 0 ∧
        last.getD i 0 ≤ g._offsets i - g._pads i + g._allocs i - 1)
    (hle : ∀ i, i < g.get_num_dims → first.getD i 0 ≤ last.getD i 0)
    (hstep : ∀ i, i < g.get_num_dims → g.get_dim_name i = g._dims._step_dim →
      last.getD i 0 - first.getD i 0 + 1 ≤ g._allocs i)
    (j k : Nat) (hj : j < (g.numElemsTuple first last).visitPoints.length)
    (hk : k < (g.numElemsTuple first last).visitPoints.length) (hjk : k < j) :
    g.elemPosn (g.slicePoint first ((g.numElemsTuple first last).visitPoints[j]))
      ≠ g.elemPosn (g.slicePoint first ((g.numElemsTuple first last).visitPoints[k])) := by
  obtain ⟨hnames, hvals, _, hpos⟩ := g.numElemsTuple_facts first last hlf hll
  have hndE : (g.numElemsTuple first last).getDimNames.Nodup := by rw [hnames]; exact hnd
  have hnE : (g.numElemsTuple first last).getNumDims = g.get_num_dims :=
    Tuple.getNumDims_eq_of_names _ _ hnames
  have hpos0 : ∀ s ∈ (g.numElemsTuple first last).getVals, 0 ≤ s :=
    fun s hs => by have := hpos hle s hs; omega
  have hlay := Tuple.visitPoints_layout _ hndE hpos0
  -- every point of the visit is within the extents
  have hin : ∀ (m : Nat) (hm : m < (g.numElemsTuple first last).visitPoints.length)
      (i : Nat), i < g.get_num_dims →
      0 ≤ ((g.numElemsTuple first last).visitPoints[m]).getVal i ∧
        ((g.numElemsTuple first last).visitPoints[m]).getVal i
          < last.getD i 0 - first.getD i 0 + 1 := by
    intro m hm i hi
    have hr := Tuple.visitPoints_inRange _ _ (List.getElem_mem hm)
    have := Tuple.inRange_getVal _ _ hr i (by omega)
    rw [hvals i hi] at this
    exact this
  -- its allocation-relative coordinate is within the allocation
  have halloc : ∀ (m : Nat) (hm : m < (g.numElemsTuple first last).visitPoints.length),
      g.get_allocs.inRange
        (g.allocPoint (g.slicePoint first ((g.numElemsTuple first last).visitPoints[m]))) := by
    intro m hm
    constructor
    · unfold YkGridBase.allocPoint YkGridBase.get_allocs
      rw [Tuple.getDimNames_map_range, Tuple.getDimNames_map_range]
    · unfold YkGridBase.allocPoint YkGridBase.get_allocs
      rw [Tuple.getVals_map_range, Tuple.getVals_map_range]
      apply forall₂_map_range
      intro i hi
      have hv := hin m hm i hi
      have hsp := g.slicePoint_apply first hlf ((g.numElemsTuple first last).visitPoints[m]) i hi
      unfold YkGridBase.allocIndex
      by_cases hs : g.get_dim_name i = g._dims._step_dim
      · rw [if_pos hs]
        have ha := hstep i hi hs
        have := hle i hi
        exact ⟨Int.emod_nonneg _ (by omega), Int.emod_lt_of_pos _ (by omega)⟩
      · rw [if_neg hs, hsp]
        have h1 := hfirst i hi hs
        have h2 := hlast i hi hs
        constructor <;> omega
  intro heq
  have hndA : g.get_allocs.getDimNames.Nodup := by
    unfold YkGridBase.get_allocs
    rw [Tuple.getDimNames_map_range, g.map_get_dim_name]
    exact hnd
  have hq := Tuple.layout_injective g.get_allocs _ _ hndA (halloc j hj) (halloc k hk) heq
  -- so the two points have the same values ...
  have hsame : ∀ i, i < g.get_num_dims →
      ((g.numElemsTuple first last).visitPoints[j]).getVal i
        = ((g.numElemsTuple first last).visitPoints[k]).getVal i := by
    intro i hi
    have hqi := Tuple.getVal_eq_of_q _ _ hq i
    unfold YkGridBase.allocPoint at hqi
    rw [Tuple.getVal_map_range _ _ _ _ i hi, Tuple.getVal_map_range _ _ _ _ i hi] at hqi
    have hvj := hin j hj i hi
    have hvk := hin k hk i hi
    have hspj := g.slicePoint_apply first hlf ((g.numElemsTuple first last).visitPoints[j]) i hi
    have hspk := g.slicePoint_apply first hlf ((g.numElemsTuple first last).visitPoints[k]) i hi
    unfold YkGridBase.allocIndex at hqi
    by_cases hs : g.get_dim_name i = g._dims._step_dim
    · rw [if_pos hs, if_pos hs, hspj, hspk] at hqi
      have ha := hstep i hi hs
      have := emod_inj_of_window (g._allocs i) _ _ (first.getD i 0)
        (by omega) (by omega) (by omega) (by omega) hqi
      omega
    · rw [if_neg hs, if_neg hs, hspj, hspk] at hqi
      omega
  -- ... and are the same point of the visit
  have hnj := (Tuple.visitPoints_inRange _ _ (List.getElem_mem hj)).1
  have hnk := (Tuple.visitPoints_inRange _ _ (List.getElem_mem hk)).1
  have hqq : ((g.numElemsTuple first last).visitPoints[j])._q
      = ((g.numElemsTuple first last).visitPoints[k])._q := by
    apply Tuple.q_eq_of_getVal _ _ (hnj.trans hnk.symm)
    intro i hi
    apply hsame i
    rw [← hnE, ← Tuple.getNumDims_eq_of_names _ _ hnj]
    exact hi
  have hll2 := Tuple.layout_congr_q (g.numElemsTuple first last) _ _ hqq
  have hidx : ∀ (m : Nat) (hm : m < (g.numElemsTuple first last).visitPoints.length),
      (g.numElemsTuple first last).layout ((g.numElemsTuple first last).visitPoints[m])
        = (m : Int) := by
    intro m hm
    have h1 : ((g.numElemsTuple first last).visitPoints.map
        (g.numElemsTuple first last).layout)[m]?
          = some ((g.numElemsTuple first last).layout
              ((g.numElemsTuple first last).visitPoints[m])) := by
      rw [List.getElem?_map, List.getElem?_eq_getElem hm]; rfl
    have hlen : (g.numElemsTuple first last).visitPoints.length
        = (g.numElemsTuple first last).product.toNat := by
      have := congrArg List.length hlay
      simpa using this
    rw [hlay, List.getElem?_map, List.getElem?_range (by omega)] at h1
    simp only [Option.map_some', Option.some.injEq] at h1
    exact h1.symm
  rw [hidx j hj, hidx k hk] at hll2
  have : j = k := by exact_mod_cast hll2
  omega

/-- C16 (as stated, refuted): on `gridT` (dimensions `t`, `x`; two slots
allocated in the step dimension `t`), the region `(t=0, x=10) .. (t=2, x=10)`
passes the range test and has three points; both calls return 3, but the step
indices 0 and 2 address the same slot, so after writing `[1, 2, 3]` the value
read back at position 0 is 3, not 1. -/
theorem C16_round_trip_fails_on_step_wrap :
    ∃ (g' : YkGridBase) (out : Nat → real_t),
      gridT.checkIndices [0, 10] true false = Except.ok (true, none) ∧
      gridT.checkIndices [2, 10] true false = Except.ok (true, none) ∧
      gridT.set_elements_in_slice (bufferOf [1, 2, 3]) [0, 10] [2, 10]
        = Except.ok (3, g') ∧
      g'.get_elements_in_slice (bufferOf []) [0, 10] [2, 10] = Except.ok (3, out) ∧
      bufferOf [1, 2, 3] 0 = 1 ∧ out 0 = 3 :=
  ⟨_, _, rfl, rfl, rfl, rfl, rfl, rfl⟩

/-- C16 (amended): for a grid with storage attached and unique dimension names,
coordinate lists `first`, `last` with one value per dimension that pass the range
test, `first[d] <= last[d]` in every dimension, and an extent
`last[d] - first[d] + 1` of at most the allocation size in the step dimension:
`set_elements_in_slice(buf, first, last)` followed by
`get_elements_in_slice(out, first, last)` returns the same count `N`, the product
of the extents, from both calls, and `out[k] = buf[k]` for every `k < N`. -/
theorem C16_slice_round_trip (g : YkGridBase) (s : Storage)
    (hs : g.storage = some s) (hnd : g.ggb_dims.getDimNames.Nodup)
    (buffer out0 : Nat → real_t) (first last : GridIndices)
    (hlf : first.length = g.get_num_dims) (hll : last.length = g.get_num_dims)
    (hfirst : ∀ i, i < g.get_num_dims → g.get_dim_name i ≠ g._dims._step_dim →
      g._offsets i - g._pads i ≤ first.getD i 0 ∧
        first.getD i 0 ≤ g._offsets i - g._pads i + g._allocs i - 1)
    (hlast : ∀ i, i < g.get_num_dims → g.get_dim_name i ≠ g._dims._step_dim →
      g._offsets i - g._pads i ≤ last.getD i 0 ∧
        last.getD i 0 ≤ g._offsets i - g._pads i + g._allocs i - 1)
    (hle : ∀ i, i < g.get_num_dims → first.getD i 0 ≤ last.getD i 0)
    (hstep : ∀ i, i < g.get_num_dims → g.get_dim_name i = g._dims._step_dim →
      last.getD i 0 - first.getD i 0 + 1 ≤ g._allocs i) :
    ∃ (N : Nat) (g' : YkGridBase) (out : Nat → real_t),
      g.set_elements_in_slice buffer first last = Except.ok (N, g') ∧
      g'.get_elements_in_slice out0 first last = Except.ok (N, out) ∧
      (N : Int) = ∏ i ∈ Finset.range g.get_num_dims, (last.getD i 0 - first.getD i 0 + 1) ∧
      ∀ k, k < N → out k = buffer k := by
  obtain ⟨hnames, _, hprod, hpos⟩ := g.numElemsTuple_facts first last hlf hll
  have hndE : (g.numElemsTuple first last).getDimNames.Nodup := by rw [hnames]; exact hnd
  obtain ⟨hlen, _⟩ := Tuple.visitPoints_getElem _ hndE (hpos hle)
  have hprod0 : 0 < (g.numElemsTuple first last).product := by
    rw [hprod]
    apply Finset.prod_pos
    intro i hi
    have := hle i (Finset.mem_range.1 hi)
    omega
  obtain ⟨g', out, hset, hget, hout, _⟩ :=
    g.slice_round_trip_of_distinct s hs hnd buffer out0 first last hlf hll
      ((g.all_indexAllowed_iff first).2 hfirst) ((g.all_indexAllowed_iff last).2 hlast)
      (g.slice_positions_distinct hnd first last hlf hll hfirst hlast hle hstep)
  refine ⟨_, g', out, hset, hget, ?_, hout⟩
  rw [hlen, Int.toNat_of_nonneg (le_of_lt hprod0), hprod]

/-- C16 at `gridXY` (domain `x=3, y=2`, no pad or halo): writing
`[1, 2, 3, 4, 5, 6]` over the full region `(0, 0) .. (2, 1)` and reading the
region back gives 6 from both calls and `[1, 2, 3, 4, 5, 6]` in the same order. -/
theorem C16_slice_round_trip_witness :
    ∃ (g' : YkGridBase) (out : Nat → real_t),
      gridXY.set_elements_in_slice (bufferOf [1, 2, 3, 4, 5, 6]) [0, 0] [2, 1]
        = Except.ok (6, g') ∧
      g'.get_elements_in_slice (bufferOf []) [0, 0] [2, 1] = Except.ok (6, out) ∧
      (List.range 6).map out = [1, 2, 3, 4, 5, 6] := by
  obtain ⟨N, g', out, h1, h2, h3, h4⟩ :=
    C16_slice_round_trip gridXY ⟨fun _ => 0⟩ rfl (by decide)
      (bufferOf [1, 2, 3, 4, 5, 6]) (bufferOf []) [0, 0] [2, 1] rfl rfl
      (by
        intro i hi _
        have h2 : i < 2 := hi
        interval_cases i <;> decide)
      (by
        intro i hi _
        have h2 : i < 2 := hi
        interval_cases i <;> decide)
      (by
        intro i hi
        have h2 : i < 2 := hi
        interval_cases i <;> decide)
      (by
        intro i hi hst
        have h2 : i < 2 := hi
        interval_cases i <;> exact absurd hst (by decide))
  have hN : N = 6 := by
    have h6 : (N : Int) = 6 := by rw [h3]; decide
    exact_mod_cast h6
  subst hN
  refine ⟨g', out, h1, h2, ?_⟩
  show [out 0, out 1, out 2, out 3, out 4, out 5] = _
  rw [h4 0 (by omega), h4 1 (by omega), h4 2 (by omega), h4 3 (by omega),
    h4 4 (by omega), h4 5 (by omega)]
  rfl


theorem YkGridBase.layoutLoop_iff (g op : YkGridBase) (l : List Nat) :
    g.layoutLoop op l = true ↔
      ∀ i ∈ l, g.get_dim_name i = op.get_dim_name i ∧ g._allocs i = op._allocs i ∧
        g._domains i = op._domains i ∧ g._pads i = op._pads i := by
  induction l with
  | nil => simp [YkGridBase.layoutLoop]
  | cons i rest ih =>
    unfold YkGridBase.layoutLoop
    by_cases h1 : g.get_dim_name i = op.get_dim_name i
    · by_cases h2 : g._allocs i = op._allocs i
      · by_cases h3 : g._domains i = op._domains i
        · by_cases h4 : g._pads i = op._pads i
          · simp [h1, h2, h3, h4, ih]
          · simp [h1, h2, h3, h4]
        · simp [h1, h2, h3]
      · simp [h1, h2]
    · simp [h1]

/-- C17: `is_storage_layout_identical(other)` returns true iff the two grids have
the same number of storage bytes, the same number of dimensions, the same
dimension name at every position, and equal allocation size, domain size and pad
size in every dimension. The call yields a boolean only: neither grid is
written. -/
theorem C17_is_storage_layout_identical (get_num_storage_bytes : YkGridBase → Nat)
    (g op : YkGridBase) :
    g.is_storage_layout_identical get_num_storage_bytes op = true ↔
      get_num_storage_bytes g = get_num_storage_bytes op ∧
      g.get_num_dims = op.get_num_dims ∧
      ∀ i, i < g.get_num_dims →
        g.get_dim_name i = op.get_dim_name i ∧ g._allocs i = op._allocs i ∧
          g._domains i = op._domains i ∧ g._pads i = op._pads i := by
  unfold YkGridBase.is_storage_layout_identical
  by_cases h1 : get_num_storage_bytes g = get_num_storage_bytes op
  · by_cases h2 : g.get_num_dims = op.get_num_dims
    · simp only [h1, bne_self_eq_false, Bool.false_eq_true, if_false, true_and]
      rw [if_neg (by simp [h2]), YkGridBase.layoutLoop_iff]
      simp only [List.mem_range, h2, true_and]
    · simp [h1, h2]
  · simp [h1]


theorem YkGridBase.GET_GRID_API_ok_val (g : YkGridBase) (hnd : g.ggb_dims.getDimNames.Nodup)
    (a b c : Bool) (expr : YkGridBase → Nat → Int) (i : Nat) (hi : i < g.get_num_dims)
    (v : Int)
    (h : YkGridBase.GET_GRID_API a b c expr g (g.get_dim_name i) = Except.ok v) :
    v = expr g i := by
  have hl := g.lookup_posn_get_dim_name hnd i hi
  unfold YkGridBase.GET_GRID_API YkGridBase.get_dim_posn at h
  rw [hl] at h
  simp only at h
  split at h
  · cases h
  · cases h; rfl

theorem YkGridBase.shareCheckLoop_ok (g sp : YkGridBase) (l : List Nat)
    (h : g.shareCheckLoop sp l = Except.ok ()) :
    ∀ i ∈ l, g.shareCheckDim sp i = Except.ok () := by
  induction l with
  | nil => intro i hi; cases hi
  | cons j rest ih =>
    unfold YkGridBase.shareCheckLoop at h
    intro i hi
    cases hj : g.shareCheckDim sp j with
    | error e => rw [hj] at h; cases h
    | ok u =>
      rw [hj] at h
      rcases List.mem_cons.1 hi with rfl | hr
      · exact hj
      · exact ih h i hr

theorem YkGridBase.shareCheckDim_names (g sp : YkGridBase) (i : Nat)
    (h : g.shareCheckDim sp i = Except.ok ()) :
    sp.get_num_dims = g.get_num_dims ∧ sp.get_dim_name i = g.get_dim_name i := by
  unfold YkGridBase.shareCheckDim at h
  simp only at h
  by_cases h1 : sp.get_num_dims = g.get_num_dims
  · by_cases h2 : sp.get_dim_name i = g.get_dim_name i
    · exact ⟨h1, h2⟩
    · rw [if_pos (by simp [h2])] at h
      cases h
  · rw [if_pos (by simp [h1])] at h
    cases h

theorem Tuple.getDimNames_ext (a b : Tuple) (hn : a.getNumDims = b.getNumDims)
    (h : ∀ i, i < a.getNumDims → a.getDimName i = b.getDimName i) :
    a.getDimNames = b.getDimNames := by
  have la : a.getDimNames.length = a.getNumDims := by
    simp [Tuple.getDimNames, Tuple.getNumDims]
  have lb : b.getDimNames.length = b.getNumDims := by
    simp [Tuple.getDimNames, Tuple.getNumDims]
  apply List.ext_getElem (by rw [la, lb, hn])
  intro i h1 h2
  have := h i (by rw [← la]; exact h1)
  unfold Tuple.getDimName at this
  rw [List.getD_eq_getElem _ _ h1, List.getD_eq_getElem _ _ h2] at this
  exact this

/-- What a dimension that passes the checks of the first loop of `share_storage`
satisfies, for grids with the same unique names. -/
theorem YkGridBase.shareCheckDim_vals (g sp : YkGridBase)
    (hnd : g.ggb_dims.getDimNames.Nodup)
    (hnames : sp.ggb_dims.getDimNames = g.ggb_dims.getDimNames)
    (i : Nat) (hi : i < g.get_num_dims)
    (h : g.shareCheckDim sp i = Except.ok ()) :
    ((g._dims._domain_dims.lookup (g.get_dim_name i)).isSome = false →
        g._allocs i = sp._allocs i) ∧
      ((g._dims._domain_dims.lookup (g.get_dim_name i)).isSome = true →
        g._domains i = sp._domains i ∧ g._halos i ≤ sp._pads i) := by
  obtain ⟨hn, hname⟩ := g.shareCheckDim_names sp i h
  have hnds : sp.ggb_dims.getDimNames.Nodup := by rw [hnames]; exact hnd
  have his : i < sp.get_num_dims := by rw [hn]; exact hi
  unfold YkGridBase.shareCheckDim at h
  simp only at h
  rw [if_neg (by simp [hn, hname])] at h
  by_cases hd : (g._dims._domain_dims.lookup (g.get_dim_name i)).isSome = true
  · rw [if_neg (by simp [hd])] at h
    refine ⟨fun hf => absurd (hd.symm.trans hf) (by decide), fun _ => ?_⟩
    cases h1 : g.get_rank_domain_size (g.get_dim_name i) with
    | error e => rw [h1] at h; cases h
    | ok tdom =>
      rw [h1] at h
      simp only at h
      cases h2 : sp.get_rank_domain_size (g.get_dim_name i) with
      | error e => rw [h2] at h; cases h
      | ok sdom =>
        rw [h2] at h
        simp only at h
        by_cases hdom : tdom = sdom
        · rw [if_neg (by simp [hdom])] at h
          cases h3 : g.get_halo_size (g.get_dim_name i) with
          | error e => rw [h3] at h; cases h
          | ok thalo =>
            rw [h3] at h
            simp only at h
            cases h4 : sp.get_pad_size (g.get_dim_name i) with
            | error e => rw [h4] at h; cases h
            | ok spad =>
              rw [h4] at h
              simp only at h
              by_cases hp : thalo > spad
              · rw [if_pos hp] at h; cases h
              · have e1 := g.GET_GRID_API_ok_val hnd _ _ _ _ i hi _ h1
                have e3 := g.GET_GRID_API_ok_val hnd _ _ _ _ i hi _ h3
                rw [← hname] at h2 h4
                have e2 := sp.GET_GRID_API_ok_val hnds _ _ _ _ i his _ h2
                have e4 := sp.GET_GRID_API_ok_val hnds _ _ _ _ i his _ h4
                simp only at e1 e2 e3 e4
                subst e1 e2 e3 e4
                exact ⟨hdom, not_lt.1 hp⟩
        · rw [if_pos (by simp [hdom])] at h
          cases h
  · have hd2 : (g._dims._domain_dims.lookup (g.get_dim_name i)).isSome = false := by
      simpa using hd
    rw [if_pos (by simp [hd2])] at h
    refine ⟨fun _ => ?_, fun ht => absurd (hd2.symm.trans ht) (by decide)⟩
    cases h1 : g.get_alloc_size (g.get_dim_name i) with
    | error e => rw [h1] at h; cases h
    | ok tas =>
      rw [h1] at h
      simp only at h
      cases h2 : sp.get_alloc_size (g.get_dim_name i) with
      | error e => rw [h2] at h; cases h
      | ok sas =>
        rw [h2] at h
        simp only at h
        by_cases hs : tas = sas
        · have e1 := g.GET_GRID_API_ok_val hnd _ _ _ _ i hi _ h1
          rw [← hname] at h2
          have e2 := sp.GET_GRID_API_ok_val hnds _ _ _ _ i his _ h2
          simp only at e1 e2
          subst e1 e2
          exact hs
        · rw [if_pos (by simp [hs])] at h
          cases h

/-- A call of `share_storage` that returns has passed every check: the source
has storage, and in every dimension of the target the counts and the names
agree, the allocation sizes agree when the dimension is not a domain dimension,
and the domain sizes agree and the halo of the target is within the pad of the
source when it is one. The result is the grid after the copy of the pads, with
the storage of the source, and `share_data` has reported success on it. -/
theorem YkGridBase.share_storage_ok (accepts : YkGridBase → YkGridBase → Bool)
    (g sp g' : YkGridBase) (hnd : g.ggb_dims.getDimNames.Nodup)
    (h : g.share_storage accepts sp = Except.ok g') :
    sp.get_raw_storage_buffer = true ∧
      (∀ i, i < g.get_num_dims →
        sp.get_num_dims = g.get_num_dims ∧ sp.get_dim_name i = g.get_dim_name i ∧
        ((g._dims._domain_dims.lookup (g.get_dim_name i)).isSome = false →
          g._allocs i = sp._allocs i) ∧
        ((g._dims._domain_dims.lookup (g.get_dim_name i)).isSome = true →
          g._domains i = sp._domains i ∧ g._halos i ≤ sp._pads i)) ∧
      ∃ g1, YkGridBase.sharePadLoop sp (List.range g.get_num_dims) g = Except.ok g1 ∧
        accepts g1.release_storage sp = true ∧
        g' = { g1 with storage := sp.storage } := by
  unfold YkGridBase.share_storage at h
  by_cases hs : sp.get_raw_storage_buffer = true
  · rw [if_neg (by simp [hs])] at h
    cases hc : g.shareCheckLoop sp (List.range g.get_num_dims) with
    | error e => rw [hc] at h; cases h
    | ok u =>
      rw [hc] at h
      simp only at h
      have hall := g.shareCheckLoop_ok sp _ hc
      refine ⟨hs, ?_, ?_⟩
      · intro i hi
        have hnm : ∀ j, j < g.get_num_dims →
            sp.get_num_dims = g.get_num_dims ∧ sp.get_dim_name j = g.get_dim_name j :=
          fun j hj => g.shareCheckDim_names sp j (hall j (List.mem_range.2 hj))
        have hnames : sp.ggb_dims.getDimNames = g.ggb_dims.getDimNames :=
          Tuple.getDimNames_ext _ _ (hnm i hi).1
            (fun j hj => (hnm j (by rw [← (hnm i hi).1]; exact hj)).2)
        exact ⟨(hnm i hi).1, (hnm i hi).2,
          g.shareCheckDim_vals sp hnd hnames i hi (hall i (List.mem_range.2 hi))⟩
      · cases hp : YkGridBase.sharePadLoop sp (List.range g.get_num_dims) g with
        | error e => rw [hp] at h; cases h
        | ok g1 =>
          rw [hp] at h
          simp only [YkGridBase.share_data] at h
          cases ha : accepts g1.release_storage sp with
          | false =>
            rw [ha] at h
            simp only [Bool.false_eq_true, if_false, Bool.not_false, if_true] at h
            cases h
          | true =>
            rw [ha] at h
            simp only [if_true, Bool.not_true, Bool.false_eq_true, if_false] at h
            cases h
            exact ⟨g1, rfl, ha, rfl⟩
  · rw [if_pos (by simp [hs])] at h
    cases h

/-- For a target with at least one dimension and unique names, `share_storage`
ends in a fatal exit whenever the source has no storage, the dimension counts
differ, or some dimension of the target has another name in the source, differs
in allocation size while not a domain dimension, or, being a domain dimension,
differs in domain size or has a halo above the pad of the source, whatever
`share_data` would report. -/
theorem YkGridBase.share_storage_rejects (accepts : YkGridBase → YkGridBase → Bool)
    (g sp : YkGridBase)
    (hnd : g.ggb_dims.getDimNames.Nodup) (hn : 0 < g.get_num_dims)
    (hv : sp.get_raw_storage_buffer = false ∨ sp.get_num_dims ≠ g.get_num_dims ∨
      ∃ i, i < g.get_num_dims ∧
        (sp.get_dim_name i ≠ g.get_dim_name i ∨
          ((g._dims._domain_dims.lookup (g.get_dim_name i)).isSome = false ∧
            g._allocs i ≠ sp._allocs i) ∨
          ((g._dims._domain_dims.lookup (g.get_dim_name i)).isSome = true ∧
            (g._domains i ≠ sp._domains i ∨ sp._pads i < g._halos i)))) :
    ∃ e, g.share_storage accepts sp = Except.error e := by
  cases h : g.share_storage accepts sp with
  | error e => exact ⟨e, rfl⟩
  | ok g' =>
    exfalso
    obtain ⟨hs, hall, _⟩ := YkGridBase.share_storage_ok accepts g sp g' hnd h
    rcases hv with h1 | h1 | ⟨i, hi, h1 | ⟨hd, h1⟩ | ⟨hd, h1 | h1⟩⟩
    · rw [hs] at h1; cases h1
    · exact h1 (hall 0 hn).1
    · exact h1 (hall i hi).2.1
    · exact h1 ((hall i hi).2.2.1 hd)
    · exact h1 ((hall i hi).2.2.2 hd).1
    · exact absurd ((hall i hi).2.2.2 hd).2 (not_le.2 h1)

/-- A target without dimensions: the loops of `share_storage` over the
dimensions of the target make no pass, so no check compares the two grids, and
the comparison of the dimension counts, which sits inside the first loop, is
not made; with a source that has storage the call goes on to `share_data`, and
it ends in a fatal exit exactly when `share_data` reports failure. -/
theorem YkGridBase.share_storage_zero_dims (accepts : YkGridBase → YkGridBase → Bool)
    (g sp : YkGridBase) (hn : g.get_num_dims = 0)
    (hs : sp.get_raw_storage_buffer = true) :
    g.shareCheckLoop sp (List.range g.get_num_dims) = Except.ok () ∧
      YkGridBase.sharePadLoop sp (List.range g.get_num_dims) g = Except.ok g ∧
      g.share_storage accepts sp
        = if accepts g.release_storage sp = true
          then Except.ok { g with storage := sp.storage }
          else Except.error (Fatal.shareData, g.release_storage) := by
  refine ⟨by rw [hn]; rfl, by rw [hn]; rfl, ?_⟩
  unfold YkGridBase.share_storage
  rw [if_neg (by simp [hs]), hn]
  show (if (!(g.release_storage.share_data accepts sp).1) = true
      then Except.error (Fatal.shareData, (g.release_storage.share_data accepts sp).2)
      else Except.ok (g.release_storage.share_data accepts sp).2) = _
  unfold YkGridBase.share_data
  cases ha : accepts g.release_storage sp with
  | false => rfl
  | true => rfl

/-- C19 (failing inputs): `gridT` (dimensions `t`, `x`, storage attached) as
target of a source with the same metadata passes every check of the first loop,
and `share_storage` ends in the fatal exit of the kind check, since the second
loop calls `get_pad_size`, a getter for domain dimensions only, on the step
dimension `t`. `gridC` (dimensions `x`, `y`, storage attached, no pad) as target
of `gridP` (pad 1 in `x`) passes every check, and `share_storage` ends in the
fatal exit of `resize()`, since the pads are copied while the storage of the
target is still attached. Both exits are taken before `share_data` is called,
whatever it would report; the same target without storage succeeds when
`share_data` does. -/
theorem C19_share_storage_fails_on_valid_pairs :
    (gridT.get_raw_storage_buffer = true ∧
      gridT.shareCheckLoop gridT (List.range gridT.get_num_dims) = Except.ok () ∧
      ∀ accepts : YkGridBase → YkGridBase → Bool,
        gridT.share_storage accepts gridT = Except.error (Fatal.dimKind, gridT)) ∧
    (gridP.get_raw_storage_buffer = true ∧ gridC.get_raw_storage_buffer = true ∧
      gridC.shareCheckLoop gridP (List.range gridC.get_num_dims) = Except.ok () ∧
      ∃ s, ∀ accepts : YkGridBase → YkGridBase → Bool,
        gridC.share_storage accepts gridP = Except.error (Fatal.resizeAfterAlloc, s)) ∧
    (gridCn.get_raw_storage_buffer = false ∧
      ∃ g', gridCn.share_storage (fun _ _ => true) gridP = Except.ok g') :=
  ⟨⟨rfl, rfl, fun _ => rfl⟩, ⟨rfl, rfl, rfl, _, fun _ => rfl⟩, ⟨rfl, _, rfl⟩⟩

theorem Dims.checkDimType_eq (d : Dims) (dim : String) (a b c : Bool) :
    d.checkDimType dim a b c
      = if (d.kind dim).allowed a b c = true then Except.ok () else Except.error Fatal.dimKind := by
  unfold Dims.checkDimType
  cases d.kind dim <;> simp only [DimKind.allowed]

theorem YkGridBase.checkDimType_ok_iff (g : YkGridBase) (dim : String) (a b c : Bool) :
    g.checkDimType dim a b c = Except.ok () ↔
      g.is_dim_used dim = true ∧ (g._dims.kind dim).allowed a b c = true := by
  unfold YkGridBase.checkDimType
  rw [Dims.checkDimType_eq]
  cases hu : g.is_dim_used dim <;> cases hk : (g._dims.kind dim).allowed a b c <;> simp

/-- The macro `GET_GRID_API` in full: the value of the expression at the
position of the name when the dimension is used and of an accepted kind, a fatal
exit of the dimension checks otherwise. -/
theorem YkGridBase.GET_GRID_API_eq (g : YkGridBase) (dim : String) (a b c : Bool)
    (expr : YkGridBase → Nat → Int) :
    (g.is_dim_used dim = true ∧ (g._dims.kind dim).allowed a b c = true →
        YkGridBase.GET_GRID_API a b c expr g dim
          = Except.ok (expr g ((g.ggb_dims.lookup_posn dim).getD 0))) ∧
      (¬ (g.is_dim_used dim = true ∧ (g._dims.kind dim).allowed a b c = true) →
        ∃ e, YkGridBase.GET_GRID_API a b c expr g dim = Except.error e ∧
          (e = Fatal.dimNotFound ∨ e = Fatal.dimKind)) := by
  unfold YkGridBase.GET_GRID_API YkGridBase.get_dim_posn
  cases hl : g.ggb_dims.lookup_posn dim with
  | none =>
    have hu : g.is_dim_used dim = false := by
      unfold YkGridBase.is_dim_used; rw [hl]; rfl
    refine ⟨fun h => ?_, fun _ => ⟨Fatal.dimNotFound, rfl, Or.inl rfl⟩⟩
    rw [hu] at h
    exact absurd h.1 (by decide)
  | some p =>
    have hu : g.is_dim_used dim = true := by
      unfold YkGridBase.is_dim_used; rw [hl]; rfl
    simp only
    cases hk : (g._dims.kind dim).allowed a b c with
    | true =>
      have hc := (g.checkDimType_ok_iff dim a b c).2 ⟨hu, hk⟩
      rw [hc]
      exact ⟨fun _ => rfl, fun h => absurd ⟨hu, rfl⟩ h⟩
    | false =>
      have hc : g.checkDimType dim a b c = Except.error Fatal.dimKind := by
        unfold YkGridBase.checkDimType
        rw [hu, Dims.checkDimType_eq, hk]
        rfl
      rw [hc]
      exact ⟨fun h => absurd h.2 (by decide), fun _ => ⟨_, rfl, Or.inr rfl⟩⟩

theorem GetterCall.run_eq_api (c : GetterCall) (g : YkGridBase) (dim : String) :
    ∃ a b k, c.run g dim = YkGridBase.GET_GRID_API a b k (c.value) g dim ∧
      ∀ kind : DimKind, kind.allowed a b k = c.accepts kind := by
  cases c
  all_goals first
    | exact ⟨false, true, false, rfl, fun kind => by cases kind <;> rfl⟩
    | exact ⟨false, false, true, rfl, fun kind => by cases kind <;> rfl⟩
    | exact ⟨true, true, true, rfl, fun kind => by cases kind <;> rfl⟩

theorem SetterCall.accepted_iff (c : SetterCall) (g : YkGridBase) :
    c.accepted g ↔ g.is_dim_used c.dim = true ∧ c.accepts (g._dims.kind c.dim) = true := by
  unfold SetterCall.accepted
  rw [YkGridBase.checkDimType_ok_iff]
  have : ∀ kind : DimKind,
      kind.allowed c.kinds.1 c.kinds.2.1 c.kinds.2.2 = c.accepts kind := by
    intro kind
    cases c <;> cases kind <;> rfl
  rw [this]

theorem SetterCall.error_of_accepted (c : SetterCall) (g : YkGridBase) (h : c.accepted g)
    (e : Fatal) (s : YkGridBase) (he : c.run g = Except.error (e, s)) :
    e = Fatal.resizeAfterAlloc := by
  rw [c.run_eq g h] at he
  split at he
  · rw [YkGridBase.resize_eq] at he
    split at he
    · cases he; rfl
    · cases he
  · cases he

/-- C24 as stated fails for the setters: `x` is used in `gridC` and is a domain
dimension, the kind `set_halo_size` accepts, and `set_halo_size("x", 1)` ends in
a fatal exit all the same, the one of `resize()` (storage is attached and the
new halo raises the pad, hence the size). -/
theorem C24_setter_fails_in_resize :
    gridC.is_dim_used "x" = true ∧ gridC._dims.kind "x" = DimKind.domain ∧
      (SetterCall.set_halo_size "x" 1).accepts (gridC._dims.kind "x") = true ∧
      ∃ s, gridC.set_halo_size "x" 1 = Except.error (Fatal.resizeAfterAlloc, s) :=
  ⟨rfl, rfl, rfl, _, rfl⟩

/-- C24, amended: every getter generated by `GET_GRID_API` ends in a fatal exit
iff the named dimension is not used in the grid or its kind is not one the
getter accepts (domain only for the domain getters, misc only for the misc-index
getters, every kind for `get_alloc_size`), and on a legal call returns the
documented expression at the position of the dimension. Every setter generated
by `SET_GRID_API` ends in the fatal exit of its entry check, the grid untouched,
iff the named dimension is not used or its kind is not one the setter accepts
(domain only for `set_halo_size`, `set_min_pad_size`, `set_extra_pad_size`; misc
only for `set_first_misc_index`); on a legal call it runs its expression, whose
only fatal exit is the one of `resize()`; `set_first_misc_index`, which does not
reach `resize()`, fails iff the entry check fails. -/
theorem C24_accessor_kinds (g : YkGridBase) (dim : String) :
    (∀ c : GetterCall,
      ((∃ e, c.run g dim = Except.error e) ↔
        ¬ (g.is_dim_used dim = true ∧ c.accepts (g._dims.kind dim) = true)) ∧
      (g.is_dim_used dim = true ∧ c.accepts (g._dims.kind dim) = true →
        c.run g dim = Except.ok (c.value g ((g.ggb_dims.lookup_posn dim).getD 0)))) ∧
    (∀ c : SetterCall, c.dim = dim →
      ((∃ e, c.run g = Except.error (e, g) ∧ e ≠ Fatal.resizeAfterAlloc) ↔
        ¬ (g.is_dim_used dim = true ∧ c.accepts (g._dims.kind dim) = true)) ∧
      (g.is_dim_used dim = true ∧ c.accepts (g._dims.kind dim) = true →
        (c.run g = if c.runsResize g then (c.assign g).resize else Except.ok (c.assign g)) ∧
        ∀ e s, c.run g = Except.error (e, s) → e = Fatal.resizeAfterAlloc)) ∧
    (∀ n : Int,
      (∃ e, g.set_first_misc_index dim n = Except.error e) ↔
        ¬ (g.is_dim_used dim = true ∧ g._dims.kind dim = DimKind.misc)) := by
  refine ⟨fun c => ?_, fun c hd => ?_, fun n => ?_⟩
  · obtain ⟨a, b, k, hrun, hacc⟩ := c.run_eq_api g dim
    obtain ⟨h1, h2⟩ := g.GET_GRID_API_eq dim a b k c.value
    rw [hacc] at h1 h2
    rw [hrun]
    refine ⟨⟨fun ⟨e, he⟩ hok => ?_, fun hn => ?_⟩, h1⟩
    · rw [h1 hok] at he; cases he
    · obtain ⟨e, he, _⟩ := h2 hn
      exact ⟨e, he⟩
  · subst hd
    rw [← c.accepted_iff g]
    refine ⟨⟨fun ⟨e, he, hne⟩ hacc => hne (c.error_of_accepted g hacc e g he),
      fun hn => c.run_of_not_accepted g hn⟩, fun hacc => ⟨c.run_eq g hacc, ?_⟩⟩
    intro e s he
    exact c.error_of_accepted g hacc e s he
  · have hacc := (SetterCall.set_first_misc_index dim n).accepted_iff g
    have hk : (SetterCall.set_first_misc_index dim n).accepts (g._dims.kind dim) = true ↔
        g._dims.kind dim = DimKind.misc := by
      show decide (g._dims.kind dim = DimKind.misc) = true ↔ _
      exact decide_eq_true_iff
    have hd : (SetterCall.set_first_misc_index dim n).dim = dim := rfl
    rw [hd, hk] at hacc
    rw [← hacc]
    constructor
    · rintro ⟨e, he⟩ h
      have hr := (SetterCall.set_first_misc_index dim n).run_eq g h
      have hr2 : g.set_first_misc_index dim n
          = Except.ok ((SetterCall.set_first_misc_index dim n).assign g) := hr
      rw [hr2] at he
      cases he
    · intro hn
      obtain ⟨e, he, _⟩ := (SetterCall.set_first_misc_index dim n).run_of_not_accepted g hn
      exact ⟨(e, g), he⟩

/-- C25 as stated fails: in `gridTn` (dimensions `t`, `x`, no storage) the step
dimension `t` gets domain size 3 through `set_alloc_size` and through
`_set_domain_size`, both of which return, while `set_alloc_size` on the domain
dimension `x` ends in the fatal exit of the kind check. -/
theorem C25_step_domain_size_accepted :
    gridTn._dims.kind "t" = DimKind.step ∧
      (∃ g', gridTn.set_alloc_size "t" 3 = Except.ok g' ∧
        g'._domains 0 = 3 ∧ g'._allocs 0 = 3) ∧
      (∃ g', gridTn._set_domain_size "t" 3 = Except.ok g' ∧
        g'._domains 0 = 3 ∧ g'._allocs 0 = 3) ∧
      gridTn._dims.kind "x" = DimKind.domain ∧
      gridTn.set_alloc_size "x" 4 = Except.error (Fatal.dimKind, gridTn) :=
  ⟨rfl, ⟨_, rfl, rfl, rfl⟩, ⟨_, rfl, rfl, rfl⟩, rfl, rfl⟩

/-- C25, amended: for a dimension used in the grid, at position `posn`:
`set_alloc_size(dim, n)` is a fatal dimension-kind error, the grid untouched,
when the dimension is a domain dimension, and is accepted for a step or a misc
dimension; `_set_domain_size(dim, n)` is accepted for every kind. An accepted
call writes `_domains[posn] = n` and runs `resize()`. -/
theorem C25_domain_size_kinds (g : YkGridBase) (dim : String) (n : Int) :
    g.is_dim_used dim = true →
      (g._dims.kind dim = DimKind.domain →
        g.set_alloc_size dim n = Except.error (Fatal.dimKind, g)) ∧
      (g._dims.kind dim ≠ DimKind.domain →
        g.set_alloc_size dim n
          = YkGridBase.resize
              { g with
                _domains :=
                  Function.update g._domains ((g.ggb_dims.lookup_posn dim).getD 0) n }) ∧
      g._set_domain_size dim n
        = YkGridBase.resize
            { g with
              _domains :=
                Function.update g._domains ((g.ggb_dims.lookup_posn dim).getD 0) n } := by
  intro hu
  refine ⟨fun hk => ?_, fun hk => ?_, ?_⟩
  · unfold YkGridBase.set_alloc_size YkGridBase.SET_GRID_API
    rw [g.get_dim_posn_of_used dim hu]
    have hc : g.checkDimType dim true false true = Except.error Fatal.dimKind := by
      unfold YkGridBase.checkDimType
      rw [hu, Dims.checkDimType_eq, hk]
      rfl
    simp only [hc]
  · have hacc : (SetterCall.set_alloc_size dim n).accepted g := by
      rw [SetterCall.accepted_iff]
      refine ⟨hu, ?_⟩
      show decide (g._dims.kind dim ≠ DimKind.domain) = true
      exact decide_eq_true hk
    exact (SetterCall.set_alloc_size dim n).run_eq g hacc
  · have hacc : (SetterCall._set_domain_size dim n).accepted g := by
      rw [SetterCall.accepted_iff]
      exact ⟨hu, rfl⟩
    exact (SetterCall._set_domain_size dim n).run_eq g hacc

/-- C25 at `gridTn`: `t` is used and is the step dimension, so
`set_alloc_size("t", 3)` is the `resize()` of the grid with domain 3 in `t`. -/
theorem C25_domain_size_kinds_witness :
    gridTn.is_dim_used "t" = true ∧ gridTn._dims.kind "t" ≠ DimKind.domain ∧
      gridTn.set_alloc_size "t" 3
        = YkGridBase.resize
            { gridTn with
              _domains :=
                Function.update gridTn._domains
                  ((gridTn.ggb_dims.lookup_posn "t").getD 0) 3 } :=
  ⟨rfl, by decide, ((C25_domain_size_kinds gridTn "t" 3 rfl).2.1 (by decide))⟩

/-- C30 (failing input): on `gridXY` (`x` allowed `0 .. 2`, `y` allowed `0 .. 1`,
six elements at positions `0 .. 5`), `set_elements_in_slice_same(7, (0, 0),
(3, 1), false)`: `checkIndices` reports `last` out of range and leaves the
clamped copy `(2, 1)` in its output, whose region from `(0, 0)` has 6 points;
the call returns 8, the number of points of the region up to the unclamped
`(3, 1)`; the coordinate `(3, 0)` of that region does not pass `checkIndices`,
and the write for `(3, 1)` lands at position 6, beyond the six elements
allocated. -/
theorem C30_slice_same_region_not_clamped :
    gridXY.checkIndices [0, 0] false true = Except.ok (true, some [0, 0]) ∧
      gridXY.checkIndices [3, 1] false true = Except.ok (false, some [2, 1]) ∧
      (gridXY.numElemsTuple [0, 0] [2, 1]).product = 6 ∧
      gridXY.get_allocs.product = 6 ∧
      gridXY.checkIndices [3, 0] false false = Except.ok (false, none) ∧
      gridXY.elemPosn (Indices.ofList [3, 1]) = 6 ∧
      ∃ g' s', gridXY.set_elements_in_slice_same 7 [0, 0] [3, 1] false
          = Except.ok (8, g') ∧
        g'.storage = some s' ∧ s'.elems 6 = 7 :=
  ⟨rfl, rfl, rfl, rfl, rfl, rfl, _, _, rfl, rfl, rfl⟩


theorem YkGridBase.positionalIdx_eq (n : Nat) (i1 i2 i3 i4 i5 i6 : Int) :
    YkGridBase.positionalIdx n i1 i2 i3 i4 i5 i6
      = YkGridBase.firstIndices n i1 i2 i3 i4 i5 i6 := by
  unfold YkGridBase.positionalIdx YkGridBase.firstIndices
  match n with
  | 0 => rfl
  | 1 => rfl
  | 2 => rfl
  | 3 => rfl
  | 4 => rfl
  | 5 => rfl
  | 6 => rfl
  | k + 7 =>
    have h1 : k + 7 ≥ 1 := by omega
    have h2 : k + 7 ≥ 2 := by omega
    have h3 : k + 7 ≥ 3 := by omega
    have h4 : k + 7 ≥ 4 := by omega
    have h5 : k + 7 ≥ 5 := by omega
    have h6 : k + 7 ≥ 6 := by omega
    simp only [h1, h2, h3, h4, h5, h6, if_true, List.nil_append, List.cons_append]
    rfl

theorem YkGridBase.checkIndices_wrong_length (g : YkGridBase) (indices : GridIndices)
    (strict fixed_indices : Bool) (h : indices.length ≠ g.get_num_dims) :
    g.checkIndices indices strict fixed_indices = Except.error Fatal.numIndices := by
  unfold YkGridBase.checkIndices
  simp [h]

/-- C26: the positional forms `get_element(i1 .. i6)` and
`set_element(val, i1 .. i6)` are the list forms applied to the first `n` of the
six indices, `n` the number of dimensions of the grid, `set_element` with
non-strict checking. For `n <= 6` that list has one index per dimension, in
declared order. For `n > 6` it has six indices only, and on a grid with storage
both forms end in the fatal exit for a wrong number of indices. -/
theorem C26_positional_forms (g : YkGridBase) (val : real_t) (i1 i2 i3 i4 i5 i6 : Int) :
    g.get_element6 i1 i2 i3 i4 i5 i6
        = g.get_element (YkGridBase.firstIndices g.get_num_dims i1 i2 i3 i4 i5 i6) ∧
      g.set_element6 val i1 i2 i3 i4 i5 i6
        = g.set_element val (YkGridBase.firstIndices g.get_num_dims i1 i2 i3 i4 i5 i6)
            false ∧
      (g.get_num_dims ≤ 6 →
        (YkGridBase.firstIndices g.get_num_dims i1 i2 i3 i4 i5 i6).length = g.get_num_dims ∧
        ∀ k, k < g.get_num_dims →
          (YkGridBase.firstIndices g.get_num_dims i1 i2 i3 i4 i5 i6).getD k 0
            = [i1, i2, i3, i4, i5, i6].getD k 0) ∧
      (6 < g.get_num_dims → g.storage.isSome = true →
        g.get_element6 i1 i2 i3 i4 i5 i6 = Except.error Fatal.numIndices ∧
        g.set_element6 val i1 i2 i3 i4 i5 i6 = Except.error (Fatal.numIndices, g)) := by
  have hp := YkGridBase.positionalIdx_eq g.get_num_dims i1 i2 i3 i4 i5 i6
  refine ⟨?_, ?_, fun hn => ⟨?_, fun k hk => ?_⟩, fun hn hs => ?_⟩
  · unfold YkGridBase.get_element6
    rw [hp]
  · unfold YkGridBase.set_element6
    rw [hp]
  · unfold YkGridBase.firstIndices
    rw [List.length_take]
    simp only [List.length_cons, List.length_nil]
    omega
  · unfold YkGridBase.firstIndices
    rw [List.getD_eq_getElem?_getD, List.getD_eq_getElem?_getD, List.getElem?_take_of_lt hk]
  · have hlen : (YkGridBase.firstIndices g.get_num_dims i1 i2 i3 i4 i5 i6).length
        ≠ g.get_num_dims := by
      unfold YkGridBase.firstIndices
      rw [List.length_take]
      simp only [List.length_cons, List.length_nil]
      omega
    obtain ⟨s, hs2⟩ := Option.isSome_iff_exists.1 hs
    unfold YkGridBase.get_element6 YkGridBase.set_element6
    rw [hp]
    unfold YkGridBase.get_element YkGridBase.set_element
    rw [hs2]
    rw [g.checkIndices_wrong_length _ true false hlen,
      g.checkIndices_wrong_length _ false false hlen]
    exact ⟨rfl, rfl⟩

/-- C26 at `grid7`, seven dimensions with storage: both positional forms end in
the fatal exit for a wrong number of indices. -/
theorem C26_positional_forms_witness :
    6 < grid7.get_num_dims ∧ grid7.storage.isSome = true ∧
      grid7.get_element6 0 0 0 0 0 0 = Except.error Fatal.numIndices ∧
      grid7.set_element6 5 0 0 0 0 0 0 = Except.error (Fatal.numIndices, grid7) :=
  ⟨by decide, rfl, (C26_positional_forms grid7 5 0 0 0 0 0 0).2.2.2 (by decide) rfl⟩


/-- The pass of the loop of `parseOpts` on the option `-max-es` with a value:
`maxExprSize` is set, and the chain that follows, which starts with a new `if`,
ends in the branch for an option that is not recognized. -/
theorem parseLoop_max_es (env : ParseEnv) (argop : String) (rest : List String) (o : Opts) :
    parseLoop env ("-max-es" :: argop :: rest) o
      = Except.error
          (UsageExit.notRecognized "-max-es", { o with maxExprSize := env.atoi argop }) :=
  rfl

/-- Arguments that the loop of `parseOpts` consumes entirely leave the loop at
the arguments that follow them. -/
theorem parseLoop_append (env : ParseEnv) (l : List String) (n : Nat) :
    ∀ (pre : List String) (o o' : Opts), pre.length = n →
      parseLoop env pre o = Except.ok (o', []) →
      parseLoop env (pre ++ l) o = parseLoop env l o' := by
  induction n using Nat.strong_induction_on with
  | _ n ih =>
    intro pre o o' hn h
    match pre, hn, h with
    | [], _, h =>
      rw [parseLoop.eq_1] at h
      cases h
      rfl
    | [arg], _, h =>
      rw [parseLoop.eq_2] at h
      have hopt : isOption arg = true := by
        by_contra hopt
        rw [if_neg hopt] at h
        cases h
      rw [if_pos hopt] at h
      have hgoal : parseLoop env (arg :: l) o
          = match flagOption arg o with
            | some (Except.error e) => Except.error (e, o)
            | some (Except.ok o1) => parseLoop env l o1
            | none =>
              match l with
              | [] => Except.error (UsageExit.valueMissing arg, o)
              | argop :: rest1 =>
                match valueOption env arg argop o with
                | Except.error e => Except.error e
                | Except.ok o1 => parseLoop env rest1 o1 := by
        cases l with
        | nil => rw [parseLoop.eq_2, if_pos hopt]
        | cons b l1 => rw [parseLoop.eq_3, if_pos hopt]
      rw [List.singleton_append, hgoal]
      cases hf : flagOption arg o with
      | some r =>
        cases r with
        | error e => rw [hf] at h; cases h
        | ok o1 =>
          rw [hf] at h
          simp only at h ⊢
          rw [parseLoop.eq_1] at h
          cases h
          rfl
      | none => rw [hf] at h; cases h
    | arg :: argop :: rest1, hn, h =>
      rw [parseLoop.eq_3] at h
      have hopt : isOption arg = true := by
        by_contra hopt
        rw [if_neg hopt] at h
        cases h
      rw [if_pos hopt] at h
      rw [List.cons_append, List.cons_append, parseLoop.eq_3, if_pos hopt]
      cases hf : flagOption arg o with
      | some r =>
        cases r with
        | error e => rw [hf] at h; cases h
        | ok o1 =>
          rw [hf] at h
          simp only at h ⊢
          have := ih (argop :: rest1).length (by rw [← hn]; simp) (argop :: rest1) o1 o' rfl h
          rw [List.cons_append] at this
          exact this
      | none =>
        rw [hf] at h
        simp only at h ⊢
        cases hv : valueOption env arg argop o with
        | error e => rw [hv] at h; cases h
        | ok o1 =>
          rw [hv] at h
          simp only at h ⊢
          exact ih rest1.length (by rw [← hn]; simp; omega) rest1 o1 o' rfl h

/-- C29 (failing inputs): for every command line in which the option pair
`-max-es <n>` follows arguments that the option loop has consumed (such as
`-st <name>`), `parseOpts` sets `maxExprSize` to `atoi(<n>)` and then takes the
error path for an option that is not recognized, which ends the program in
`usage()`: no such command line is accepted. -/
theorem C29_max_es_not_recognized (env : ParseEnv) (cmd : String) (pre : List String)
    (argop : String) (rest : List String) (o o' : Opts)
    (hpre : parseLoop env pre o = Except.ok (o', [])) :
    parseOpts env (cmd :: (pre ++ "-max-es" :: argop :: rest)) o
      = Except.error
          (UsageExit.notRecognized "-max-es", { o' with maxExprSize := env.atoi argop }) := by
  have hl : parseLoop env (pre ++ "-max-es" :: argop :: rest) o
      = Except.error
          (UsageExit.notRecognized "-max-es", { o' with maxExprSize := env.atoi argop }) := by
    rw [parseLoop_append env _ pre.length pre o o' rfl hpre]
    exact parseLoop_max_es env argop rest o'
  match hp : pre ++ "-max-es" :: argop :: rest with
  | [] => cases pre <;> cases hp
  | arg :: args =>
    rw [hp] at hl
    unfold parseOpts
    simp only [hl]

/-- C29 on the command line `foldBuilder -st iso3dfd -max-es 10`, with `iso3dfd`
registered: the options `-st iso3dfd` are consumed, and the call ends in the
error path for an option that is not recognized, with `maxExprSize` set to 10;
the same command line with `-min-es` is accepted. -/
theorem C29_max_es_not_recognized_witness :
    parseLoop exampleEnv ["-st", "iso3dfd"] Opts.init
        = Except.ok ({ Opts.init with shapeName := "iso3dfd" }, []) ∧
      parseOpts exampleEnv ["foldBuilder", "-st", "iso3dfd", "-max-es", "10"] Opts.init
        = Except.error
            (UsageExit.notRecognized "-max-es",
              { Opts.init with shapeName := "iso3dfd", maxExprSize := 10 }) ∧
      parseOpts exampleEnv ["foldBuilder", "-st", "iso3dfd", "-min-es", "10"] Opts.init
        = Except.ok
            { Opts.init with
              shapeName := "iso3dfd", stencilFunc := some "iso3dfd", minExprSize := 10 } :=
  ⟨rfl,
    C29_max_es_not_recognized exampleEnv "foldBuilder" ["-st", "iso3dfd"] "10" [] Opts.init
      { Opts.init with shapeName := "iso3dfd" } rfl,
    rfl⟩


theorem Tuple.lexLt_irrefl (l : List Int) : Tuple.lexLt l l = false := by
  induction l with
  | nil => rfl
  | cons a l ih => simp [Tuple.lexLt, ih]

theorem Tuple.lexLt_append (p : List Int) (x y : Int) (s s' : List Int) (h : y < x) :
    Tuple.lexLt (p ++ y :: s) (p ++ x :: s') = true ∧
      Tuple.lexLt (p ++ x :: s') (p ++ y :: s) = false := by
  induction p with
  | nil =>
    have h2 : ¬ x < y := by omega
    simp [Tuple.lexLt, h, h2]
  | cons a p ih => simp [Tuple.lexLt, ih]

/-- C27 as stated fails in the order of the spec, which compares the products
first: `(x=3, y=-1)` has a strictly greater value in `x` than `(x=2, y=-1)` and
the same value in `y`, but its product `-3` is the smaller one, so it compares
less, not greater. -/
theorem C27_greater_value_compares_less :
    Tuple.gt ⟨[("x", 3), ("y", -1)], true⟩ ⟨[("x", 2), ("y", -1)], true⟩ = false ∧
      Tuple.lt ⟨[("x", 3), ("y", -1)], true⟩ ⟨[("x", 2), ("y", -1)], true⟩ = true := by
  decide

/-- C27, amended: a tuple with more dimensions compares greater than one with
fewer (and that one less), whatever the values; for two tuples over the same
dimensions in the same order where one has a strictly greater value in one
dimension and equal values in the others, and those other values are not
negative, that one compares greater and the other compares less, and not the
reverse; a copy of a tuple compares equal to it, and neither less nor greater. -/
theorem C27_tuple_ordering :
    (∀ a b : Tuple, a.getNumDims < b.getNumDims →
      b.gt a = true ∧ a.lt b = true ∧ a.gt b = false ∧ b.lt a = false) ∧
    (∀ (pre suf : List (String × Int)) (d : String) (x y : Int) (f f' : Bool),
      y < x → (∀ p ∈ pre ++ suf, 0 ≤ p.2) →
      Tuple.gt ⟨pre ++ (d, x) :: suf, f⟩ ⟨pre ++ (d, y) :: suf, f'⟩ = true ∧
      Tuple.lt ⟨pre ++ (d, y) :: suf, f'⟩ ⟨pre ++ (d, x) :: suf, f⟩ = true ∧
      Tuple.lt ⟨pre ++ (d, x) :: suf, f⟩ ⟨pre ++ (d, y) :: suf, f'⟩ = false ∧
      Tuple.gt ⟨pre ++ (d, y) :: suf, f'⟩ ⟨pre ++ (d, x) :: suf, f⟩ = false ∧
      Tuple.eq ⟨pre ++ (d, x) :: suf, f⟩ ⟨pre ++ (d, y) :: suf, f'⟩ = false) ∧
    (∀ a : Tuple, a.eq a = true ∧ a.lt a = false ∧ a.gt a = false) := by
  refine ⟨fun a b h => ?_, fun pre suf d x y f f' hxy hpos => ?_, fun a => ?_⟩
  · have h2 : ¬ b.getNumDims < a.getNumDims := by omega
    have h3 : b.getNumDims > a.getNumDims := h
    simp [Tuple.gt, Tuple.lt, h, h2, h3]
  · have hP : 0 ≤ (pre.map Prod.snd).prod * (suf.map Prod.snd).prod := by
      apply mul_nonneg
      · apply List.prod_nonneg
        intro v hv
        obtain ⟨p, hp, rfl⟩ := List.mem_map.1 hv
        exact hpos p (List.mem_append_left _ hp)
      · apply List.prod_nonneg
        intro v hv
        obtain ⟨p, hp, rfl⟩ := List.mem_map.1 hv
        exact hpos p (List.mem_append_right _ hp)
    have hprod : ∀ (v : Int) (b : Bool), (Tuple.mk (pre ++ (d, v) :: suf) b).product
        = v * ((pre.map Prod.snd).prod * (suf.map Prod.snd).prod) := by
      intro v b
      simp only [Tuple.product, Tuple.getVals, List.map_append, List.map_cons, List.prod_append,
        List.prod_cons]
      ring
    have hle : (Tuple.mk (pre ++ (d, y) :: suf) f').product
        ≤ (Tuple.mk (pre ++ (d, x) :: suf) f).product := by
      rw [hprod, hprod]
      exact Int.mul_le_mul_of_nonneg_right (le_of_lt hxy) hP
    have hn : (Tuple.mk (pre ++ (d, x) :: suf) f).getNumDims
        = (Tuple.mk (pre ++ (d, y) :: suf) f').getNumDims := by
      simp [Tuple.getNumDims]
    have hnames : (Tuple.mk (pre ++ (d, x) :: suf) f).getDimNames
        = (Tuple.mk (pre ++ (d, y) :: suf) f').getDimNames := by
      simp [Tuple.getDimNames]
    have hvx : (Tuple.mk (pre ++ (d, x) :: suf) f).getVals
        = pre.map Prod.snd ++ x :: suf.map Prod.snd := by
      simp [Tuple.getVals]
    have hvy : (Tuple.mk (pre ++ (d, y) :: suf) f').getVals
        = pre.map Prod.snd ++ y :: suf.map Prod.snd := by
      simp [Tuple.getVals]
    obtain ⟨hl1, hl2⟩ := Tuple.lexLt_append (pre.map Prod.snd) x y (suf.map Prod.snd)
      (suf.map Prod.snd) hxy
    have hlt : Tuple.lt ⟨pre ++ (d, y) :: suf, f'⟩ ⟨pre ++ (d, x) :: suf, f⟩ = true := by
      unfold Tuple.lt
      rw [← hn, if_neg (lt_irrefl _), if_neg (lt_irrefl _), if_pos hnames.symm]
      rcases lt_or_eq_of_le hle with h1 | h1
      · rw [if_pos h1]
      · rw [h1, if_neg (lt_irrefl _), if_neg (lt_irrefl _), hvx, hvy, hl1]
    have hnlt : Tuple.lt ⟨pre ++ (d, x) :: suf, f⟩ ⟨pre ++ (d, y) :: suf, f'⟩ = false := by
      unfold Tuple.lt
      rw [hn, if_neg (lt_irrefl _), if_neg (lt_irrefl _), if_pos hnames]
      rcases lt_or_eq_of_le hle with h1 | h1
      · rw [if_neg (not_lt.2 hle), if_pos h1]
      · rw [h1, if_neg (lt_irrefl _), if_neg (lt_irrefl _), hvx, hvy, hl2]
    refine ⟨hlt, hlt, hnlt, hnlt, ?_⟩
    unfold Tuple.eq
    rw [decide_eq_false_iff_not]
    intro he
    have := List.append_cancel_left he
    simp only [List.cons.injEq, Prod.mk.injEq, true_and, and_true] at this
    omega
  · refine ⟨by simp [Tuple.eq], ?_, ?_⟩ <;>
      simp [Tuple.gt, Tuple.lt, Tuple.lexLt_irrefl]

/-- C27 on the tuples of the tuple test: with `t1 = (x=3, y=4)`, the copy with
`x = 2` compares less and the copy with `x = 4` compares greater, a copy
compares equal, the copy with the dimension `a` added in front compares greater,
and so does `(x=3, z=4)`. -/
theorem C27_tuple_ordering_witness :
    Tuple.eq t1 t1 = true ∧
      Tuple.lt ⟨[] ++ ("x", 2) :: [("y", 4)], true⟩ ⟨[] ++ ("x", 3) :: [("y", 4)], true⟩
        = true ∧
      Tuple.gt ⟨[] ++ ("x", 4) :: [("y", 4)], true⟩ ⟨[] ++ ("x", 3) :: [("y", 4)], true⟩
        = true ∧
      Tuple.gt (t1.addDimFront "a" 1) t1 = true ∧
      Tuple.gt ⟨[("x", 3), ("z", 4)], true⟩ t1 = true :=
  ⟨(C27_tuple_ordering.2.2 t1).1,
    (C27_tuple_ordering.2.1 [] [("y", 4)] "x" 3 2 true true (by decide) (by decide)).2.1,
    (C27_tuple_ordering.2.1 [] [("y", 4)] "x" 4 3 true true (by decide) (by decide)).1,
    (C27_tuple_ordering.1 t1 (t1.addDimFront "a" 1) (by decide)).1,
    by decide⟩


theorem Tuple.visitPoints_firstInner (t : Tuple) (pt : Tuple) (h : pt ∈ t.visitPoints) :
    pt._firstInner = t._firstInner := by
  unfold Tuple.visitPoints at h
  obtain ⟨c, _, rfl⟩ := List.mem_map.1 h
  rfl

/-- The sequential visit delivers the index `i` with the coordinate
`unlayout(i)`, for `i = 0 .. product - 1` in this order. -/
theorem Tuple.visitTrace_unlayout (t : Tuple) (hnd : t.getDimNames.Nodup)
    (hpos : ∀ s ∈ t.getVals, 1 ≤ s) :
    t.visitTrace
      = (List.range t.product.toNat).map (fun (i : Nat) => (t.unlayout (i : Int), i)) := by
  obtain ⟨hlen, hpt⟩ := Tuple.visitPoints_getElem t hnd hpos
  rw [Tuple.visitTrace_eq]
  apply List.ext_getElem
  · simp [hlen]
  · intro k h1 h2
    have hk : k < t.visitPoints.length := by simpa using h1
    simp only [List.getElem_map, List.getElem_range, List.getElem_enum]
    have hq := hpt k _ (List.getElem?_eq_getElem hk)
    have hf := Tuple.visitPoints_firstInner t _ (List.getElem_mem hk)
    have : t.visitPoints[k] = t.unlayout (k : Int) := by
      cases hp : t.visitPoints[k] with
      | mk q f =>
        rw [hp] at hq hf
        simp only at hq hf
        subst hq hf
        rfl
    rw [this]

theorem Tuple.parallelDrain_record (t : Tuple) (l : List Nat) :
    ∀ tr : List (Tuple × Nat),
      Tuple.parallelDrain t (fun c k tr => (true, tr ++ [(c, k)])) l tr
        = tr ++ l.map (fun (i : Nat) => (t.unlayout (i : Int), i)) := by
  induction l with
  | nil => intro tr; simp [Tuple.parallelDrain]
  | cons i rest ih =>
    intro tr
    unfold Tuple.parallelDrain
    simp only [if_true]
    rw [ih]
    simp

/-- The calls of the parallel visit with the recording callback: the indices in
the order of their delivery, each with its `unlayout`. -/
theorem Tuple.parallelLoop_record (t : Tuple) (order : List Nat) :
    ∀ (chunks : List (List Nat)) (tr : List (Tuple × Nat)),
      Tuple.parallelLoop t (fun c k tr => (true, tr ++ [(c, k)])) order chunks tr
        = tr ++ (Tuple.parallelOrder order chunks).map
            (fun (i : Nat) => (t.unlayout (i : Int), i)) := by
  induction order with
  | nil =>
    intro chunks tr
    unfold Tuple.parallelLoop Tuple.parallelOrder
    exact Tuple.parallelDrain_record t _ tr
  | cons w order ih =>
    intro chunks tr
    unfold Tuple.parallelLoop Tuple.parallelOrder
    cases h : chunks.getD w [] with
    | nil => exact ih chunks tr
    | cons i rest =>
      simp only [if_true]
      rw [ih]
      simp

/-- Taking the first index left in the chunk of a worker removes that index from
what is left, and nothing else. -/
theorem Tuple.flatten_set_perm (chunks : List (List Nat)) :
    ∀ (w i : Nat) (rest : List Nat), chunks.getD w [] = i :: rest →
      chunks.flatten.Perm (i :: (chunks.set w rest).flatten) := by
  induction chunks with
  | nil =>
    intro w i rest h
    simp at h
  | cons c cs ih =>
    intro w i rest h
    cases w with
    | zero =>
      have hc : c = i :: rest := by simpa using h
      subst hc
      simp
    | succ w =>
      rw [List.getD_cons_succ] at h
      rw [List.set_cons_succ, List.flatten_cons, List.flatten_cons]
      exact (List.Perm.append_left c (ih w i rest h)).trans List.perm_middle

/-- Whatever the order of the calls, the parallel visit delivers the indices of
the chunks, each as often as it occurs in them. -/
theorem Tuple.parallelOrder_perm (order : List Nat) :
    ∀ chunks : List (List Nat), (Tuple.parallelOrder order chunks).Perm chunks.flatten := by
  induction order with
  | nil => intro chunks; exact List.Perm.refl _
  | cons w order ih =>
    intro chunks
    unfold Tuple.parallelOrder
    cases h : chunks.getD w [] with
    | nil => exact ih chunks
    | cons i rest =>
      exact ((ih (chunks.set w rest)).cons i).trans
        (Tuple.flatten_set_perm chunks w i rest h).symm

/-- The chunks of the parallel visit cover the index range `[0, n)` without gap
or duplicate, for every number of workers that is at least 1. -/
theorem Tuple.parallelChunks_perm (n nworkers : Nat) (hw : 1 ≤ nworkers) :
    (Tuple.parallelChunks n nworkers).flatten.Perm (List.range n) := by
  have hnd : (Tuple.parallelChunks n nworkers).flatten.Nodup := by
    rw [List.nodup_flatten]
    constructor
    · intro l hl
      unfold Tuple.parallelChunks at hl
      obtain ⟨w, _, rfl⟩ := List.mem_map.1 hl
      exact (List.nodup_range n).filter _
    · unfold Tuple.parallelChunks
      rw [List.pairwise_map]
      refine List.Pairwise.imp ?_ (List.nodup_range nworkers)
      intro a b hab i hia hib
      have h1 := (List.mem_filter.1 hia).2
      have h2 := (List.mem_filter.1 hib).2
      rw [beq_iff_eq] at h1 h2
      exact hab (h1.symm.trans h2)
  rw [List.perm_ext_iff_of_nodup hnd (List.nodup_range n)]
  intro i
  rw [List.mem_flatten, List.mem_range]
  constructor
  · rintro ⟨l, hl, hil⟩
    unfold Tuple.parallelChunks at hl
    obtain ⟨w, _, rfl⟩ := List.mem_map.1 hl
    exact List.mem_range.1 (List.mem_filter.1 hil).1
  · intro hi
    have hcover : n ≤ nworkers * ((n + nworkers - 1) / nworkers) := by
      have h := Nat.lt_mul_div_succ (n + nworkers - 1) (by omega : 0 < nworkers)
      rw [Nat.mul_add, Nat.mul_one] at h
      generalize nworkers * ((n + nworkers - 1) / nworkers) = m at h ⊢
      omega
    have hc0 : 0 < (n + nworkers - 1) / nworkers := by
      rcases Nat.eq_zero_or_pos ((n + nworkers - 1) / nworkers) with h0 | h0
      · rw [h0, Nat.mul_zero] at hcover
        omega
      · exact h0
    refine ⟨(List.range n).filter
      (fun j => j / ((n + nworkers - 1) / nworkers) == i / ((n + nworkers - 1) / nworkers)), ?_, ?_⟩
    · unfold Tuple.parallelChunks
      refine List.mem_map.2 ⟨i / ((n + nworkers - 1) / nworkers), List.mem_range.2 ?_, ?_⟩
      · rw [Nat.div_lt_iff_lt_mul hc0]
        exact lt_of_lt_of_le hi hcover
      · rfl
    · exact List.mem_filter.2 ⟨List.mem_range.2 hi, by simp⟩

/-- The calls of `visitAllPointsInParallel` with a callback that always returns
`true`: a rearrangement of the indices `0 .. product - 1`, each delivered with
its `unlayout`. -/
theorem Tuple.parallelTrace_eq (t : Tuple) (nworkers : Nat) (hw : 1 ≤ nworkers)
    (order : List Nat) :
    ∃ l : List Nat, l.Perm (List.range t.product.toNat) ∧
      t.parallelTrace nworkers order = l.map (fun (i : Nat) => (t.unlayout (i : Int), i)) := by
  refine ⟨Tuple.parallelOrder order (Tuple.parallelChunks t.product.toNat nworkers),
    (Tuple.parallelOrder_perm order _).trans
      (Tuple.parallelChunks_perm t.product.toNat nworkers hw), ?_⟩
  unfold Tuple.parallelTrace Tuple.visitAllPointsInParallel
  rw [Tuple.parallelLoop_record, List.nil_append]

/-- C28: for a tuple with unique dimension names and all values `>= 1`, every
number of workers (at least one) and every order in which the workers make
their calls: the `(coordinate, index)` pairs that `visitAllPointsInParallel`
delivers to a callback that always returns `true` are those delivered by
`visitAllPoints`, up to the order; every index in `[0, product)` is delivered
exactly once and no other index is; and every pair has an in-range coordinate
whose layout is the index. -/
theorem C28_parallel_visit (t : Tuple) (hnd : t.getDimNames.Nodup)
    (hpos : ∀ s ∈ t.getVals, 1 ≤ s) (nworkers : Nat) (hw : 1 ≤ nworkers)
    (order : List Nat) :
    (t.parallelTrace nworkers order).Perm t.visitTrace ∧
      (∀ ck, ck ∈ t.parallelTrace nworkers order ↔ ck ∈ t.visitTrace) ∧
      (∀ i : Nat, ((t.parallelTrace nworkers order).map Prod.snd).count i
        = if (i : Int) < t.product then 1 else 0) ∧
      ∀ ck ∈ t.parallelTrace nworkers order,
        t.inRange ck.1 ∧ t.layout ck.1 = (ck.2 : Int) := by
  obtain ⟨l, hl, htr⟩ := Tuple.parallelTrace_eq t nworkers hw order
  have hperm : (t.parallelTrace nworkers order).Perm t.visitTrace := by
    rw [htr, Tuple.visitTrace_unlayout t hnd hpos]
    exact List.Perm.map _ hl
  have hprod : 0 ≤ t.product := by
    have := (Tuple.visitTrace_spec t hnd hpos).1
    omega
  refine ⟨hperm, fun ck => hperm.mem_iff, fun i => ?_, fun ck hck => ?_⟩
  · have hsnd : (t.parallelTrace nworkers order).map Prod.snd = l := by
      rw [htr, List.map_map]
      exact List.map_id' _
    rw [hsnd, hl.count_eq, List.count_eq_of_nodup (List.nodup_range _)]
    simp only [List.mem_range]
    by_cases hi : (i : Int) < t.product
    · rw [if_pos hi, if_pos (by omega)]
    · rw [if_neg hi, if_neg (by omega)]
  · exact (Tuple.visitTrace_spec t hnd hpos).2.2 ck (hperm.mem_iff.1 hck)

/-- C28 on the tuple `(x=3, y=4)` of the tuple test with three workers, whose
chunks are the indices 0 to 3, 4 to 7 and 8 to 11, and calls made in the order
of the workers 2, 0, 1, 1, 2, then by every worker to completion: the indices
are delivered in the order 8, 0, 4, 5, 9, 1, 2, 3, 6, 7, 10, 11. -/
theorem C28_parallel_visit_witness :
    Tuple.parallelChunks t1.product.toNat 3 = [[0, 1, 2, 3], [4, 5, 6, 7], [8, 9, 10, 11]] ∧
      (t1.parallelTrace 3 [2, 0, 1, 1, 2]).map Prod.snd
        = [8, 0, 4, 5, 9, 1, 2, 3, 6, 7, 10, 11] ∧
      (t1.parallelTrace 3 [2, 0, 1, 1, 2]).Perm t1.visitTrace ∧
      ∀ ck ∈ t1.parallelTrace 3 [2, 0, 1, 1, 2], t1.layout ck.1 = (ck.2 : Int) :=
  ⟨by decide, by decide,
    (C28_parallel_visit t1 (by decide) (by decide) 3 (by decide) [2, 0, 1, 1, 2]).1,
    fun ck hck =>
      ((C28_parallel_visit t1 (by decide) (by decide) 3 (by decide)
        [2, 0, 1, 1, 2]).2.2.2 ck hck).2⟩


theorem YkGridBase.comparePoint_eq (g : YkGridBase) (pt : Tuple) :
    g.comparePoint pt
      = ⟨(List.range pt.getNumDims).map
          (fun i => (pt.getDimName i, g._offsets i - g._pads i + pt.getVal i)),
        g.ggb_dims._firstInner⟩ := by
  unfold YkGridBase.comparePoint
  have : ∀ (l : List Nat) (q : List (String × Int)),
      l.foldl
          (fun (opt : Tuple) i =>
            opt.addDimBack (pt.getDimName i) (g._offsets i - g._pads i + pt.getVal i))
          ⟨q, g.ggb_dims._firstInner⟩
        = ⟨q ++ l.map (fun i => (pt.getDimName i, g._offsets i - g._pads i + pt.getVal i)),
            g.ggb_dims._firstInner⟩ := by
    intro l
    induction l with
    | nil => intro q; simp
    | cons a l ih =>
      intro q
      rw [List.foldl_cons]
      have hadd : (Tuple.mk q g.ggb_dims._firstInner).addDimBack (pt.getDimName a)
            (g._offsets a - g._pads a + pt.getVal a)
          = ⟨q ++ [(pt.getDimName a, g._offsets a - g._pads a + pt.getVal a)],
              g.ggb_dims._firstInner⟩ := rfl
      rw [hadd, ih]
      simp
  rw [this]
  simp

/-- The coordinate named in a mismatch line: the names of the point of the
allocation and, in each dimension, `offset - pad` plus its allocation-relative
index. -/
theorem YkGridBase.comparePoint_vals (g : YkGridBase) (pt : Tuple) :
    (g.comparePoint pt).getDimNames = pt.getDimNames ∧
      ∀ i, i < pt.getNumDims →
        (g.comparePoint pt).getVal i = g._offsets i - g._pads i + pt.getVal i := by
  rw [g.comparePoint_eq]
  constructor
  · rw [Tuple.getDimNames_map_range]
    apply List.ext_getElem
    · simp [Tuple.getNumDims, Tuple.getDimNames]
    · intro i h1 h2
      simp only [List.getElem_map, List.getElem_range]
      unfold Tuple.getDimName
      rw [List.getD_eq_getElem _ _ h2]
  · intro i hi
    exact Tuple.getVal_map_range _ _ _ _ i hi

theorem YkGridBase.compareVisit_bad (env : CompareEnv) (g ref : YkGridBase) (s rs : Storage)
    (epsilon : real_t) (maxPrint : Int) (pt : Tuple) (idx : Nat) (e : Int)
    (out : List CompareMsg) (hb : g.compareBad env ref s rs epsilon pt = true) :
    g.compareVisit env ref s rs epsilon maxPrint pt idx (e, out)
      = if e + 1 < maxPrint then
          (true, (e + 1,
            out ++ [CompareMsg.mismatchAt (g.comparePoint pt)
              (g.readElem s (Indices.ofList (g.comparePoint pt).getVals))
              (ref.readElem rs (Indices.ofList (g.comparePoint pt).getVals))]))
        else if e + 1 = maxPrint then
          (true, (e + 1, out ++ [CompareMsg.additionalNotPrinted]))
        else (false, (e + 1, out)) := by
  unfold YkGridBase.compareBad at hb
  unfold YkGridBase.compareVisit
  simp only [hb, if_true]

theorem YkGridBase.compareVisit_good (env : CompareEnv) (g ref : YkGridBase) (s rs : Storage)
    (epsilon : real_t) (maxPrint : Int) (pt : Tuple) (idx : Nat)
    (st : Int × List CompareMsg) (hb : g.compareBad env ref s rs epsilon pt = false) :
    g.compareVisit env ref s rs epsilon maxPrint pt idx st = (true, st) := by
  unfold YkGridBase.compareBad at hb
  unfold YkGridBase.compareVisit
  simp only [hb, Bool.false_eq_true, if_false]

/-- The count of the detailed comparison in `compare`: the visit stops at the
first mismatch that brings `errs` above `maxPrint`, so the count is the number
of mismatching points, but at most `maxPrint + 1` (at most 1 when `maxPrint`
is negative). -/
theorem YkGridBase.compareLoop_errs (env : CompareEnv) (g ref : YkGridBase) (s rs : Storage)
    (epsilon : real_t) (maxPrint : Int) (pts : List Tuple) :
    ∀ (idx : Nat) (e : Int) (out : List CompareMsg), 0 ≤ e → e < max (maxPrint + 1) 1 →
      (Tuple.visitLoop (g.compareVisit env ref s rs epsilon maxPrint) pts idx (e, out)).1
        = min (e + ((pts.filter (g.compareBad env ref s rs epsilon)).length : Int))
            (max (maxPrint + 1) 1) := by
  induction pts with
  | nil =>
    intro idx e out h0 hlt
    simp only [Tuple.visitLoop, List.filter_nil, List.length_nil, Nat.cast_zero, add_zero]
    omega
  | cons pt rest ih =>
    intro idx e out h0 hlt
    unfold Tuple.visitLoop
    cases hb : g.compareBad env ref s rs epsilon pt with
    | false =>
      rw [g.compareVisit_good env ref s rs epsilon maxPrint pt idx _ hb]
      simp only [if_true, List.filter_cons, hb, Bool.false_eq_true, if_false]
      exact ih (idx + 1) e out h0 hlt
    | true =>
      rw [g.compareVisit_bad env ref s rs epsilon maxPrint pt idx e out hb]
      simp only [List.filter_cons, hb, if_true, List.length_cons, Nat.cast_add, Nat.cast_one]
      by_cases h1 : e + 1 < maxPrint
      · rw [if_pos h1]
        simp only [if_true]
        rw [ih (idx + 1) (e + 1) _ (by omega) (by omega)]
        congr 1
        ring
      · by_cases h2 : e + 1 = maxPrint
        · rw [if_neg h1, if_pos h2]
          simp only [if_true]
          rw [ih (idx + 1) (e + 1) _ (by omega) (by omega)]
          congr 1
          ring
        · rw [if_neg h1, if_neg h2]
          simp only [Bool.false_eq_true, if_false]
          have hM : (0 : Int) ≤ ((rest.filter (g.compareBad env ref s rs epsilon)).length : Int) :=
            Int.natCast_nonneg _
          omega

/-- A visit of `compare` over points that all agree within tolerance leaves the
state as it was. -/
theorem YkGridBase.compareLoop_good (env : CompareEnv) (g ref : YkGridBase) (s rs : Storage)
    (epsilon : real_t) (maxPrint : Int) (pts : List Tuple)
    (hg : ∀ pt ∈ pts, g.compareBad env ref s rs epsilon pt = false) :
    ∀ (idx : Nat) (st : Int × List CompareMsg),
      Tuple.visitLoop (g.compareVisit env ref s rs epsilon maxPrint) pts idx st = st := by
  induction pts with
  | nil => intro idx st; rfl
  | cons pt rest ih =>
    intro idx st
    unfold Tuple.visitLoop
    rw [g.compareVisit_good env ref s rs epsilon maxPrint pt idx st
      (hg pt (List.mem_cons_self _ _))]
    simp only [if_true]
    exact ih (fun p hp => hg p (List.mem_cons_of_mem _ hp)) (idx + 1) st

theorem Tuple.visitLoop_cons {σ : Type} (visitor : Tuple → Nat → σ → Bool × σ)
    (pt : Tuple) (rest : List Tuple) (idx : Nat) (st : σ) :
    Tuple.visitLoop visitor (pt :: rest) idx st
      = if (visitor pt idx st).1 then
          Tuple.visitLoop visitor rest (idx + 1) (visitor pt idx st).2
        else (visitor pt idx st).2 := rfl

theorem Tuple.visitLoop_append_good {σ : Type} (visitor : Tuple → Nat → σ → Bool × σ)
    (l1 l2 : List Tuple)
    (hg : ∀ pt ∈ l1, ∀ idx st, visitor pt idx st = (true, st)) :
    ∀ (idx : Nat) (st : σ),
      Tuple.visitLoop visitor (l1 ++ l2) idx st
        = Tuple.visitLoop visitor l2 (idx + l1.length) st := by
  induction l1 with
  | nil => intro idx st; rfl
  | cons pt rest ih =>
    intro idx st
    rw [List.cons_append, Tuple.visitLoop_cons]
    rw [hg pt (List.mem_cons_self _ _) idx st]
    simp only [if_true]
    rw [ih (fun p hp => hg p (List.mem_cons_of_mem _ hp)) (idx + 1) st, List.length_cons]
    have hidx : idx + 1 + rest.length = idx + (rest.length + 1) := by omega
    rw [hidx]

/-- C21 as stated fails: `gridP` (domain 3 and pad 1 in `x`) and `gridQ` (domain
5 and no pad in `x`) have different domain sizes and the same allocation sizes,
5 and 2; they are not `is_storage_layout_identical`, whatever the byte counts,
but their storage dimensions are the same, so `compare` does not return the
element count 10: it compares the elements, all 0, and returns 0. -/
theorem C21_different_domains_compared :
    (∀ bytes : YkGridBase → Nat, gridP.is_storage_layout_identical bytes gridQ = false) ∧
      gridP._domains 0 = 3 ∧ gridQ._domains 0 = 5 ∧
      gridP._allocs 0 = gridQ._allocs 0 ∧ gridP._allocs 1 = gridQ._allocs 1 ∧
      exampleCompareEnv.get_num_storage_elements gridP.ggb_dims = 10 ∧
      gridP.compare exampleCompareEnv (some gridQ) 0 5 = some (0, []) := by
  refine ⟨fun bytes => ?_, rfl, rfl, rfl, rfl, rfl, rfl⟩
  unfold YkGridBase.is_storage_layout_identical
  split
  · rfl
  · split
    · rfl
    · rfl

/-- C21, amended: `compare(reference, epsilon, maxPrint)` returns
`get_num_storage_elements()` of this grid, with one line of output and whatever
the elements of the two grids are, when `reference` is null and when
`are_dims_and_sizes_same` does not hold of the two underlying generic grids.
When it holds, and both grids have storage, the elements are compared: the
result is 0 when the bulk count is 0 and the count of the detailed visit
otherwise; the domain sizes and the pads of the two grids are not looked at. -/
theorem C21_compare_fast_path (env : CompareEnv) (g : YkGridBase) (epsilon : real_t)
    (maxPrint : Int) :
    g.compare env none epsilon maxPrint
        = some (env.get_num_storage_elements g.ggb_dims, [CompareMsg.noReference]) ∧
      (∀ r : YkGridBase, env.are_dims_and_sizes_same g.ggb_dims r.ggb_dims = false →
        g.compare env (some r) epsilon maxPrint
            = some (env.get_num_storage_elements g.ggb_dims, [CompareMsg.incompatible]) ∧
          ∀ st st' : Option Storage,
            YkGridBase.compare env { g with storage := st } (some { r with storage := st' })
                epsilon maxPrint
              = g.compare env (some r) epsilon maxPrint) ∧
      (∀ (r : YkGridBase) (s rs : Storage),
        env.are_dims_and_sizes_same g.ggb_dims r.ggb_dims = true →
        g.storage = some s → r.storage = some rs →
        g.compare env (some r) epsilon maxPrint
          = if env.count_diffs g.ggb_dims s rs epsilon = 0 then some (0, [])
            else
              some
                (g.get_allocs.visitAllPoints (g.compareVisit env r s rs epsilon maxPrint)
                  (0, []))) := by
  refine ⟨rfl, fun r h => ⟨?_, fun st st' => ?_⟩, fun r s rs h hs hrs => ?_⟩
  · unfold YkGridBase.compare
    simp only [h, Bool.not_false, if_true]
  · unfold YkGridBase.compare
    simp only [h, Bool.not_false, if_true]
  · unfold YkGridBase.compare
    simp only [h, hs, hrs, Bool.not_true, Bool.false_eq_true, if_false]

theorem YkGridBase.compareVisit_bad_line (env : CompareEnv) (g ref : YkGridBase)
    (s rs : Storage) (epsilon : real_t) (maxPrint : Int) (pt : Tuple) (idx : Nat) (e : Int)
    (out : List CompareMsg) (hb : g.compareBad env ref s rs epsilon pt = true) :
    g.compareVisit env ref s rs epsilon maxPrint pt idx (e, out)
      = if e + 1 < maxPrint then (true, (e + 1, out ++ [g.mismatchLine ref s rs pt]))
        else if e + 1 = maxPrint then
          (true, (e + 1, out ++ [CompareMsg.additionalNotPrinted]))
        else (false, (e + 1, out)) :=
  g.compareVisit_bad env ref s rs epsilon maxPrint pt idx e out hb

/-- What the detailed comparison in `compare` writes: the mismatch lines of the
mismatching points, in the order of the visit, as long as `errs` is below
`maxPrint`, then the notice that additional errors are not printed when `errs`
reaches `maxPrint`, and nothing after it. -/
theorem YkGridBase.compareLoop_out (env : CompareEnv) (g ref : YkGridBase) (s rs : Storage)
    (epsilon : real_t) (maxPrint : Int) (pts : List Tuple) :
    ∀ (idx : Nat) (e : Int) (out : List CompareMsg),
      (Tuple.visitLoop (g.compareVisit env ref s rs epsilon maxPrint) pts idx (e, out)).2
        = out
          ++ (((pts.filter (g.compareBad env ref s rs epsilon)).take
                (maxPrint - 1 - e).toNat).map (g.mismatchLine ref s rs)
              ++ (if e + 1 ≤ maxPrint
                    ∧ maxPrint
                      ≤ e + ((pts.filter (g.compareBad env ref s rs epsilon)).length : Int)
                  then [CompareMsg.additionalNotPrinted] else [])) := by
  induction pts with
  | nil =>
    intro idx e out
    have hc : ¬ (e + 1 ≤ maxPrint ∧ maxPrint ≤ e + ((([] : List Tuple).filter
        (g.compareBad env ref s rs epsilon)).length : Int)) := by
      simp only [List.filter_nil, List.length_nil, Nat.cast_zero]
      omega
    rw [if_neg hc]
    simp [Tuple.visitLoop]
  | cons pt rest ih =>
    intro idx e out
    rw [Tuple.visitLoop_cons]
    cases hb : g.compareBad env ref s rs epsilon pt with
    | false =>
      rw [g.compareVisit_good env ref s rs epsilon maxPrint pt idx _ hb]
      simp only [if_true, List.filter_cons, hb, Bool.false_eq_true, if_false]
      exact ih (idx + 1) e out
    | true =>
      rw [g.compareVisit_bad_line env ref s rs epsilon maxPrint pt idx e out hb]
      simp only [List.filter_cons, hb, if_true, List.length_cons, Nat.cast_add, Nat.cast_one]
      by_cases h1 : e + 1 < maxPrint
      · rw [if_pos h1]
        simp only [if_true]
        rw [ih (idx + 1) (e + 1) _]
        have hn : (maxPrint - 1 - e).toNat = (maxPrint - 1 - (e + 1)).toNat + 1 := by omega
        rw [hn, List.take_succ_cons, List.map_cons]
        have hc : (e + 1 + 1 ≤ maxPrint ∧ maxPrint ≤ e + 1
              + ((rest.filter (g.compareBad env ref s rs epsilon)).length : Int))
            ↔ (e + 1 ≤ maxPrint ∧ maxPrint
              ≤ e + (((rest.filter (g.compareBad env ref s rs epsilon)).length : Int) + 1)) := by
          constructor <;> intro h <;> constructor <;> omega
        rw [if_congr hc rfl rfl]
        simp only [List.append_assoc, List.singleton_append, List.cons_append,
          List.nil_append]
      · by_cases h2 : e + 1 = maxPrint
        · rw [if_neg h1, if_pos h2]
          simp only [if_true]
          rw [ih (idx + 1) (e + 1) _]
          have hn : (maxPrint - 1 - e).toNat = 0 := by omega
          have hn1 : (maxPrint - 1 - (e + 1)).toNat = 0 := by omega
          have hM : (0 : Int)
              ≤ ((rest.filter (g.compareBad env ref s rs epsilon)).length : Int) :=
            Int.natCast_nonneg _
          rw [hn, hn1, if_neg (by omega), if_pos (by constructor <;> omega)]
          simp only [List.take_zero, List.map_nil, List.nil_append, List.append_nil]
        · rw [if_neg h1, if_neg h2]
          simp only [Bool.false_eq_true, if_false]
          have hn : (maxPrint - 1 - e).toNat = 0 := by omega
          rw [hn, if_neg (by omega)]
          simp only [List.take_zero, List.map_nil, List.append_nil]

/-- The detailed comparison in `compare`, from the start: the count is the number
of mismatching points, but at most `maxPrint + 1` (at most 1 when `maxPrint` is
negative); the output is the mismatch lines of the first `maxPrint - 1`
mismatching points, followed by the notice that additional errors are not
printed when `maxPrint >= 1` and there are at least `maxPrint` mismatches. -/
theorem YkGridBase.compareLoop_walk (env : CompareEnv) (g ref : YkGridBase) (s rs : Storage)
    (epsilon : real_t) (maxPrint : Int) (pts : List Tuple) :
    Tuple.visitLoop (g.compareVisit env ref s rs epsilon maxPrint) pts 0 (0, [])
      = (min ((pts.filter (g.compareBad env ref s rs epsilon)).length : Int)
            (max (maxPrint + 1) 1),
          ((pts.filter (g.compareBad env ref s rs epsilon)).take
              (maxPrint - 1).toNat).map (g.mismatchLine ref s rs)
            ++ (if 1 ≤ maxPrint
                  ∧ maxPrint ≤ ((pts.filter (g.compareBad env ref s rs epsilon)).length : Int)
                then [CompareMsg.additionalNotPrinted] else [])) := by
  have h1 := g.compareLoop_errs env ref s rs epsilon maxPrint pts 0 0 [] (le_refl 0) (by omega)
  have h2 := g.compareLoop_out env ref s rs epsilon maxPrint pts 0 0 []
  rw [zero_add] at h1
  rw [List.nil_append, sub_zero, zero_add, zero_add] at h2
  exact Prod.ext h1 h2

/-- The points that `compare` finds mismatching, when the point at position `j`
of the visit is the only one. -/
theorem YkGridBase.compareBad_filter_one (env : CompareEnv) (g ref : YkGridBase)
    (s rs : Storage) (epsilon : real_t) (pts : List Tuple) (j : Nat) (hj : j < pts.length)
    (hbad : g.compareBad env ref s rs epsilon pts[j] = true)
    (hothers : ∀ (k : Nat) (hk : k < pts.length), k ≠ j →
      g.compareBad env ref s rs epsilon pts[k] = false) :
    pts.filter (g.compareBad env ref s rs epsilon) = [pts[j]] := by
  have hsplit : pts.take j ++ pts[j] :: pts.drop (j + 1) = pts := by
    rw [← List.drop_eq_getElem_cons hj, List.take_append_drop]
  have hpre : (pts.take j).filter (g.compareBad env ref s rs epsilon) = [] := by
    rw [List.filter_eq_nil_iff]
    intro pt hpt
    obtain ⟨k, hk, rfl⟩ := List.getElem_of_mem hpt
    have hk2 : k < j := by
      have := hk
      rw [List.length_take] at this
      omega
    rw [List.getElem_take]
    rw [hothers k (by omega) (by omega)]
    decide
  have hsuf : (pts.drop (j + 1)).filter (g.compareBad env ref s rs epsilon) = [] := by
    rw [List.filter_eq_nil_iff]
    intro pt hpt
    obtain ⟨k, hk, rfl⟩ := List.getElem_of_mem hpt
    rw [List.length_drop] at hk
    rw [List.getElem_drop]
    rw [hothers (j + 1 + k) (by omega) (by omega)]
    decide
  have h := congrArg (List.filter (g.compareBad env ref s rs epsilon)) hsplit
  rw [List.filter_append, List.filter_cons, if_pos hbad, hpre, hsuf, List.nil_append] at h
  exact h.symm

/-- C22 (failing input): `gridXY` and `gridXY3` are layout-identical and differ in
three elements; `compare` returns 3 with `maxPrint = 5`, but 2 with
`maxPrint = 1` and 1 with `maxPrint = 0`: the visit stops at the first mismatch
past `maxPrint`, so the result is not the number of mismatches and depends on
`maxPrint`. -/
theorem C22_count_depends_on_maxPrint :
    gridXY.is_storage_layout_identical (fun g => g.ggb_dims.product.toNat * 4) gridXY3
        = true ∧
      (gridXY.get_allocs.visitPoints.filter
        (gridXY.compareBad exampleCompareEnv gridXY3 ⟨fun _ => 0⟩
          ⟨fun p => if p = 1 ∨ p = 2 ∨ p = 4 then 9 else 0⟩ 0)).length = 3 ∧
      gridXY.compare exampleCompareEnv (some gridXY3) 0 5
        = some (3,
            [CompareMsg.mismatchAt ⟨[("x", 1), ("y", 0)], true⟩ 0 9,
              CompareMsg.mismatchAt ⟨[("x", 2), ("y", 0)], true⟩ 0 9,
              CompareMsg.mismatchAt ⟨[("x", 1), ("y", 1)], true⟩ 0 9]) ∧
      gridXY.compare exampleCompareEnv (some gridXY3) 0 1
        = some (2, [CompareMsg.additionalNotPrinted]) ∧
      gridXY.compare exampleCompareEnv (some gridXY3) 0 0 = some (1, []) :=
  ⟨rfl, rfl, rfl, rfl, rfl⟩

/-- C22: what `compare` returns and writes for two grids with storage whose
underlying generic grids have the same dims and sizes, for every `maxPrint`.
When the bulk count is 0 the result is 0 and nothing is written. Otherwise the
result is the number of points of the whole allocation (padding included) whose
two values are not within tolerance, but at most `maxPrint + 1` (at most 1 when
`maxPrint` is negative), since the visit stops at the first mismatch past
`maxPrint`: counting does not continue, and the result depends on `maxPrint`.
What is written is the mismatch lines of the first `maxPrint - 1` mismatching
points, followed by the notice that additional errors are not printed when
`maxPrint >= 1` and there are at least `maxPrint` mismatches. -/
theorem C22_compare_count (env : CompareEnv) (g r : YkGridBase) (s rs : Storage)
    (epsilon : real_t) (maxPrint : Int)
    (hsame : env.are_dims_and_sizes_same g.ggb_dims r.ggb_dims = true)
    (hs : g.storage = some s) (hrs : r.storage = some rs) :
    g.compare env (some r) epsilon maxPrint
      = if env.count_diffs g.ggb_dims s rs epsilon = 0 then some (0, [])
        else
          some
            (min
              ((g.get_allocs.visitPoints.filter
                (g.compareBad env r s rs epsilon)).length : Int)
              (max (maxPrint + 1) 1),
            ((g.get_allocs.visitPoints.filter (g.compareBad env r s rs epsilon)).take
                (maxPrint - 1).toNat).map (g.mismatchLine r s rs)
              ++ (if 1 ≤ maxPrint
                    ∧ maxPrint
                      ≤ ((g.get_allocs.visitPoints.filter
                          (g.compareBad env r s rs epsilon)).length : Int)
                  then [CompareMsg.additionalNotPrinted] else [])) := by
  have hc : g.compare env (some r) epsilon maxPrint
      = if env.count_diffs g.ggb_dims s rs epsilon = 0 then some (0, [])
        else
          some
            (g.get_allocs.visitAllPoints (g.compareVisit env r s rs epsilon maxPrint)
              (0, [])) := by
    unfold YkGridBase.compare
    simp only [hsame, hs, hrs, Bool.not_true, Bool.false_eq_true, if_false]
  rw [hc]
  unfold Tuple.visitAllPoints
  rw [g.compareLoop_walk env r s rs epsilon maxPrint]

/-- C22 at `gridXY` and `gridXY3`, which differ in three elements, with
`maxPrint = 1`: the bulk count is not 0, and `compare` returns 2 and writes
the notice only. -/
theorem C22_compare_count_witness :
    exampleCompareEnv.are_dims_and_sizes_same gridXY.ggb_dims gridXY3.ggb_dims = true ∧
      exampleCompareEnv.count_diffs gridXY.ggb_dims ⟨fun _ => 0⟩
        ⟨fun p => if p = 1 ∨ p = 2 ∨ p = 4 then 9 else 0⟩ 0 = 3 ∧
      gridXY.compare exampleCompareEnv (some gridXY3) 0 1
        = some (2, [CompareMsg.additionalNotPrinted]) :=
  ⟨rfl, rfl,
    (C22_compare_count exampleCompareEnv gridXY gridXY3 ⟨fun _ => 0⟩
      ⟨fun p => if p = 1 ∨ p = 2 ∨ p = 4 then 9 else 0⟩ 0 1 rfl rfl rfl).trans rfl⟩

/-- C23 as stated fails for `maxPrint = 1`: `gridXY` and `gridXY1` are
layout-identical and differ in exactly one element, the one at `(1, 0)`;
`compare` with `maxPrint = 1` returns 1 and prints no mismatch line, only the
notice that additional errors are not printed. -/
theorem C23_single_mismatch_not_printed :
    gridXY.is_storage_layout_identical (fun g => g.ggb_dims.product.toNat * 4) gridXY1
        = true ∧
      (gridXY.get_allocs.visitPoints.filter
        (gridXY.compareBad exampleCompareEnv gridXY1 ⟨fun _ => 0⟩
          ⟨fun p => if p = 1 then 9 else 0⟩ 0)).length = 1 ∧
      gridXY.compare exampleCompareEnv (some gridXY1) 0 1
        = some (1, [CompareMsg.additionalNotPrinted]) :=
  ⟨rfl, rfl, rfl⟩

/-- C23, amended: for two grids with storage whose underlying generic grids have
the same dims and sizes, and exactly one point of the allocation, the one at
position `j` of the visit, whose two values are not within tolerance, and for
every `maxPrint`: `compare` returns 0 and prints nothing when the bulk count is
0, and otherwise returns 1 and prints one line when `maxPrint >= 2`, the
mismatch line of that point with both values; the notice that additional errors
are not printed, and no mismatch line, when `maxPrint = 1`; and nothing when
`maxPrint <= 0`. The coordinate in the mismatch line has the names of the
dimensions and, in each dimension, the value `offset - pad` plus the
allocation-relative index of the point. -/
theorem C23_single_mismatch (env : CompareEnv) (g r : YkGridBase) (s rs : Storage)
    (epsilon : real_t) (maxPrint : Int)
    (hsame : env.are_dims_and_sizes_same g.ggb_dims r.ggb_dims = true)
    (hs : g.storage = some s) (hrs : r.storage = some rs)
    (j : Nat) (hj : j < g.get_allocs.visitPoints.length)
    (hbad : g.compareBad env r s rs epsilon g.get_allocs.visitPoints[j] = true)
    (hothers : ∀ (k : Nat) (hk : k < g.get_allocs.visitPoints.length), k ≠ j →
      g.compareBad env r s rs epsilon g.get_allocs.visitPoints[k] = false) :
    g.compare env (some r) epsilon maxPrint
        = (if env.count_diffs g.ggb_dims s rs epsilon = 0 then some (0, [])
          else
            some (1,
              if 2 ≤ maxPrint then
                [CompareMsg.mismatchAt (g.comparePoint g.get_allocs.visitPoints[j])
                  (g.readElem s
                    (Indices.ofList (g.comparePoint g.get_allocs.visitPoints[j]).getVals))
                  (r.readElem rs
                    (Indices.ofList (g.comparePoint g.get_allocs.visitPoints[j]).getVals))]
              else if maxPrint = 1 then [CompareMsg.additionalNotPrinted]
              else [])) ∧
      (g.comparePoint g.get_allocs.visitPoints[j]).getDimNames
        = g.get_allocs.visitPoints[j].getDimNames ∧
      ∀ i, i < g.get_allocs.visitPoints[j].getNumDims →
        (g.comparePoint g.get_allocs.visitPoints[j]).getVal i
          = g._offsets i - g._pads i + g.get_allocs.visitPoints[j].getVal i := by
  refine ⟨?_, (g.comparePoint_vals _).1, (g.comparePoint_vals _).2⟩
  have hc : g.compare env (some r) epsilon maxPrint
      = if env.count_diffs g.ggb_dims s rs epsilon = 0 then some (0, [])
        else
          some
            (g.get_allocs.visitAllPoints (g.compareVisit env r s rs epsilon maxPrint)
              (0, [])) := by
    unfold YkGridBase.compare
    simp only [hsame, hs, hrs, Bool.not_true, Bool.false_eq_true, if_false]
  rw [hc]
  unfold Tuple.visitAllPoints
  rw [g.compareLoop_walk env r s rs epsilon maxPrint,
    g.compareBad_filter_one env r s rs epsilon _ j hj hbad hothers]
  by_cases h0 : env.count_diffs g.ggb_dims s rs epsilon = 0
  · rw [if_pos h0, if_pos h0]
  · rw [if_neg h0, if_neg h0]
    congr 2
    · simp only [List.length_singleton, Nat.cast_one]
      omega
    · by_cases h2 : 2 ≤ maxPrint
      · have hn : (maxPrint - 1).toNat = (maxPrint - 2).toNat + 1 := by omega
        rw [if_pos h2, hn, List.take_succ_cons, List.take_nil, List.map_cons, List.map_nil,
          if_neg (by simp only [List.length_singleton, Nat.cast_one]; omega)]
        rfl
      · have hn : (maxPrint - 1).toNat = 0 := by omega
        rw [if_neg h2, hn, List.take_zero, List.map_nil, List.nil_append]
        by_cases h1 : maxPrint = 1
        · rw [if_pos h1, if_pos (by simp only [List.length_singleton, Nat.cast_one]; omega)]
        · rw [if_neg h1, if_neg (by simp only [List.length_singleton, Nat.cast_one]; omega)]

/-- C23 at `gridXY` and `gridXY1`, which differ in the element at `(1, 0)` only:
with `maxPrint = 2`, `compare` returns 1 and prints the mismatch line of the
coordinate `(x=1, y=0)` with the values 0 and 9. -/
theorem C23_single_mismatch_witness :
    gridXY.compare exampleCompareEnv (some gridXY1) 0 2
      = some (1, [CompareMsg.mismatchAt ⟨[("x", 1), ("y", 0)], true⟩ 0 9]) :=
  ((C23_single_mismatch exampleCompareEnv gridXY gridXY1 ⟨fun _ => 0⟩
    ⟨fun p => if p = 1 then 9 else 0⟩ 0 2 rfl rfl rfl 1 (by decide)
    rfl
    (by
      intro k hk hne
      have h6 : k < 6 := hk
      interval_cases k <;> first | exact absurd rfl hne | rfl)).1).trans rfl


theorem DimKind.allowed_all (k : DimKind) : k.allowed true true true = true := by
  cases k <;> rfl

/-- The halo relations follow from `halo <= pad` and `domain + 2*pad <= alloc`
at the position of a dimension that is used, whatever the offsets. -/
theorem YkGridBase.haloWithinAllowed_of_fields (g : YkGridBase) (dim : String)
    (hu : g.is_dim_used dim = true)
    (h1 : g._halos ((g.ggb_dims.lookup_posn dim).getD 0)
      ≤ g._pads ((g.ggb_dims.lookup_posn dim).getD 0))
    (h2 : g._domains ((g.ggb_dims.lookup_posn dim).getD 0)
        + 2 * g._pads ((g.ggb_dims.lookup_posn dim).getD 0)
      ≤ g._allocs ((g.ggb_dims.lookup_posn dim).getD 0)) :
    g.haloWithinAllowed dim := by
  refine ⟨_, _,
    (g.GET_GRID_API_eq dim true true true _).1 ⟨hu, DimKind.allowed_all _⟩,
    (g.GET_GRID_API_eq dim true true true _).1 ⟨hu, DimKind.allowed_all _⟩, ?_, ?_⟩
  · omega
  · omega

/-- The span of the allocation indices of a domain dimension that is used is its
allocation size, whatever the fields. -/
theorem YkGridBase.allocIndexSpan_of_domain (g : YkGridBase) (dim : String)
    (hu : g.is_dim_used dim = true) (hk : g._dims.kind dim = DimKind.domain) :
    g.allocIndexSpan dim := by
  have hd : (g._dims.kind dim).allowed false true false = true := by rw [hk]; rfl
  refine ⟨_, _, _,
    (g.GET_GRID_API_eq dim false true false _).1 ⟨hu, hd⟩,
    (g.GET_GRID_API_eq dim false true false _).1 ⟨hu, hd⟩,
    (g.GET_GRID_API_eq dim true true true _).1 ⟨hu, DimKind.allowed_all _⟩, ?_⟩
  omega

/-- A call of `_set_offset` or `set_first_misc_index` that returns has written
the offset at the position of its dimension and nothing else. -/
theorem YkGridBase.offset_setter_ok (g g2 : YkGridBase) (dim : String) (n : Int)
    (h : g._set_offset dim n = Except.ok g2 ∨ g.set_first_misc_index dim n = Except.ok g2) :
    g2 = { g with
      _offsets := Function.update g._offsets ((g.ggb_dims.lookup_posn dim).getD 0) n } := by
  rcases h with h | h
  · have hacc := (SetterCall._set_offset dim n).accepted_of_ok g g2 h
    have hr := (SetterCall._set_offset dim n).run_eq g hacc
    have hr2 : g._set_offset dim n = Except.ok ((SetterCall._set_offset dim n).assign g) := hr
    rw [hr2] at h
    cases h
    rfl
  · have hacc := (SetterCall.set_first_misc_index dim n).accepted_of_ok g g2 h
    have hr := (SetterCall.set_first_misc_index dim n).run_eq g hacc
    have hr2 : g.set_first_misc_index dim n
        = Except.ok ((SetterCall.set_first_misc_index dim n).assign g) := hr
    rw [hr2] at h
    cases h
    rfl

/-- C31: in a grid state `g'` produced by a `resize()` that returns, for a
dimension `dim` used in the grid with fold length `>= 1` and `halo <= pad`: the
domain extended by the halo on both sides lies inside the allowed index range,
`first_allowed <= offset - halo` and `offset + domain - 1 + halo <=
last_allowed`; if the dimension is a domain dimension,
`get_last_rank_alloc_index - get_first_rank_alloc_index + 1 == get_alloc_size`;
and after a `_set_offset` or `set_first_misc_index` on any dimension that
returns, the grid differs in the offset of that dimension only and both
relations hold again. -/
theorem C31_halo_within_allowed (g g' : YkGridBase) (dim : String)
    (hr : g.resize = Except.ok g') (hu : g'.is_dim_used dim = true)
    (hfold : 1 ≤ g'._vec_lens ((g'.ggb_dims.lookup_posn dim).getD 0))
    (hhalo : g'._halos ((g'.ggb_dims.lookup_posn dim).getD 0)
      ≤ g'._pads ((g'.ggb_dims.lookup_posn dim).getD 0)) :
    g'.haloWithinAllowed dim ∧
      (g'._dims.kind dim = DimKind.domain → g'.allocIndexSpan dim) ∧
      ∀ (dim2 : String) (n : Int) (g2 : YkGridBase),
        g'._set_offset dim2 n = Except.ok g2 ∨
          g'.set_first_misc_index dim2 n = Except.ok g2 →
        g2 = { g' with
            _offsets :=
              Function.update g'._offsets ((g'.ggb_dims.lookup_posn dim2).getD 0) n } ∧
          g2.haloWithinAllowed dim ∧
          (g2._dims.kind dim = DimKind.domain → g2.allocIndexSpan dim) := by
  have hg' : g' = g.resized := by
    rw [YkGridBase.resize_eq] at hr
    split at hr
    · cases hr
    · cases hr; rfl
  have hp : (g'.ggb_dims.lookup_posn dim).getD 0 < g.get_num_dims := by
    unfold YkGridBase.is_dim_used at hu
    cases hl : g'.ggb_dims.lookup_posn dim with
    | none => rw [hl] at hu; cases hu
    | some p =>
      have := Tuple.lookup_posn_lt _ _ _ hl
      rw [hg'] at this
      have hn := g.get_num_dims_resized
      unfold YkGridBase.get_num_dims at hn
      rw [hn] at this
      exact this
  have halloc : g'._domains ((g'.ggb_dims.lookup_posn dim).getD 0)
        + 2 * g'._pads ((g'.ggb_dims.lookup_posn dim).getD 0)
      ≤ g'._allocs ((g'.ggb_dims.lookup_posn dim).getD 0) := by
    have ha := g.resized_allocs _ hp
    rw [← hg'] at ha
    rw [ha]
    exact ROUND_UP_ge _ _ hfold
  refine ⟨g'.haloWithinAllowed_of_fields dim hu hhalo halloc,
    fun hk => g'.allocIndexSpan_of_domain dim hu hk, fun dim2 n g2 h2 => ?_⟩
  have e := g'.offset_setter_ok g2 dim2 n h2
  subst e
  exact ⟨rfl, YkGridBase.haloWithinAllowed_of_fields _ dim hu hhalo halloc,
    fun hk => YkGridBase.allocIndexSpan_of_domain _ dim hu hk⟩

/-- C31 at `gridA` (fold 4, domain 6, pad and halo 1 in `x`): `resize()` returns
with pad 4 and allocation 16 in `x`, the allowed range `-4 .. 11` holds the
domain with its halo `-1 .. 6`, and the span of the allocation indices is the
allocation size. -/
theorem C31_halo_within_allowed_witness :
    gridA.resize = Except.ok gridA.resized ∧
      gridA.resized._get_first_allowed_index "x" = Except.ok (-4) ∧
      gridA.resized._get_last_allowed_index "x" = Except.ok 11 ∧
      gridA.resized.haloWithinAllowed "x" ∧ gridA.resized.allocIndexSpan "x" :=
  ⟨rfl, rfl, rfl,
    (C31_halo_within_allowed gridA gridA.resized "x" rfl rfl (by decide) (by decide)).1,
    (C31_halo_within_allowed gridA gridA.resized "x" rfl rfl (by decide) (by decide)).2.1 rfl⟩


/-- The grid after a setter call that returns has the names, the problem
dimensions and the fold lengths of the grid before. -/
theorem SetterCall.ok_frame (c : SetterCall) (g g' : YkGridBase)
    (h : c.run g = Except.ok g') :
    g'.ggb_dims.getDimNames = g.ggb_dims.getDimNames ∧ g'._dims = g._dims ∧
      g'._vec_lens = g._vec_lens := by
  have hacc := c.accepted_of_ok g g' h
  rw [c.run_eq g hacc] at h
  obtain ⟨f1, f2, _, _, _, f6⟩ := c.assign_frame g
  split at h
  · rw [YkGridBase.resize_eq] at h
    split at h
    · cases h
    · cases h
      refine ⟨?_, f6, f2⟩
      have : (c.assign g).resized.ggb_dims.getDimNames = (c.assign g).ggb_dims.getDimNames :=
        YkGridBase.getDimNames_setDimSizes _ _ _
      rw [this, f1]
  · cases h
    exact ⟨by rw [f1], f6, f2⟩

/-- A getter for domain dimensions on the grid after a setter call for domain
dimensions that returns: it returns its expression at the position of the
dimension. -/
theorem SetterCall.getter_after (c : SetterCall) (g g' : YkGridBase)
    (h : c.run g = Except.ok g') (hk : c.accepts (g._dims.kind c.dim) = true →
      g._dims.kind c.dim = DimKind.domain)
    (expr : YkGridBase → Nat → Int) :
    YkGridBase.GET_GRID_API false true false expr g' c.dim
      = Except.ok (expr g' (c.posn g)) := by
  have hacc := c.accepted_of_ok g g' h
  obtain ⟨hu, ha⟩ := (c.accepted_iff g).1 hacc
  obtain ⟨f1, f2, _⟩ := c.ok_frame g g' h
  have hl := Tuple.lookup_posn_eq_of_names _ _ f1 c.dim
  have hu' : g'.is_dim_used c.dim = true := by
    unfold YkGridBase.is_dim_used at hu ⊢
    rw [hl]
    exact hu
  have hd : (g'._dims.kind c.dim).allowed false true false = true := by
    rw [f2, hk ha]
    rfl
  have := (g'.GET_GRID_API_eq c.dim false true false expr).1 ⟨hu', hd⟩
  rw [hl] at this
  exact this

theorem SetterCall.assign_set_min_pad_size (g : YkGridBase) (dim : String) (n : Int) :
    (SetterCall.set_min_pad_size dim n).assign g
      = if n > g._pads ((g.ggb_dims.lookup_posn dim).getD 0) then
          { g with
            _pads :=
              Function.update g._pads ((g.ggb_dims.lookup_posn dim).getD 0)
                (max n (g._halos ((g.ggb_dims.lookup_posn dim).getD 0))) }
        else g := rfl

theorem SetterCall.assign_set_extra_pad_size (g : YkGridBase) (dim : String) (n : Int) :
    (SetterCall.set_extra_pad_size dim n).assign g
      = if g._halos ((g.ggb_dims.lookup_posn dim).getD 0) + n
            > g._pads ((g.ggb_dims.lookup_posn dim).getD 0) then
          { g with
            _pads :=
              Function.update g._pads ((g.ggb_dims.lookup_posn dim).getD 0)
                (max (g._halos ((g.ggb_dims.lookup_posn dim).getD 0) + n)
                  (g._halos ((g.ggb_dims.lookup_posn dim).getD 0))) }
        else g := rfl

theorem SetterCall.assign_set_halo_size (g : YkGridBase) (dim : String) (n : Int) :
    (SetterCall.set_halo_size dim n).assign g
      = { g with
          _halos := Function.update g._halos ((g.ggb_dims.lookup_posn dim).getD 0) n
          _pads :=
            Function.update g._pads ((g.ggb_dims.lookup_posn dim).getD 0)
              (max (g._pads ((g.ggb_dims.lookup_posn dim).getD 0)) n) } := by
  show ({ g with
      _halos := Function.update g._halos ((g.ggb_dims.lookup_posn dim).getD 0) n
      _pads :=
        Function.update g._pads ((g.ggb_dims.lookup_posn dim).getD 0)
          (max (g._pads ((g.ggb_dims.lookup_posn dim).getD 0))
            (Function.update g._halos ((g.ggb_dims.lookup_posn dim).getD 0) n
              ((g.ggb_dims.lookup_posn dim).getD 0))) } : YkGridBase) = _
  rw [Function.update_same]

/-- The pad and the halo at position `p` after a setter call that reaches
`resize()` and returns: the pad that the setter assigned, rounded up to the fold
length, and the halo that it assigned. -/
theorem SetterCall.resized_at (c : SetterCall) (g g' : YkGridBase)
    (hres : c.runsResize g = true) (h : c.run g = Except.ok g') :
    g'._pads (c.posn g)
        = ROUND_UP ((c.assign g)._pads (c.posn g)) (g._vec_lens (c.posn g)) ∧
      g'._halos (c.posn g) = (c.assign g)._halos (c.posn g) := by
  have hacc := c.accepted_of_ok g g' h
  have hp := c.posn_lt g hacc
  have e := c.ok_of_runsResize g g' hres h
  rw [e, YkGridBase.resized_pads _ _ (by rw [SetterCall.get_num_dims_assign]; exact hp),
    (c.assign_frame g).2.1]
  exact ⟨rfl, rfl⟩

/-- A setter call that does not reach `resize()` and returns leaves what it
assigned. -/
theorem SetterCall.ok_of_not_runsResize (c : SetterCall) (g g' : YkGridBase)
    (hres : c.runsResize g = false) (h : c.run g = Except.ok g') : g' = c.assign g := by
  have hacc := c.accepted_of_ok g g' h
  rw [c.run_eq g hacc, hres] at h
  simp only [Bool.false_eq_true, if_false] at h
  cases h
  rfl

/-- C32: for a dimension `dim` at position `p` with fold length `>= 1`:
a `set_min_pad_size(dim, n)` that returns leaves a pad that is `>=` the old pad
and `>= n`, and leaves the whole grid as it was when `n <=` the old pad (no
`resize()` runs); a `set_extra_pad_size(dim, n)` that returns leaves
`get_extra_pad_size(dim) = pad - halo >= n`; a `set_halo_size(dim, h)` that
returns leaves `get_halo_size(dim) = h` and `pad >= h`. (A call that returns was
made on a domain dimension used in the grid.) -/
theorem C32_pad_setters (g g' : YkGridBase) (dim : String) (n : Int)
    (hfold : 1 ≤ g._vec_lens ((g.ggb_dims.lookup_posn dim).getD 0)) :
    (g.set_min_pad_size dim n = Except.ok g' →
        g._dims.kind dim = DimKind.domain ∧
        g._pads ((g.ggb_dims.lookup_posn dim).getD 0)
          ≤ g'._pads ((g.ggb_dims.lookup_posn dim).getD 0) ∧
        n ≤ g'._pads ((g.ggb_dims.lookup_posn dim).getD 0) ∧
        (n ≤ g._pads ((g.ggb_dims.lookup_posn dim).getD 0) → g' = g) ∧
        g'.get_pad_size dim = Except.ok (g'._pads ((g.ggb_dims.lookup_posn dim).getD 0))) ∧
      (g.set_extra_pad_size dim n = Except.ok g' →
        g._dims.kind dim = DimKind.domain ∧
        g'.get_extra_pad_size dim
          = Except.ok
              (g'._pads ((g.ggb_dims.lookup_posn dim).getD 0)
                - g'._halos ((g.ggb_dims.lookup_posn dim).getD 0)) ∧
        n ≤ g'._pads ((g.ggb_dims.lookup_posn dim).getD 0)
          - g'._halos ((g.ggb_dims.lookup_posn dim).getD 0)) ∧
      (g.set_halo_size dim n = Except.ok g' →
        g._dims.kind dim = DimKind.domain ∧
        g'.get_halo_size dim = Except.ok n ∧
        g'._halos ((g.ggb_dims.lookup_posn dim).getD 0) = n ∧
        n ≤ g'._pads ((g.ggb_dims.lookup_posn dim).getD 0) ∧
        g'.get_pad_size dim = Except.ok (g'._pads ((g.ggb_dims.lookup_posn dim).getD 0))) := by
  have hkind : ∀ c : SetterCall, c.dim = dim → c.accepted g →
      (c.accepts (g._dims.kind dim) = true → g._dims.kind dim = DimKind.domain) →
      g._dims.kind dim = DimKind.domain := by
    intro c hd hacc hk
    have := ((c.accepted_iff g).1 hacc).2
    rw [hd] at this
    exact hk this
  have hdom : ∀ k : DimKind, decide (k = DimKind.domain) = true → k = DimKind.domain :=
    fun k h => of_decide_eq_true h
  refine ⟨fun h => ?_, fun h => ?_, fun h => ?_⟩
  · -- set_min_pad_size
    have h' : (SetterCall.set_min_pad_size dim n).run g = Except.ok g' := h
    have hacc := (SetterCall.set_min_pad_size dim n).accepted_of_ok g g' h'
    have hk := hkind (SetterCall.set_min_pad_size dim n) rfl hacc (hdom _)
    have hget : g'.get_pad_size dim
        = Except.ok (g'._pads ((g.ggb_dims.lookup_posn dim).getD 0)) :=
      (SetterCall.set_min_pad_size dim n).getter_after g g' h' (hdom _)
        (fun g posn => g._pads posn)
    by_cases hn : n > g._pads ((g.ggb_dims.lookup_posn dim).getD 0)
    · have hres : (SetterCall.set_min_pad_size dim n).runsResize g = true :=
        decide_eq_true hn
      have hpad : g'._pads ((g.ggb_dims.lookup_posn dim).getD 0)
          = ROUND_UP (max n (g._halos ((g.ggb_dims.lookup_posn dim).getD 0)))
              (g._vec_lens ((g.ggb_dims.lookup_posn dim).getD 0)) := by
        have := ((SetterCall.set_min_pad_size dim n).resized_at g g' hres h').1
        rw [show (SetterCall.set_min_pad_size dim n).posn g
          = (g.ggb_dims.lookup_posn dim).getD 0 from rfl,
          SetterCall.assign_set_min_pad_size, if_pos hn] at this
        simp only [Function.update_same] at this
        exact this
      have hge := ROUND_UP_ge (max n (g._halos ((g.ggb_dims.lookup_posn dim).getD 0))) _ hfold
      have hmax := le_max_left n (g._halos ((g.ggb_dims.lookup_posn dim).getD 0))
      refine ⟨hk, ?_, ?_, fun hle => ?_, hget⟩
      · rw [hpad]; omega
      · rw [hpad]; omega
      · omega
    · have hres : (SetterCall.set_min_pad_size dim n).runsResize g = false :=
        decide_eq_false hn
      have e := (SetterCall.set_min_pad_size dim n).ok_of_not_runsResize g g' hres h'
      rw [SetterCall.assign_set_min_pad_size, if_neg hn] at e
      subst e
      exact ⟨hk, le_refl _, by omega, fun _ => rfl, hget⟩
  · -- set_extra_pad_size
    have h' : (SetterCall.set_extra_pad_size dim n).run g = Except.ok g' := h
    have hacc := (SetterCall.set_extra_pad_size dim n).accepted_of_ok g g' h'
    have hk := hkind (SetterCall.set_extra_pad_size dim n) rfl hacc (hdom _)
    have hget : g'.get_extra_pad_size dim
        = Except.ok
            (g'._pads ((g.ggb_dims.lookup_posn dim).getD 0)
              - g'._halos ((g.ggb_dims.lookup_posn dim).getD 0)) :=
      (SetterCall.set_extra_pad_size dim n).getter_after g g' h' (hdom _)
        (fun g posn => g._pads posn - g._halos posn)
    refine ⟨hk, hget, ?_⟩
    by_cases hn : g._halos ((g.ggb_dims.lookup_posn dim).getD 0) + n
        > g._pads ((g.ggb_dims.lookup_posn dim).getD 0)
    · have hres : (SetterCall.set_extra_pad_size dim n).runsResize g = true :=
        decide_eq_true hn
      obtain ⟨hpad, hhalo⟩ := (SetterCall.set_extra_pad_size dim n).resized_at g g' hres h'
      rw [show (SetterCall.set_extra_pad_size dim n).posn g
        = (g.ggb_dims.lookup_posn dim).getD 0 from rfl,
        SetterCall.assign_set_extra_pad_size, if_pos hn] at hpad hhalo
      simp only [Function.update_same] at hpad
      have hpad2 : g'._pads ((g.ggb_dims.lookup_posn dim).getD 0)
          = ROUND_UP (max (g._halos ((g.ggb_dims.lookup_posn dim).getD 0) + n)
              (g._halos ((g.ggb_dims.lookup_posn dim).getD 0)))
              (g._vec_lens ((g.ggb_dims.lookup_posn dim).getD 0)) := hpad
      have hhalo2 : g'._halos ((g.ggb_dims.lookup_posn dim).getD 0)
          = g._halos ((g.ggb_dims.lookup_posn dim).getD 0) := hhalo
      have hge := ROUND_UP_ge (max (g._halos ((g.ggb_dims.lookup_posn dim).getD 0) + n)
        (g._halos ((g.ggb_dims.lookup_posn dim).getD 0))) _ hfold
      have hmax := le_max_left (g._halos ((g.ggb_dims.lookup_posn dim).getD 0) + n)
        (g._halos ((g.ggb_dims.lookup_posn dim).getD 0))
      rw [hpad2, hhalo2]
      omega
    · have hres : (SetterCall.set_extra_pad_size dim n).runsResize g = false :=
        decide_eq_false hn
      have e := (SetterCall.set_extra_pad_size dim n).ok_of_not_runsResize g g' hres h'
      rw [SetterCall.assign_set_extra_pad_size, if_neg hn] at e
      subst e
      omega
  · -- set_halo_size
    have h' : (SetterCall.set_halo_size dim n).run g = Except.ok g' := h
    have hacc := (SetterCall.set_halo_size dim n).accepted_of_ok g g' h'
    have hk := hkind (SetterCall.set_halo_size dim n) rfl hacc (hdom _)
    have hgeth : g'.get_halo_size dim
        = Except.ok (g'._halos ((g.ggb_dims.lookup_posn dim).getD 0)) :=
      (SetterCall.set_halo_size dim n).getter_after g g' h' (hdom _)
        (fun g posn => g._halos posn)
    have hgetp : g'.get_pad_size dim
        = Except.ok (g'._pads ((g.ggb_dims.lookup_posn dim).getD 0)) :=
      (SetterCall.set_halo_size dim n).getter_after g g' h' (hdom _)
        (fun g posn => g._pads posn)
    obtain ⟨hpad, hhalo⟩ := (SetterCall.set_halo_size dim n).resized_at g g' rfl h'
    rw [show (SetterCall.set_halo_size dim n).posn g
      = (g.ggb_dims.lookup_posn dim).getD 0 from rfl,
      SetterCall.assign_set_halo_size] at hpad hhalo
    simp only [Function.update_same] at hpad hhalo
    have hpad2 : g'._pads ((g.ggb_dims.lookup_posn dim).getD 0)
        = ROUND_UP (max (g._pads ((g.ggb_dims.lookup_posn dim).getD 0)) n)
            (g._vec_lens ((g.ggb_dims.lookup_posn dim).getD 0)) := by
      exact hpad
    have hhalo2 : g'._halos ((g.ggb_dims.lookup_posn dim).getD 0) = n := by
      exact hhalo
    have hge := ROUND_UP_ge (max (g._pads ((g.ggb_dims.lookup_posn dim).getD 0)) n) _ hfold
    have hmax := le_max_right (g._pads ((g.ggb_dims.lookup_posn dim).getD 0)) n
    refine ⟨hk, by rw [hgeth, hhalo2], hhalo2, by rw [hpad2]; omega, hgetp⟩

/-- C32 at `gridA` (fold 4, pad 1, halo 1 in `x`):
`set_min_pad_size("x", 5)` leaves pad 8; `set_min_pad_size("x", 0)` leaves the
grid as it was; `set_extra_pad_size("x", 2)` leaves pad 4 and extra pad 3;
`set_halo_size("x", 6)` leaves halo 6 and pad 8. -/
theorem C32_pad_setters_witness :
    (∃ g', gridA.set_min_pad_size "x" 5 = Except.ok g' ∧ g'._pads 0 = 8 ∧
        gridA._pads 0 ≤ g'._pads 0 ∧ (5 : Int) ≤ g'._pads 0) ∧
      gridA.set_min_pad_size "x" 0 = Except.ok gridA ∧
      (∃ g', gridA.set_extra_pad_size "x" 2 = Except.ok g' ∧
        g'.get_extra_pad_size "x" = Except.ok 3 ∧ (2 : Int) ≤ g'._pads 0 - g'._halos 0) ∧
      (∃ g', gridA.set_halo_size "x" 6 = Except.ok g' ∧
        g'.get_halo_size "x" = Except.ok 6 ∧ g'.get_pad_size "x" = Except.ok 8 ∧
        (6 : Int) ≤ g'._pads 0) :=
  ⟨⟨_, rfl, rfl,
      ((C32_pad_setters gridA _ "x" 5 (by decide)).1 rfl).2.1,
      ((C32_pad_setters gridA _ "x" 5 (by decide)).1 rfl).2.2.1⟩,
    rfl,
    ⟨_, rfl, rfl, ((C32_pad_setters gridA _ "x" 2 (by decide)).2.1 rfl).2.2⟩,
    ⟨_, rfl, rfl, rfl, ((C32_pad_setters gridA _ "x" 6 (by decide)).2.2 rfl).2.2.2.1⟩⟩


/-- C33: a `set_elements_in_slice` or a `set_elements_in_slice_same` that
returns leaves `is_updated`, and every field other than the storage, as it was,
whatever count it returns; a `set_element` that returns 1 leaves `is_updated`
false (the grid is marked dirty by `set_updated(false)`) and every field other
than the storage and the flag as it was, and one that returns 0 leaves the grid
as it was. -/
theorem C33_updated_flag (g g' : YkGridBase) :
    (∀ (buffer : Nat → real_t) (first last : GridIndices) (k : Nat),
      g.set_elements_in_slice buffer first last = Except.ok (k, g') →
        g'.is_updated = g.is_updated ∧ g' = { g with storage := g'.storage }) ∧
    (∀ (val : real_t) (first last : GridIndices) (strict : Bool) (k : Nat),
      g.set_elements_in_slice_same val first last strict = Except.ok (k, g') →
        g'.is_updated = g.is_updated ∧ g' = { g with storage := g'.storage }) ∧
    (∀ (val : real_t) (indices : GridIndices) (strict : Bool),
      g.set_element val indices strict = Except.ok (1, g') →
        g'.is_updated = false ∧
          g' = { g with storage := g'.storage, is_updated := false }) ∧
    (∀ (val : real_t) (indices : GridIndices) (strict : Bool),
      g.set_element val indices strict = Except.ok (0, g') → g' = g) := by
  refine ⟨fun buffer first last k h => ?_, fun val first last strict k h => ?_,
    fun val indices strict h => ?_, fun val indices strict h => ?_⟩
  · unfold YkGridBase.set_elements_in_slice at h
    split at h
    · cases h
      rename_i hs
      refine ⟨rfl, ?_⟩
      cases g
      simp only at hs
      subst hs
      rfl
    · split at h
      · cases h
      · split at h
        · cases h
        · cases h
          exact ⟨rfl, rfl⟩
  · unfold YkGridBase.set_elements_in_slice_same at h
    split at h
    · cases h
      rename_i hs
      refine ⟨rfl, ?_⟩
      cases g
      simp only at hs
      subst hs
      rfl
    · split at h
      · cases h
      · split at h
        · cases h
        · cases h
          exact ⟨rfl, rfl⟩
  · unfold YkGridBase.set_element at h
    split at h
    · cases h
    · split at h
      · cases h
      · cases h
      · cases h
        exact ⟨rfl, rfl⟩
  · unfold YkGridBase.set_element at h
    split at h
    · cases h
      rfl
    · split at h
      · cases h
      · cases h
        rfl
      · cases h

/-- C33 at `gridXY`, whose flag is `true`: `set_elements_in_slice` and
`set_elements_in_slice_same` over the full region return 6 and leave the flag
`true`; `set_element` at `(0, 0)` returns 1 and leaves the flag `false`. -/
theorem C33_updated_flag_witness :
    gridXY.is_updated = true ∧
      (∃ g', gridXY.set_elements_in_slice (bufferOf [1, 2, 3, 4, 5, 6]) [0, 0] [2, 1]
          = Except.ok (6, g') ∧ g'.is_updated = true) ∧
      (∃ g', gridXY.set_elements_in_slice_same 7 [0, 0] [2, 1] false = Except.ok (6, g') ∧
        g'.is_updated = true) ∧
      (∃ g', gridXY.set_element 7 [0, 0] false = Except.ok (1, g') ∧
        g'.is_updated = false) :=
  ⟨rfl,
    ⟨_, rfl, ((C33_updated_flag gridXY _).1 (bufferOf [1, 2, 3, 4, 5, 6]) [0, 0] [2, 1] 6
      rfl).1⟩,
    ⟨_, rfl, ((C33_updated_flag gridXY _).2.1 7 [0, 0] [2, 1] false 6 rfl).1⟩,
    ⟨_, rfl, ((C33_updated_flag gridXY _).2.2.1 7 [0, 0] false rfl).1⟩⟩

end yask
